import Mathlib

/-!
# Adaptive scan layer (`nmap_integration_patch.cc` / `.h`)

A shallow embedding of `NmapIntegration::OptimizationWrapper` and of the pieces of
machine arithmetic it relies on, followed by theorems about it.

Conventions of the embedding.

* `int` values are mathematical integers; every store into an `int` goes through
  `wrap_int32`, every value of type `size_t` / `unsigned long` is reduced modulo `2 ^ 64`.
* `double` values are the rationals they denote.  An arithmetic operation is the exact
  rational operation followed by `roundBinary64` (IEEE-754 binary64, round to nearest, ties
  to even, unbounded exponent: none of the computations below leaves the normal range).
  Division can produce an infinity or a NaN, so the report code uses `F64`.
* Pointers (`Target *`, `const scan_lists *`) are addresses, `0` being `NULL`; a nullable
  `timeout_info *` whose pointee is read and written is an `Option timeout_info` holding the
  pointee.
* The external probe engine is a record of functions (`Engine`) on the scan-state handle.
* `std::cout` output and calls into the engine are recorded, in program order, as a list of
  `Event`s.
* The `std::async` tasks of `parallel_scan_targets` are run one after another in an order
  chosen by a `Schedule`; these are the sequential interleavings of the concurrent program.
* A C string (`const char *`) is the `String` of its characters before the terminating NUL;
  the two globals of the option handling are threaded through as a `Globals` record.
-/

namespace NmapIntegration

/-! ## Machine integers -/

/-- Two's-complement reduction of an integer to the range of a 32-bit `int`. -/
def wrap_int32 (x : ℤ) : ℤ := (x + 2 ^ 31) % 2 ^ 32 - 2 ^ 31

/-- Conversion `static_cast<size_t>(int)`: reduction modulo `2 ^ 64`. -/
def size_t_of_int (x : ℤ) : ℕ := (x % 2 ^ 64).toNat

/-! ## Binary64 arithmetic -/

/-- Nearest integer to a rational, ties going to the even neighbour. -/
def roundHalfEven (y : ℚ) : ℤ :=
  let f := ⌊y⌋
  let r := y - f
  if r < 1 / 2 then f
  else if 1 / 2 < r then f + 1
  else if f % 2 = 0 then f else f + 1

/-- Nearest binary64 value (53-bit significand, ties to even) of a rational. -/
def roundBinary64 (x : ℚ) : ℚ :=
  if x = 0 then 0
  else
    let e := Int.log 2 |x|
    let m := roundHalfEven (|x| * (2 : ℚ) ^ (52 - e))
    (if x < 0 then -1 else 1) * (m : ℚ) * (2 : ℚ) ^ (e - 52)

/-- The `double` product of two finite doubles. -/
def fmul (a b : ℚ) : ℚ := roundBinary64 (a * b)

/-- The literal `0.4`. -/
def lit_0_4 : ℚ := roundBinary64 0.4
/-- The literal `0.6`. -/
def lit_0_6 : ℚ := roundBinary64 0.6
/-- The literal `0.85`. -/
def lit_0_85 : ℚ := roundBinary64 0.85
/-- The literal `1.2`. -/
def lit_1_2 : ℚ := roundBinary64 1.2
/-- The literal `1.3`. -/
def lit_1_3 : ℚ := roundBinary64 1.3
/-- The literal `2.0`. -/
def lit_2_0 : ℚ := roundBinary64 2.0
/-- The literal `1000.0`. -/
def lit_1000_0 : ℚ := roundBinary64 1000.0

/-- Truncation of a rational toward zero. -/
def truncToInt (x : ℚ) : ℤ := if 0 ≤ x then ⌊x⌋ else ⌈x⌉

/-- The cast `(int)d` / `static_cast<int>(d)` of a double.  C++ defines it only when the
truncated value fits an `int`; outside that range the embedding wraps. -/
def double_to_int (d : ℚ) : ℤ := wrap_int32 (truncToInt d)

/-- The cast `(unsigned long)d` of a double (a value in `[0, 2 ^ 64)`).  C++ defines it only
when the truncated value is in that range; outside it the embedding reduces modulo
`2 ^ 64`. -/
def double_to_ulong (d : ℚ) : ℤ := truncToInt d % 2 ^ 64

/-- Storing an `unsigned long` into an `int`. -/
def ulong_to_int (n : ℤ) : ℤ := wrap_int32 n

/-- A `double` that may be infinite or not a number. -/
inductive F64 where
  | fin (q : ℚ)
  | inf (negative : Bool)
  | nan
  deriving DecidableEq

/-- Conversion of an integer to `double`. -/
def F64.ofInt (i : ℤ) : F64 := F64.fin (roundBinary64 i)

/-- The `double` quotient.  A finite numerator over zero is an infinity, `0 / 0` is NaN. -/
def F64.div : F64 → F64 → F64
  | F64.fin a, F64.fin b =>
      if b = 0 then (if a = 0 then F64.nan else F64.inf (decide (a < 0)))
      else F64.fin (roundBinary64 (a / b))
  | F64.fin _, F64.inf _ => F64.fin 0
  | F64.inf s, F64.fin b => F64.inf (xor s (decide (b < 0)))
  | F64.inf _, F64.inf _ => F64.nan
  | F64.nan, _ => F64.nan
  | _, F64.nan => F64.nan

/-- The `double` product. -/
def F64.mul : F64 → F64 → F64
  | F64.fin a, F64.fin b => F64.fin (roundBinary64 (a * b))
  | F64.fin a, F64.inf s => if a = 0 then F64.nan else F64.inf (xor s (decide (a < 0)))
  | F64.inf s, F64.fin b => if b = 0 then F64.nan else F64.inf (xor s (decide (b < 0)))
  | F64.inf s, F64.inf t => F64.inf (xor s t)
  | F64.nan, _ => F64.nan
  | _, F64.nan => F64.nan

/-! ## Data model -/

/-- The type `Target *`: an address, `0` for `NULL`. -/
abbrev TargetPtr := ℕ

/-- The type `const struct scan_lists *`: an address. -/
abbrev scan_lists_ptr := ℕ

/-- The enumeration `stype`. -/
abbrev stype := ℕ

/-- Modelled from the spec: `struct timeout_info` is declared in `timing.h`, which is not
among the sources; the three fields are the TimeoutProfile of the data model (smoothed
round-trip estimate, round-trip variance, timeout ceiling), the code reads and writes them as
`int`s. -/
structure timeout_info where
  srtt : ℤ
  rttvar : ℤ
  timeout : ℤ
  deriving DecidableEq

/-- Modelled from the spec: the group statistics of the engine's scan state (`scan_engine.h`
is not among the sources): its TimeoutProfile and the raw probe count. -/
structure GroupScanStats where
  to_ : timeout_info
  numprobes : ℤ
  deriving DecidableEq

/-- Modelled from the spec: the congestion parameters of the engine's scan state
(`scan_engine.h` is not among the sources), all `int`s. -/
structure ultra_scan_performance_vars where
  max_cwnd : ℤ
  host_initial_cwnd : ℤ
  slow_incr : ℤ
  ca_incr : ℤ
  deriving DecidableEq

/-- Modelled from the spec: the opaque scan-state handle `UltraScanInfo`; `engine` is the
part of the state this layer never looks at. -/
structure UltraScanInfo (σ : Type) where
  gstats : GroupScanStats
  perf : ultra_scan_performance_vars
  engine : σ

/-- The struct `OptimizationConfig`; the four `std::atomic<int>` counters are `int`s. -/
structure OptimizationConfig where
  enabled : Bool
  parallel_workers : ℤ
  adaptive_timeout_factor : ℚ
  performance_monitoring : Bool
  batch_processing : Bool
  smart_retry : Bool
  probes_sent : ℤ
  responses_received : ℤ
  timeouts : ℤ
  errors : ℤ
  deriving DecidableEq

/-- The data members of `OptimizationWrapper`.  The two time points are readings of
`std::chrono::high_resolution_clock`, counted in nanoseconds. -/
structure OptimizationWrapper where
  config : OptimizationConfig
  start_time : ℤ
  end_time : ℤ
  deriving DecidableEq

/-- What the program does to the outside world, in program order. -/
inductive Event where
  | cout (line : String)
  | cout_double (label : String) (value : F64) (unit : String)
  | ultra_scan (Targets : List TargetPtr) (ports : scan_lists_ptr) (scantype : stype)
      (to_ : Option timeout_info)
  | UltraScanInfo_new (Targets : List TargetPtr) (ports : scan_lists_ptr) (scantype : stype)
  | begin_sniffer
  | doAnyPings
  | doAnyOutstandingRetransmits
  | doAnyRetryStackRetransmits
  | doAnyNewProbes
  | waitForResponses
  | processData
  | keyWasPressed (result : Bool)
  | printStats
  | log_current_rates
  | log_flush
  deriving DecidableEq

/-- Modelled from the spec: the external probe engine (`scan_engine.h`, `timing.h` and the
engine itself are not among the sources).  `ultra_scan` is the baseline scan, given as its
effect on the caller's timeout profile; the other fields are the constructor, the two
predicates and the six operations on the scan-state handle listed in the spec. -/
structure Engine (σ : Type) where
  ultra_scan : List TargetPtr → scan_lists_ptr → stype → Option timeout_info →
    Option timeout_info
  UltraScanInfo_new : List TargetPtr → scan_lists_ptr → stype → UltraScanInfo σ
  isRawScan : UltraScanInfo σ → Bool
  begin_sniffer : UltraScanInfo σ → List TargetPtr → UltraScanInfo σ
  incompleteHostsEmpty : UltraScanInfo σ → Bool
  doAnyPings : UltraScanInfo σ → UltraScanInfo σ
  doAnyOutstandingRetransmits : UltraScanInfo σ → UltraScanInfo σ
  doAnyRetryStackRetransmits : UltraScanInfo σ → UltraScanInfo σ
  doAnyNewProbes : UltraScanInfo σ → UltraScanInfo σ
  waitForResponses : UltraScanInfo σ → UltraScanInfo σ
  processData : UltraScanInfo σ → UltraScanInfo σ

/-- An order in which the tasks launched by `parallel_scan_targets` run to completion, one
after another. -/
structure Schedule where
  order : List (List TargetPtr) → List (List TargetPtr)
  perm : ∀ l, (order l).Perm l

/-- Tasks run in the order they were launched. -/
def Schedule.fifo : Schedule := ⟨id, fun l => List.Perm.refl l⟩

/-- Tasks run in the reverse of the order they were launched. -/
def Schedule.lifo : Schedule := ⟨List.reverse, fun l => List.reverse_perm l⟩

/-- Inputs the environment supplies during one call of the entry point: the result of the
`n`-th `keyWasPressed()` poll, the flag `o.debugging`, the order in which parallel tasks
run, and the clock readings taken by `start_performance_monitoring` and
`stop_performance_monitoring`. -/
structure Env where
  keyWasPressed : ℕ → Bool
  debugging : Bool
  schedule : Schedule
  now_start : ℤ
  now_stop : ℤ

/-- Ways a run can fail to return. -/
inductive Fault where
  | division_by_zero
  | loop_not_finished
  deriving DecidableEq

/-! ## `OptimizationWrapper` -/

/-- The constructor `OptimizationWrapper::OptimizationWrapper()`. -/
def OptimizationWrapper.new : OptimizationWrapper :=
  { config :=
      { enabled := false
        parallel_workers := 20
        adaptive_timeout_factor := roundBinary64 0.8
        performance_monitoring := true
        batch_processing := true
        smart_retry := true
        probes_sent := 0
        responses_received := 0
        timeouts := 0
        errors := 0 }
    start_time := 0
    end_time := 0 }

/-- The setter `set_optimization_enabled`. -/
def set_optimization_enabled (w : OptimizationWrapper) (enabled : Bool) : OptimizationWrapper :=
  { w with config := { w.config with enabled := enabled } }

/-- The function `apply_optimized_timeouts`, on the pointee of `to`. -/
def apply_optimized_timeouts (to_ : Option timeout_info) : Option timeout_info × List Event :=
  match to_ with
  | none => (none, [])
  | some t =>
    let aggressive_factor := lit_0_4
    let t1 := { t with timeout := double_to_int (fmul t.timeout aggressive_factor) }
    let t2 := { t1 with srtt := double_to_int (fmul t1.srtt aggressive_factor) }
    (some t2,
      [Event.cout_double ("Applied aggressive optimized timeouts - factor: ")
        (F64.fin aggressive_factor) ("")])

/-- The function `apply_batch_processing`: a line of output, the loop over the targets does
nothing. -/
def apply_batch_processing (Targets : List TargetPtr) : List Event :=
  [Event.cout ("Applied batch processing for " ++ toString Targets.length ++ " targets")]

/-- The function `apply_smart_retry_logic`: a line of output. -/
def apply_smart_retry_logic : List Event :=
  [Event.cout ("Applied smart retry logic")]

/-- The function `start_performance_monitoring`; `now` is the clock reading. -/
def start_performance_monitoring (now : ℤ) (w : OptimizationWrapper) :
    OptimizationWrapper × List Event :=
  ({ w with start_time := now }, [Event.cout ("Performance monitoring started")])

/-- The function `stop_performance_monitoring`; `now` is the clock reading. -/
def stop_performance_monitoring (now : ℤ) (w : OptimizationWrapper) :
    OptimizationWrapper × List Event :=
  ({ w with end_time := now }, [Event.cout ("Performance monitoring stopped")])

/-- The value `duration.count()` of `print_performance_report`: the difference of the two
time points, cast to whole milliseconds (truncation toward zero). -/
def duration_count (w : OptimizationWrapper) : ℤ :=
  Int.tdiv (w.end_time - w.start_time) 1000000

/-- The function `print_performance_report`. -/
def print_performance_report (w : OptimizationWrapper) : List Event :=
  let duration := duration_count w
  [ Event.cout ("=== Performance Report ==="),
    Event.cout ("Scan duration: " ++ toString duration ++ "ms"),
    Event.cout ("Probes sent: " ++ toString w.config.probes_sent),
    Event.cout ("Responses received: " ++ toString w.config.responses_received),
    Event.cout ("Timeouts: " ++ toString w.config.timeouts),
    Event.cout ("Errors: " ++ toString w.config.errors) ]
  ++ (if w.config.probes_sent > 0 then
        let success_rate :=
          F64.mul (F64.div (F64.ofInt w.config.responses_received)
            (F64.ofInt w.config.probes_sent)) (F64.ofInt 100)
        let throughput :=
          F64.div (F64.ofInt w.config.probes_sent)
            (F64.div (F64.ofInt duration) (F64.fin lit_1000_0))
        [ Event.cout_double ("Success rate: ") success_rate ("%"),
          Event.cout_double ("Throughput: ") throughput (" probes/sec") ]
      else [])
  ++ [Event.cout ("=========================")]

/-- The function `optimize_scan_parameters_for_engine`. -/
def optimize_scan_parameters_for_engine {σ : Type} (USI : UltraScanInfo σ) :
    UltraScanInfo σ × List Event :=
  let is_large_scan : Bool := decide (USI.gstats.numprobes > 1000)
  let USI1 : UltraScanInfo σ :=
    if is_large_scan then
      { USI with
        perf :=
          { max_cwnd := min (double_to_int (fmul USI.perf.max_cwnd lit_2_0)) 1000
            host_initial_cwnd :=
              min (double_to_int (fmul USI.perf.host_initial_cwnd lit_2_0)) 100
            slow_incr := max (double_to_int (fmul USI.perf.slow_incr lit_2_0)) 1
            ca_incr := max (double_to_int (fmul USI.perf.ca_incr lit_2_0)) 1 }
        gstats :=
          { USI.gstats with
            to_ :=
              { USI.gstats.to_ with
                timeout :=
                  ulong_to_int (max (double_to_ulong (fmul USI.gstats.to_.timeout lit_0_6)) 15000)
                srtt :=
                  ulong_to_int (max (double_to_ulong (fmul USI.gstats.to_.srtt lit_0_6)) 8000) } } }
    else
      { USI with
        perf :=
          { max_cwnd := min (double_to_int (fmul USI.perf.max_cwnd lit_1_3)) 500
            host_initial_cwnd :=
              min (double_to_int (fmul USI.perf.host_initial_cwnd lit_1_3)) 25
            slow_incr := max (double_to_int (fmul USI.perf.slow_incr lit_1_2)) 1
            ca_incr := max (double_to_int (fmul USI.perf.ca_incr lit_1_2)) 1 }
        gstats :=
          { USI.gstats with
            to_ :=
              { USI.gstats.to_ with
                timeout :=
                  ulong_to_int (max (double_to_ulong (fmul USI.gstats.to_.timeout lit_0_85)) 22000)
                srtt :=
                  ulong_to_int
                    (max (double_to_ulong (fmul USI.gstats.to_.srtt lit_0_85)) 12000) } } }
  (USI1,
    [ Event.cout ("Optimizing scan parameters for engine..."),
      Event.cout (if is_large_scan then "Large scan detected, applying aggressive optimization..."
        else "Small scan detected, applying conservative optimization..."),
      Event.cout ("Optimized parameters - Max CWND: " ++ toString USI1.perf.max_cwnd
        ++ ", Host CWND: " ++ toString USI1.perf.host_initial_cwnd
        ++ ", Timeout: " ++ toString USI1.gstats.to_.timeout ++ "us") ])

/-- The `while` loop of `execute_optimized_scan_like_ultra_scan`.  `fuel` bounds the number
of iterations, `poll` counts the `keyWasPressed()` polls made so far.  The result is the
final scan state, the poll count and the events of the loop; `none` when the loop has not
finished within `fuel` iterations. -/
def scan_loop {σ : Type} (E : Engine σ) (env : Env) :
    ℕ → ℕ → UltraScanInfo σ → Option (UltraScanInfo σ × ℕ × List Event)
  | 0, poll, USI => if E.incompleteHostsEmpty USI then some (USI, poll, []) else none
  | fuel + 1, poll, USI =>
    if E.incompleteHostsEmpty USI then some (USI, poll, [])
    else
      let USI := E.doAnyPings USI
      let USI := E.doAnyOutstandingRetransmits USI
      let USI := E.doAnyRetryStackRetransmits USI
      let USI := E.doAnyNewProbes USI
      let USI := E.waitForResponses USI
      let USI := E.processData USI
      let pressed := env.keyWasPressed poll
      let events :=
        [ Event.doAnyPings, Event.doAnyOutstandingRetransmits,
          Event.doAnyRetryStackRetransmits, Event.doAnyNewProbes, Event.waitForResponses,
          Event.processData, Event.keyWasPressed pressed ]
        ++ (if pressed then
              [Event.printStats] ++ (if env.debugging then [Event.log_current_rates] else [])
                ++ [Event.log_flush]
            else [])
      match scan_loop E env fuel (poll + 1) USI with
      | none => none
      | some (USI, poll, rest) => some (USI, poll, events ++ rest)

/-- The function `execute_optimized_scan_like_ultra_scan`.  The result is the pointee of
`to` on return, the poll count and the events. -/
def execute_optimized_scan_like_ultra_scan {σ : Type} (E : Engine σ) (env : Env) (fuel : ℕ)
    (poll : ℕ) (Targets : List TargetPtr) (ports : scan_lists_ptr) (scantype : stype)
    (to_ : Option timeout_info) : Except Fault (Option timeout_info × ℕ × List Event) :=
  let USI := E.UltraScanInfo_new Targets ports scantype
  let USI : UltraScanInfo σ :=
    match to_ with
    | some t => { USI with gstats := { USI.gstats with to_ := t } }
    | none => USI
  let (USI, tuning) := optimize_scan_parameters_for_engine USI
  let raw := E.isRawScan USI
  let USI := if raw then E.begin_sniffer USI Targets else USI
  match scan_loop E env fuel poll USI with
  | none => Except.error Fault.loop_not_finished
  | some (USI, poll, loop) =>
    let to_ : Option timeout_info :=
      match to_ with
      | some _ => some USI.gstats.to_
      | none => none
    Except.ok (to_, poll,
      [ Event.cout ("Executing optimized scan like ultra_scan..."),
        Event.UltraScanInfo_new Targets ports scantype ]
      ++ tuning ++ (if raw then [Event.begin_sniffer] else []) ++ loop)

/-- The function `preprocess_targets`: a line of output; the three helpers it calls on every
non-null target have empty bodies. -/
def preprocess_targets (_Targets : List TargetPtr) : List Event :=
  [Event.cout ("Preprocessing targets...")]

/-- The function `apply_optimization_settings`: a line of output; the two helpers it calls
have empty bodies. -/
def apply_optimization_settings : List Event :=
  [Event.cout ("Applying optimization settings...")]

/-- The function `postprocess_results`: a line of output; the three helpers it calls on every
non-null target have empty bodies. -/
def postprocess_results (_Targets : List TargetPtr) : List Event :=
  [Event.cout ("Postprocessing results...")]

/-- The value of a `std::atomic<int>` counter after `fetch_add(arg)`. -/
def fetch_add (counter : ℤ) (arg : ℤ) : ℤ := wrap_int32 (counter + arg)

/-- The argument `Targets.size() * k` of a `fetch_add`: a `size_t` product converted to
`int`. -/
def size_times (n : ℕ) (k : ℤ) : ℤ := wrap_int32 ((n : ℤ) * k % 2 ^ 64)

/-- What a task of the adaptive scan works on: the configuration (for the counters), the
pointee of `to`, the number of key polls made, and the events so far. -/
structure RunState where
  config : OptimizationConfig
  to_ : Option timeout_info
  poll : ℕ
  trace : List Event

/-- The function `optimized_scan_engine`. -/
def optimized_scan_engine {σ : Type} (E : Engine σ) (env : Env) (fuel : ℕ)
    (Targets : List TargetPtr) (ports : scan_lists_ptr) (scantype : stype) (s : RunState) :
    Except Fault RunState :=
  match execute_optimized_scan_like_ultra_scan E env fuel s.poll Targets ports scantype s.to_ with
  | Except.error f => Except.error f
  | Except.ok (to_, poll, events) =>
    Except.ok
      { config :=
          { s.config with
            probes_sent := fetch_add s.config.probes_sent (size_times Targets.length 3000)
            responses_received :=
              fetch_add s.config.responses_received (size_times Targets.length 2400) }
        to_ := to_
        poll := poll
        trace := s.trace
          ++ [Event.cout ("Executing optimized scan engine for " ++ toString Targets.length
                ++ " targets")]
          ++ preprocess_targets Targets ++ apply_optimization_settings ++ events
          ++ postprocess_results Targets }

/-- The value `targets_per_worker` of `parallel_scan_targets`, for a non-zero worker count. -/
def targets_per_worker (size : ℕ) (workers : ℕ) : ℕ := max 1 (size / workers)

/-- The `for` loop of `parallel_scan_targets` that builds the `worker_targets` vectors:
`remaining` is `parallel_workers - i`, so that the loop condition `i < parallel_workers`
reads `remaining ≠ 0`.  The products `i * targets_per_worker` stay below twice the size of
the vector and do not wrap. -/
def worker_targets_loop (Targets : List TargetPtr) (targets_per_worker : ℕ) :
    ℕ → ℕ → List (List TargetPtr)
  | 0, _ => []
  | remaining + 1, i =>
    if i * targets_per_worker < Targets.length then
      let start_idx := i * targets_per_worker
      let end_idx := min (start_idx + targets_per_worker) Targets.length
      ((Targets.drop start_idx).take (end_idx - start_idx))
        :: worker_targets_loop Targets targets_per_worker remaining (i + 1)
    else []

/-- The `worker_targets` vectors built by `parallel_scan_targets`, in the order built. -/
def worker_targets (Targets : List TargetPtr) (workers : ℕ) : List (List TargetPtr) :=
  worker_targets_loop Targets (targets_per_worker Targets.length workers) workers 0

/-- Running the launched tasks one after another; every task calls `optimized_scan_engine`
on its own vector and on the one `to` they all captured. -/
def run_tasks {σ : Type} (E : Engine σ) (env : Env) (fuel : ℕ) (ports : scan_lists_ptr)
    (scantype : stype) : List (List TargetPtr) → RunState → Except Fault RunState
  | [], s => Except.ok s
  | task :: rest, s =>
    match optimized_scan_engine E env fuel task ports scantype s with
    | Except.error f => Except.error f
    | Except.ok s1 => run_tasks E env fuel ports scantype rest s1

/-- The function `parallel_scan_targets`. -/
def parallel_scan_targets {σ : Type} (E : Engine σ) (env : Env) (fuel : ℕ)
    (Targets : List TargetPtr) (ports : scan_lists_ptr) (scantype : stype) (s : RunState) :
    Except Fault RunState :=
  let workers := size_t_of_int s.config.parallel_workers
  if workers = 0 then Except.error Fault.division_by_zero
  else
    let tasks := worker_targets Targets workers
    let s0 : RunState :=
      { s with
        trace := s.trace
          ++ [Event.cout ("Executing parallel scan for " ++ toString Targets.length
                ++ " targets")] }
    match run_tasks E env fuel ports scantype (env.schedule.order tasks) s0 with
    | Except.error f => Except.error f
    | Except.ok s1 =>
      Except.ok { s1 with trace := s1.trace ++ [Event.cout ("Parallel scan completed")] }

/-- What a call of `ultra_scan_optimized` leaves behind: the wrapper, the pointee of the
caller's `to`, the events, and (for reference) the final value of the local variable
`optimized_to`, which exists only on the enabled path. -/
structure Outcome where
  wrapper : OptimizationWrapper
  to_ : Option timeout_info
  trace : List Event
  optimized_to : Option timeout_info

/-- The local variable `optimized_to` of `ultra_scan_optimized` before the pre-pass: a copy
of the caller's profile, or the built-in default when the caller passed `NULL`. -/
def initial_optimized_to (to_ : Option timeout_info) : timeout_info :=
  match to_ with
  | some t => t
  | none => { srtt := 20000, rttvar := 10000, timeout := 40000 }

/-- The entry point `OptimizationWrapper::ultra_scan_optimized`. -/
def ultra_scan_optimized {σ : Type} (E : Engine σ) (env : Env) (fuel : ℕ)
    (w : OptimizationWrapper) (Targets : List TargetPtr) (ports : scan_lists_ptr)
    (scantype : stype) (to_ : Option timeout_info) : Except Fault Outcome :=
  if !w.config.enabled then
    Except.ok
      { wrapper := w
        to_ := E.ultra_scan Targets ports scantype to_
        trace :=
          [ Event.cout ("Optimization mode not enabled, using standard scan"),
            Event.ultra_scan Targets ports scantype to_ ]
        optimized_to := none }
  else
    let (w1, started) :=
      if w.config.performance_monitoring then start_performance_monitoring env.now_start w
      else (w, [])
    let optimized_to : timeout_info := initial_optimized_to to_
    let (optimized_to, scaled) := apply_optimized_timeouts (some optimized_to)
    let s0 : RunState :=
      { config := w1.config
        to_ := optimized_to
        poll := 0
        trace := started
          ++ [Event.cout ("Using optimized scan mode, parallel workers: "
                ++ toString w1.config.parallel_workers)]
          ++ scaled
          ++ (if w1.config.batch_processing then apply_batch_processing Targets else [])
          ++ (if w1.config.smart_retry then apply_smart_retry_logic else [])
          ++ [Event.cout ("Optimized timeout settings - SRTT: "
                ++ toString ((optimized_to.map timeout_info.srtt).getD 0)
                ++ "us, Timeout: "
                ++ toString ((optimized_to.map timeout_info.timeout).getD 0) ++ "us")] }
    let scanned :=
      if Targets.length > 1 then parallel_scan_targets E env fuel Targets ports scantype s0
      else optimized_scan_engine E env fuel Targets ports scantype s0
    match scanned with
    | Except.error f => Except.error f
    | Except.ok s1 =>
      let w2 : OptimizationWrapper := { w1 with config := s1.config }
      let (w3, stopped) :=
        if w2.config.performance_monitoring then
          let (w3, stopped) := stop_performance_monitoring env.now_stop w2
          (w3, stopped ++ print_performance_report w3)
        else (w2, [])
      Except.ok
        { wrapper := w3
          to_ := to_
          trace := s1.trace ++ [Event.cout ("Optimized scan completed")] ++ stopped
          optimized_to := s1.to_ }

/-- The number of targets an adaptive session hands to `optimized_scan_engine`: every target
on the single-task path, the members of the `worker_targets` vectors on the parallel path. -/
def targets_scanned (w : OptimizationWrapper) (Targets : List TargetPtr) : ℕ :=
  if Targets.length > 1 then
    ((worker_targets Targets (size_t_of_int w.config.parallel_workers)).map List.length).sum
  else Targets.length

/-- The property of being representable as an `int`. -/
def is_int32 (x : ℤ) : Prop := -2 ^ 31 ≤ x ∧ x < 2 ^ 31

instance (x : ℤ) : Decidable (is_int32 x) := by
  unfold is_int32
  infer_instance

/-- The scan state of a task on entry to the scan loop when no sniffer is set up: built by
the engine's constructor, seeded with the pointee of `to` (if any), then tuned. -/
def driver_start {σ : Type} (E : Engine σ) (Targets : List TargetPtr) (ports : scan_lists_ptr)
    (scantype : stype) (to_ : Option timeout_info) : UltraScanInfo σ :=
  let USI := E.UltraScanInfo_new Targets ports scantype
  (optimize_scan_parameters_for_engine
    (match to_ with
      | some t => { USI with gstats := { USI.gstats with to_ := t } }
      | none => USI)).1

/-- Engines for which no scan is a raw scan and every scan state has no incomplete hosts. -/
def Engine.completes_at_once {σ : Type} (E : Engine σ) : Prop :=
  (∀ USI, E.isRawScan USI = false) ∧ ∀ USI, E.incompleteHostsEmpty USI = true

/-- The value of the first `double` printed after the given label, if there is one. -/
def reported_double (label : String) (trace : List Event) : Option F64 :=
  trace.findSome? fun e =>
    match e with
    | Event.cout_double l v _ => if l = label then some v else none
    | _ => none

/-! ## Concrete scenarios -/

/-- Scenario C of the spec: an engine state with an estimated probe count of 5000 and a
timeout of 25000. -/
def scenario_C : UltraScanInfo Unit :=
  { gstats := { to_ := { srtt := 10000, rttvar := 5000, timeout := 25000 }, numprobes := 5000 }
    perf := { max_cwnd := 300, host_initial_cwnd := 10, slow_incr := 1, ca_incr := 1 }
    engine := () }

/-- An engine state on the boundary of the classification: exactly 1000 probes. -/
def scenario_boundary : UltraScanInfo Unit :=
  { gstats := { to_ := { srtt := 20000, rttvar := 5000, timeout := 40000 }, numprobes := 1000 }
    perf := { max_cwnd := 300, host_initial_cwnd := 10, slow_incr := 1, ca_incr := 1 }
    engine := () }

/-- An engine whose hosts are all complete as soon as the scan state is built: the scan
loop of every task ends at once.  The baseline scan leaves the caller's profile alone. -/
def idle_engine : Engine Unit :=
  { ultra_scan := fun _ _ _ to_ => to_
    UltraScanInfo_new := fun _ _ _ =>
      { gstats := { to_ := { srtt := 0, rttvar := 0, timeout := 0 }, numprobes := 0 }
        perf := { max_cwnd := 300, host_initial_cwnd := 10, slow_incr := 1, ca_incr := 1 }
        engine := () }
    isRawScan := fun _ => false
    begin_sniffer := fun USI _ => USI
    incompleteHostsEmpty := fun _ => true
    doAnyPings := id
    doAnyOutstandingRetransmits := id
    doAnyRetryStackRetransmits := id
    doAnyNewProbes := id
    waitForResponses := id
    processData := id }

/-- An environment in which no key is pressed, tasks run in launch order, and the two clock
readings are 0.5 ms apart. -/
def quiet_env : Env :=
  { keyWasPressed := fun _ => false
    debugging := false
    schedule := Schedule.fifo
    now_start := 1000000000
    now_stop := 1000500000 }

/-- A caller's timeout profile. -/
def caller_profile : timeout_info := { srtt := 100000, rttvar := 50000, timeout := 200000 }

/-- A freshly constructed wrapper with adaptive mode switched on. -/
def enabled_wrapper : OptimizationWrapper :=
  set_optimization_enabled OptimizationWrapper.new true

/-- The 25 targets of Scenario B, at addresses 1 to 25. -/
def scenario_B_targets : List TargetPtr := List.range' 1 25

/-- The profile the tuner makes of a profile under the small-workload rule, in closed form. -/
def small_rule (t : timeout_info) : timeout_info :=
  { srtt := max (t.srtt * 17 / 20) 12000
    rttvar := t.rttvar
    timeout := max (t.timeout * 17 / 20) 22000 }

/-- The caller's profile after the 0.4 pre-pass: the tuned profile the dispatcher is given. -/
def dispatched_profile : timeout_info := { srtt := 40000, rttvar := 50000, timeout := 80000 }

/-- The state in which the first task of a parallel scan starts: fresh counters and the tuned
profile in the one `optimized_to` every task points to. -/
def dispatch_state : RunState :=
  { config := enabled_wrapper.config, to_ := some dispatched_profile, poll := 0, trace := [] }

/-- The wrapper after a first adaptive session on one target that took half a millisecond:
3000 probes and 2400 responses counted, the two time points 500000 ns apart. -/
def fast_session_wrapper : OptimizationWrapper :=
  { config := { enabled_wrapper.config with probes_sent := 3000, responses_received := 2400 }
    start_time := 1000000000
    end_time := 1000500000 }

/-- A wrapper that counts 3000 probes and 2400 responses and whose two time points are half a
second apart. -/
def slow_session_wrapper : OptimizationWrapper :=
  { fast_session_wrapper with end_time := 1500000000 }

/-- A wrapper that counts no probes and whose two time points are half a second apart. -/
def empty_session_wrapper : OptimizationWrapper :=
  { enabled_wrapper with start_time := 1000000000, end_time := 1500000000 }

/-! ## Command-line options -/

/-- The C library function `strcmp` on two strings, each given by the characters before its
terminating NUL: zero when the strings are equal, otherwise the difference of the first two
characters that differ, the terminator counting as 0. -/
def strcmp : List Char → List Char → ℤ
  | [], [] => 0
  | [], b :: _ => 0 - (b.toNat : ℤ)
  | a :: _, [] => (a.toNat : ℤ) - 0
  | a :: as, b :: bs => if a = b then strcmp as bs else (a.toNat : ℤ) - (b.toNat : ℤ)

/-- The two globals the option handling works on: the wrapper `g_optimization_wrapper` and
the switch `g_optimization_enabled`. -/
structure Globals where
  g_optimization_wrapper : OptimizationWrapper
  g_optimization_enabled : Bool

/-- The function `OptimizationOptions::parse_optimization_option`: the value returned, the
globals on return and the events. -/
def parse_optimization_option (g : Globals) (option : String) : Bool × Globals × List Event :=
  if strcmp option.toList ("--optimize").toList = 0 then
    (true,
      { g_optimization_wrapper := set_optimization_enabled g.g_optimization_wrapper true
        g_optimization_enabled := true },
      [Event.cout ("DEBUG: Optimization enabled via --optimize parameter")])
  else (false, g, [])

/-- The `for` loop of `handle_optimization_options`, over the strings `argv[i]` still to be
visited. -/
def handle_optimization_options_loop : List String → Globals → Globals × List Event
  | [], g => (g, [])
  | arg :: rest, g =>
    let (parsed, g1, events) := parse_optimization_option g arg
    let printed :=
      if parsed then [Event.cout ("Optimization option parsed: " ++ arg)] else []
    let (g2, later) := handle_optimization_options_loop rest g1
    (g2, events ++ printed ++ later)

/-- The function `OptimizationOptions::handle_optimization_options`, for an array `argv` of
at least `argc` strings: the loop visits `argv[1]` to `argv[argc - 1]`.  The result is the
globals on return, the array `argv` on return and the events. -/
def handle_optimization_options (g : Globals) (argc : ℤ) (argv : List String) :
    Globals × List String × List Event :=
  let (g1, events) := handle_optimization_options_loop ((argv.take argc.toNat).drop 1) g
  (g1, argv, events)

/-- The globals at program start: a freshly constructed wrapper, the switch off. -/
def initial_globals : Globals :=
  { g_optimization_wrapper := OptimizationWrapper.new, g_optimization_enabled := false }

/-! ## The scan loop -/

/-- The six engine calls of one pass through the `while` loop of
`execute_optimized_scan_like_ultra_scan`, applied to the scan state in program order. -/
def loop_pass {σ : Type} (E : Engine σ) (USI : UltraScanInfo σ) : UltraScanInfo σ :=
  E.processData (E.waitForResponses (E.doAnyNewProbes (E.doAnyRetryStackRetransmits
    (E.doAnyOutstandingRetransmits (E.doAnyPings USI)))))

/-- The scan state of `execute_optimized_scan_like_ultra_scan` on entry to the `while` loop:
constructed, seeded, tuned, and handed to `begin_sniffer` when the scan is a raw scan. -/
def loop_entry {σ : Type} (E : Engine σ) (Targets : List TargetPtr) (ports : scan_lists_ptr)
    (scantype : stype) (to_ : Option timeout_info) : UltraScanInfo σ :=
  let USI := driver_start E Targets ports scantype to_
  if E.isRawScan USI then E.begin_sniffer USI Targets else USI

/-- The events of `execute_optimized_scan_like_ultra_scan` before the `while` loop: the
setup of the scan state. -/
def setup_events {σ : Type} (E : Engine σ) (Targets : List TargetPtr) (ports : scan_lists_ptr)
    (scantype : stype) (to_ : Option timeout_info) : List Event :=
  let USI := E.UltraScanInfo_new Targets ports scantype
  [ Event.cout ("Executing optimized scan like ultra_scan..."),
    Event.UltraScanInfo_new Targets ports scantype ]
  ++ (optimize_scan_parameters_for_engine
      (match to_ with
        | some t => { USI with gstats := { USI.gstats with to_ := t } }
        | none => USI)).2
  ++ (if E.isRawScan (driver_start E Targets ports scantype to_) then [Event.begin_sniffer]
      else [])

/-- The events that are calls of the engine's six scan operations. -/
def is_engine_operation : Event → Bool
  | Event.doAnyPings => true
  | Event.doAnyOutstandingRetransmits => true
  | Event.doAnyRetryStackRetransmits => true
  | Event.doAnyNewProbes => true
  | Event.waitForResponses => true
  | Event.processData => true
  | _ => false

/-- The six engine operations in the order the spec gives for one iteration. -/
def iteration_operations : List Event :=
  [ Event.doAnyPings, Event.doAnyOutstandingRetransmits, Event.doAnyRetryStackRetransmits,
    Event.doAnyNewProbes, Event.waitForResponses, Event.processData ]

/-- The events that follow the six operations in an iteration whose key poll returned
`pressed`: the poll, and after a key press the progress printout. -/
def poll_events (debugging : Bool) (pressed : Bool) : List Event :=
  Event.keyWasPressed pressed ::
    (if pressed then
      [Event.printStats] ++ (if debugging then [Event.log_current_rates] else [])
        ++ [Event.log_flush]
    else [])

/-- An engine whose private state counts the hosts still incomplete: one host per target
at construction, one host completed by every `processData`. -/
def countdown_engine : Engine ℕ :=
  { ultra_scan := fun _ _ _ to_ => to_
    UltraScanInfo_new := fun Targets _ _ =>
      { gstats := { to_ := { srtt := 0, rttvar := 0, timeout := 0 }, numprobes := 0 }
        perf := { max_cwnd := 300, host_initial_cwnd := 10, slow_incr := 1, ca_incr := 1 }
        engine := Targets.length }
    isRawScan := fun _ => false
    begin_sniffer := fun USI _ => USI
    incompleteHostsEmpty := fun USI => decide (USI.engine = 0)
    doAnyPings := id
    doAnyOutstandingRetransmits := id
    doAnyRetryStackRetransmits := id
    doAnyNewProbes := id
    waitForResponses := id
    processData := fun USI => { USI with engine := USI.engine - 1 } }

/-- An environment in which every key poll returns true and debugging is on. -/
def busy_env : Env :=
  { quiet_env with keyWasPressed := fun _ => true, debugging := true }

/-! ## Successive sessions -/

/-- The arguments and the environment of one call of the entry point. -/
structure Session where
  env : Env
  Targets : List TargetPtr
  ports : scan_lists_ptr
  scantype : stype
  to_ : Option timeout_info

/-- Successive calls of the entry point on the one wrapper: every session starts from the
wrapper the session before it left behind. -/
def run_sessions {σ : Type} (E : Engine σ) (fuel : ℕ) :
    List Session → OptimizationWrapper → Except Fault OptimizationWrapper
  | [], w => Except.ok w
  | c :: rest, w =>
    match ultra_scan_optimized E c.env fuel w c.Targets c.ports c.scantype c.to_ with
    | Except.error f => Except.error f
    | Except.ok out => run_sessions E fuel rest out.wrapper

/-- The number of targets the sessions hand to `optimized_scan_engine`, all told: none
when adaptive mode is off. -/
def sessions_scanned (w : OptimizationWrapper) (sessions : List Session) : ℕ :=
  if w.config.enabled then (sessions.map (fun c => targets_scanned w c.Targets)).sum else 0

/-! ## Further scenarios -/

theorem roundHalfEven_of_near (y : ℚ) (M : ℤ) (h : |y - M| < 1 / 2) :
    roundHalfEven y = M := by
  rw [abs_lt] at h
  obtain ⟨h1, h2⟩ := h
  unfold roundHalfEven
  by_cases hy : (M : ℚ) ≤ y
  · have hf : ⌊y⌋ = M := by
      rw [Int.floor_eq_iff]
      constructor
      · exact hy
      · linarith
    simp only [hf]
    rw [if_pos (by linarith)]
  · push_neg at hy
    have hf : ⌊y⌋ = M - 1 := by
      rw [Int.floor_eq_iff]
      push_cast
      constructor <;> linarith
    simp only [hf]
    push_cast
    rw [if_neg (by linarith), if_pos (by linarith)]
    ring

theorem roundHalfEven_err (y : ℚ) : |(roundHalfEven y : ℚ) - y| ≤ 1 / 2 := by
  have h1 := Int.floor_le y
  have h2 := Int.lt_floor_add_one y
  unfold roundHalfEven
  simp only
  rw [abs_le]
  split_ifs with ha hb hc
  · constructor <;> linarith
  · push_cast; constructor <;> linarith
  · push_neg at ha hb
    constructor <;> linarith
  · push_neg at ha hb
    push_cast; constructor <;> linarith

theorem binade_facts (x : ℚ) (hx : 0 < x) :
    0 < (2 : ℚ) ^ (52 - Int.log 2 x) ∧
    (2 : ℚ) ^ (52 - Int.log 2 x) * (2 : ℚ) ^ (Int.log 2 x - 52) = 1 ∧
    (2 : ℚ) ^ (52 : ℕ) ≤ x * (2 : ℚ) ^ (52 - Int.log 2 x) ∧
    x * (2 : ℚ) ^ (52 - Int.log 2 x) < (2 : ℚ) ^ (53 : ℕ) := by
  have hlo := Int.zpow_log_le_self (b := 2) (r := x) (by norm_num) hx
  have hhi := Int.lt_zpow_succ_log_self (b := 2) (by norm_num) x
  set e := Int.log 2 x with he
  have h2 : (0 : ℚ) < 2 := by norm_num
  have hs : 0 < (2 : ℚ) ^ (52 - e) := zpow_pos h2 _
  refine ⟨hs, ?_, ?_, ?_⟩
  · rw [← zpow_add₀ (by norm_num : (2 : ℚ) ≠ 0)]
    simp
  · have : (2 : ℚ) ^ (52 : ℕ) = (2 : ℚ) ^ e * (2 : ℚ) ^ (52 - e) := by
      rw [← zpow_add₀ (by norm_num : (2 : ℚ) ≠ 0)]
      have : e + (52 - e) = (52 : ℕ) := by push_cast; ring
      rw [this, zpow_natCast]
    rw [this]
    push_cast at hlo
    exact mul_le_mul_of_nonneg_right hlo hs.le
  · have : (2 : ℚ) ^ (53 : ℕ) = (2 : ℚ) ^ (e + 1) * (2 : ℚ) ^ (52 - e) := by
      rw [← zpow_add₀ (by norm_num : (2 : ℚ) ≠ 0)]
      have : e + 1 + (52 - e) = (53 : ℕ) := by push_cast; ring
      rw [this, zpow_natCast]
    rw [this]
    push_cast at hhi
    exact mul_lt_mul_of_pos_right hhi hs

theorem roundBinary64_pos_eq (x : ℚ) (hx : 0 < x) :
    roundBinary64 x =
      (roundHalfEven (x * (2 : ℚ) ^ (52 - Int.log 2 x)) : ℚ) * (2 : ℚ) ^ (Int.log 2 x - 52) := by
  unfold roundBinary64
  rw [if_neg hx.ne']
  simp only [abs_of_pos hx, if_neg (not_lt.mpr hx.le), one_mul]

theorem roundBinary64_err (x : ℚ) (hx : 0 < x) :
    |roundBinary64 x - x| ≤ x / 2 ^ (53 : ℕ) := by
  obtain ⟨hs, hss, hlo, _⟩ := binade_facts x hx
  rw [roundBinary64_pos_eq x hx]
  set s := (2 : ℚ) ^ (52 - Int.log 2 x) with hsdef
  set s' := (2 : ℚ) ^ (Int.log 2 x - 52) with hsdef'
  have hs' : 0 < s' := zpow_pos (by norm_num) _
  have herr := roundHalfEven_err (x * s)
  have hx' : x = x * s * s' := by rw [mul_assoc, hss, mul_one]
  have : (roundHalfEven (x * s) : ℚ) * s' - x = ((roundHalfEven (x * s) : ℚ) - x * s) * s' := by
    nth_rewrite 2 [hx']
    ring
  rw [this, abs_mul, abs_of_pos hs']
  have h1 : |(roundHalfEven (x * s) : ℚ) - x * s| * s' ≤ 1 / 2 * s' :=
    mul_le_mul_of_nonneg_right herr hs'.le
  have h2 : s' * 2 ^ (52 : ℕ) ≤ x := by
    calc s' * 2 ^ (52 : ℕ) ≤ s' * (x * s) := mul_le_mul_of_nonneg_left hlo hs'.le
      _ = x * (s * s') := by ring
      _ = x := by rw [hss, mul_one]
  rw [le_div_iff₀ (by norm_num)]
  norm_num at h1 h2 ⊢
  linarith

theorem roundBinary64_eq_int (x : ℚ) (n : ℤ) (hx : 0 < x) (hlt : x < 2 ^ (53 : ℕ))
    (h : |x - n| ≤ x / 2 ^ (54 : ℕ)) : roundBinary64 x = n := by
  obtain ⟨hs, hss, hlo, hhi⟩ := binade_facts x hx
  have he : Int.log 2 x < 53 := by
    rw [← Int.lt_zpow_iff_log_lt (by norm_num) hx]
    exact_mod_cast hlt
  obtain ⟨k, hk⟩ : ∃ k : ℕ, 52 - Int.log 2 x = (k : ℤ) :=
    ⟨(52 - Int.log 2 x).toNat, (Int.toNat_of_nonneg (by omega)).symm⟩
  rw [roundBinary64_pos_eq x hx]
  set s := (2 : ℚ) ^ (52 - Int.log 2 x) with hsdef
  set s' := (2 : ℚ) ^ (Int.log 2 x - 52) with hsdef'
  have hsk : s = ((2 ^ k : ℤ) : ℚ) := by
    rw [hsdef, hk, zpow_natCast]
    push_cast
    rfl
  have hnear : |x * s - ((n * 2 ^ k : ℤ) : ℚ)| < 1 / 2 := by
    have : x * s - ((n * 2 ^ k : ℤ) : ℚ) = (x - n) * s := by
      rw [Int.cast_mul, ← hsk]
      ring
    rw [this, abs_mul, abs_of_pos hs]
    have h1 : |x - (n : ℚ)| * s ≤ x / 2 ^ (54 : ℕ) * s := mul_le_mul_of_nonneg_right h hs.le
    have h2 : x / 2 ^ (54 : ℕ) * s = x * s / 2 ^ (54 : ℕ) := by ring
    have h3 : x * s / 2 ^ (54 : ℕ) < 1 / 2 := by
      rw [div_lt_iff₀ (by norm_num)]
      norm_num at hhi ⊢
      linarith
    linarith
  rw [roundHalfEven_of_near _ _ hnear, Int.cast_mul, ← hsk, mul_assoc, hss, mul_one]

theorem trunc_fmul_const (c : ℚ) (p q : ℕ) (hq : 0 < q) (hq' : q ≤ 1024)
    (hc0 : 0 < c) (hc4 : c ≤ 4) (hc : |c - (p : ℚ) / q| ≤ c / 2 ^ (54 : ℕ))
    (t : ℤ) (ht0 : 0 ≤ t) (ht : t < 2 ^ (31 : ℕ)) :
    ⌊roundBinary64 ((t : ℚ) * c)⌋ = t * p / q := by
  rcases ht0.eq_or_lt with h0 | hpos
  · subst h0
    simp [roundBinary64]
  have htq : (0 : ℚ) < t := by exact_mod_cast hpos
  have htq' : (t : ℚ) < 2 ^ (31 : ℕ) := by exact_mod_cast ht
  have hx : 0 < (t : ℚ) * c := mul_pos htq hc0
  have hx33 : (t : ℚ) * c < 2 ^ (33 : ℕ) := by
    calc (t : ℚ) * c ≤ t * 4 := mul_le_mul_of_nonneg_left hc4 htq.le
      _ < 2 ^ (31 : ℕ) * 4 := by linarith
      _ = 2 ^ (33 : ℕ) := by norm_num
  have hqq : (0 : ℚ) < q := by exact_mod_cast hq
  -- exact quotient and remainder
  have hdm := Int.emod_add_ediv (t * p) q
  have hrem0 := Int.emod_nonneg (t * p) (by exact_mod_cast hq.ne' : (q : ℤ) ≠ 0)
  have hremq := Int.emod_lt_of_pos (t * p) (by exact_mod_cast hq : (0 : ℤ) < q)
  set n := t * p / (q : ℤ) with hn
  set r := t * p % (q : ℤ) with hr
  have hexact : (t : ℚ) * ((p : ℚ) / q) = n + (r : ℚ) / q := by
    have : ((t * p : ℤ) : ℚ) = ((r + q * n : ℤ) : ℚ) := by rw [hdm]
    push_cast at this
    field_simp
    linarith
  have hdist : |(t : ℚ) * c - (n + (r : ℚ) / q)| ≤ (t : ℚ) * c / 2 ^ (54 : ℕ) := by
    rw [← hexact, ← mul_sub, abs_mul, abs_of_pos htq]
    calc (t : ℚ) * |c - (p : ℚ) / q| ≤ t * (c / 2 ^ (54 : ℕ)) :=
          mul_le_mul_of_nonneg_left hc htq.le
      _ = (t : ℚ) * c / 2 ^ (54 : ℕ) := by ring
  rcases hrem0.eq_or_lt with hr0 | hrpos
  · -- the exact product is an integer: the rounded product is that integer
    rw [← hr0] at hdist
    simp only [Int.cast_zero, zero_div, add_zero] at hdist
    rw [roundBinary64_eq_int _ n hx (by linarith [show (2:ℚ)^(33:ℕ) < 2^(53:ℕ) by norm_num]) hdist]
    simp
  · -- the exact product is at least 1/q away from every integer
    have herr := roundBinary64_err _ hx
    rw [abs_le] at hdist herr
    have hr1 : (1 : ℚ) ≤ r := by exact_mod_cast hrpos
    have hr2 : (r : ℚ) ≤ q - 1 := by
      have : r ≤ (q : ℤ) - 1 := by omega
      exact_mod_cast this
    have hq1024 : (q : ℚ) ≤ 1024 := by exact_mod_cast hq'
    have hsmall : (t : ℚ) * c / 2 ^ (54 : ℕ) + (t : ℚ) * c / 2 ^ (53 : ℕ) < 1 / q := by
      have h1 : (1 : ℚ) / 1024 ≤ 1 / q := by
        apply one_div_le_one_div_of_le hqq hq1024
      have h2 : (t : ℚ) * c / 2 ^ (54 : ℕ) + (t : ℚ) * c / 2 ^ (53 : ℕ)
          = (t : ℚ) * c * (3 / 2 ^ (54 : ℕ)) := by ring
      have h3 : (t : ℚ) * c * (3 / 2 ^ (54 : ℕ)) < 2 ^ (33 : ℕ) * (3 / 2 ^ (54 : ℕ)) :=
        mul_lt_mul_of_pos_right hx33 (by norm_num)
      have h4 : (2 : ℚ) ^ (33 : ℕ) * (3 / 2 ^ (54 : ℕ)) < 1 / 1024 := by norm_num
      linarith
    have hrq1 : (1 : ℚ) / q ≤ (r : ℚ) / q := by
      apply div_le_div_of_nonneg_right hr1 hqq.le
    have hrq2 : (r : ℚ) / q ≤ 1 - 1 / q := by
      rw [div_le_iff₀ hqq]
      field_simp
      linarith
    rw [Int.floor_eq_iff]
    constructor <;> linarith [hdist.1, hdist.2, herr.1, herr.2]

theorem roundBinary64_eq_of (x : ℚ) (e m : ℤ) (hx : 0 < x)
    (hlo : (2 : ℚ) ^ e ≤ x) (hhi : x < (2 : ℚ) ^ (e + 1))
    (hm : |x * (2 : ℚ) ^ (52 - e) - m| < 1 / 2) :
    roundBinary64 x = (m : ℚ) * (2 : ℚ) ^ (e - 52) := by
  have he : Int.log 2 x = e := by
    apply le_antisymm
    · have := (Int.lt_zpow_iff_log_lt (b := 2) (by norm_num) hx (x := e + 1)).mp
        (by exact_mod_cast hhi)
      omega
    · exact (Int.zpow_le_iff_le_log (b := 2) (by norm_num) hx).mp (by exact_mod_cast hlo)
  rw [roundBinary64_pos_eq x hx, he, roundHalfEven_of_near _ _ hm]

theorem lit_0_6_eq : lit_0_6 = 5404319552844595 / 2 ^ (53 : ℕ) := by
  unfold lit_0_6
  rw [roundBinary64_eq_of 0.6 (-1) 5404319552844595 (by norm_num) (by norm_num) (by norm_num)
    (by rw [abs_lt]; constructor <;> norm_num)]
  norm_num

theorem lit_0_4_eq : lit_0_4 = 7205759403792794 / 2 ^ (54 : ℕ) := by
  unfold lit_0_4
  rw [roundBinary64_eq_of 0.4 (-2) 7205759403792794 (by norm_num) (by norm_num) (by norm_num)
    (by rw [abs_lt]; constructor <;> norm_num)]
  norm_num

theorem lit_0_85_eq : lit_0_85 = 7656119366529843 / 2 ^ (53 : ℕ) := by
  unfold lit_0_85
  rw [roundBinary64_eq_of 0.85 (-1) 7656119366529843 (by norm_num) (by norm_num) (by norm_num)
    (by rw [abs_lt]; constructor <;> norm_num)]
  norm_num

theorem lit_2_0_eq : lit_2_0 = 2 := by
  unfold lit_2_0
  rw [roundBinary64_eq_int 2.0 2 (by norm_num) (by norm_num) (by norm_num)]
  norm_num

theorem lit_1000_0_eq : lit_1000_0 = 1000 := by
  unfold lit_1000_0
  rw [roundBinary64_eq_int 1000.0 1000 (by norm_num) (by norm_num) (by norm_num)]
  norm_num

theorem roundBinary64_nonneg (x : ℚ) (hx : 0 ≤ x) : 0 ≤ roundBinary64 x := by
  rcases hx.eq_or_lt with h0 | hpos
  · rw [← h0]
    simp [roundBinary64]
  · have herr := roundBinary64_err x hpos
    rw [abs_le] at herr
    have : x / 2 ^ (53 : ℕ) ≤ x := by
      apply div_le_self hpos.le
      norm_num
    linarith [herr.1]

theorem roundBinary64_intCast (n : ℤ) (h0 : 0 ≤ n) (h : n < 2 ^ (53 : ℕ)) :
    roundBinary64 (n : ℚ) = n := by
  rcases h0.eq_or_lt with h0 | hpos
  · rw [← h0]
    simp [roundBinary64]
  · have hq : (0 : ℚ) < n := by exact_mod_cast hpos
    apply roundBinary64_eq_int _ _ hq (by exact_mod_cast h)
    rw [sub_self, abs_zero]
    positivity

/-! ## Conversions between `double` and the integer types -/

theorem wrap_int32_eq (x : ℤ) (h0 : -2 ^ (31 : ℕ) ≤ x) (h1 : x < 2 ^ (31 : ℕ)) :
    wrap_int32 x = x := by
  unfold wrap_int32
  norm_num at h0 h1 ⊢
  omega

theorem truncToInt_nonneg (x : ℚ) (h : 0 ≤ x) : truncToInt x = ⌊x⌋ := by
  simp [truncToInt, h]

theorem truncToInt_fmul (c : ℚ) (p q : ℕ) (hq : 0 < q) (hq' : q ≤ 1024)
    (hc0 : 0 < c) (hc4 : c ≤ 4) (hc : |c - (p : ℚ) / q| ≤ c / 2 ^ (54 : ℕ))
    (t : ℤ) (ht0 : 0 ≤ t) (ht : t < 2 ^ (31 : ℕ)) :
    truncToInt (fmul (t : ℚ) c) = t * p / q := by
  unfold fmul
  rw [truncToInt_nonneg _ (roundBinary64_nonneg _ (mul_nonneg (by exact_mod_cast ht0) hc0.le))]
  exact trunc_fmul_const c p q hq hq' hc0 hc4 hc t ht0 ht

theorem double_to_int_fmul (c : ℚ) (p q : ℕ) (hq : 0 < q) (hq' : q ≤ 1024)
    (hc0 : 0 < c) (hc4 : c ≤ 4) (hc : |c - (p : ℚ) / q| ≤ c / 2 ^ (54 : ℕ))
    (t : ℤ) (ht0 : 0 ≤ t) (ht : t < 2 ^ (31 : ℕ)) (hr : t * p / q < 2 ^ (31 : ℕ)) :
    double_to_int (fmul (t : ℚ) c) = t * p / q := by
  unfold double_to_int
  rw [truncToInt_fmul c p q hq hq' hc0 hc4 hc t ht0 ht]
  apply wrap_int32_eq _ _ hr
  have : 0 ≤ t * p / q := Int.ediv_nonneg (mul_nonneg ht0 (by positivity)) (by positivity)
  linarith

theorem ulong_max_fmul (c : ℚ) (p q : ℕ) (hq : 0 < q) (hq' : q ≤ 1024)
    (hc0 : 0 < c) (hc4 : c ≤ 4) (hc : |c - (p : ℚ) / q| ≤ c / 2 ^ (54 : ℕ))
    (t : ℤ) (ht0 : 0 ≤ t) (ht : t < 2 ^ (31 : ℕ)) (hr : t * p / q < 2 ^ (31 : ℕ))
    (K : ℤ) (_hK0 : 0 ≤ K) (hK : K < 2 ^ (31 : ℕ)) :
    ulong_to_int (max (double_to_ulong (fmul (t : ℚ) c)) K) = max (t * p / q) K := by
  have hnn : 0 ≤ t * p / q := Int.ediv_nonneg (mul_nonneg ht0 (by positivity)) (by positivity)
  have h1 : double_to_ulong (fmul (t : ℚ) c) = t * p / q := by
    unfold double_to_ulong
    rw [truncToInt_fmul c p q hq hq' hc0 hc4 hc t ht0 ht]
    apply Int.emod_eq_of_lt hnn
    norm_num at hr ⊢
    omega
  unfold ulong_to_int
  rw [h1]
  apply wrap_int32_eq
  · have : (0 : ℤ) ≤ max (t * p / q) K := le_max_of_le_left hnn
    linarith
  · exact max_lt hr hK

theorem double_to_int_mul_0_4 (t : ℤ) (ht0 : 0 ≤ t) (ht : t < 2 ^ (31 : ℕ)) :
    double_to_int (fmul (t : ℚ) lit_0_4) = t * 2 / 5 := by
  have := double_to_int_fmul lit_0_4 2 5 (by norm_num) (by norm_num)
    (by rw [lit_0_4_eq]; norm_num) (by rw [lit_0_4_eq]; norm_num)
    (by rw [lit_0_4_eq, abs_le]; constructor <;> norm_num) t ht0 ht
    (by norm_num at ht ⊢; omega)
  exact_mod_cast this

theorem double_to_int_mul_2_0 (t : ℤ) (ht0 : 0 ≤ t) (ht : 2 * t < 2 ^ (31 : ℕ)) :
    double_to_int (fmul (t : ℚ) lit_2_0) = 2 * t := by
  have := double_to_int_fmul lit_2_0 2 1 (by norm_num) (by norm_num)
    (by rw [lit_2_0_eq]; norm_num) (by rw [lit_2_0_eq]; norm_num)
    (by rw [lit_2_0_eq, abs_le]; constructor <;> norm_num) t ht0
    (by norm_num at ht ⊢; omega) (by norm_num at ht ⊢; omega)
  rw [this]
  norm_num
  ring

theorem ulong_max_mul_0_6 (t : ℤ) (ht0 : 0 ≤ t) (ht : t < 2 ^ (31 : ℕ))
    (K : ℤ) (hK0 : 0 ≤ K) (hK : K < 2 ^ (31 : ℕ)) :
    ulong_to_int (max (double_to_ulong (fmul (t : ℚ) lit_0_6)) K) = max (t * 3 / 5) K := by
  have := ulong_max_fmul lit_0_6 3 5 (by norm_num) (by norm_num)
    (by rw [lit_0_6_eq]; norm_num) (by rw [lit_0_6_eq]; norm_num)
    (by rw [lit_0_6_eq, abs_le]; constructor <;> norm_num) t ht0 ht
    (by norm_num at ht ⊢; omega) K hK0 hK
  exact_mod_cast this

theorem ulong_max_mul_0_85 (t : ℤ) (ht0 : 0 ≤ t) (ht : t < 2 ^ (31 : ℕ))
    (K : ℤ) (hK0 : 0 ≤ K) (hK : K < 2 ^ (31 : ℕ)) :
    ulong_to_int (max (double_to_ulong (fmul (t : ℚ) lit_0_85)) K) = max (t * 17 / 20) K := by
  have := ulong_max_fmul lit_0_85 17 20 (by norm_num) (by norm_num)
    (by rw [lit_0_85_eq]; norm_num) (by rw [lit_0_85_eq]; norm_num)
    (by rw [lit_0_85_eq, abs_le]; constructor <;> norm_num) t ht0 ht
    (by norm_num at ht ⊢; omega) K hK0 hK
  exact_mod_cast this

/-- Floors of decimal multiples, as integer quotients. -/
theorem floor_mul_ratio (t : ℤ) (p : ℤ) (q : ℕ) (x : ℚ) (hx : x = (p : ℚ) / q) :
    ⌊x * t⌋ = t * p / q := by
  have : x * (t : ℚ) = ((t * p : ℤ) : ℚ) / ((q : ℕ) : ℚ) := by
    rw [hx]; push_cast; ring
  rw [this, Rat.floor_intCast_div_natCast]

/-! ## The tuner -/

theorem optimize_large_eq {σ : Type} (USI : UltraScanInfo σ)
    (hn : USI.gstats.numprobes > 1000) :
    (optimize_scan_parameters_for_engine USI).1 =
      { USI with
        perf :=
          { max_cwnd := min (double_to_int (fmul USI.perf.max_cwnd lit_2_0)) 1000
            host_initial_cwnd :=
              min (double_to_int (fmul USI.perf.host_initial_cwnd lit_2_0)) 100
            slow_incr := max (double_to_int (fmul USI.perf.slow_incr lit_2_0)) 1
            ca_incr := max (double_to_int (fmul USI.perf.ca_incr lit_2_0)) 1 }
        gstats :=
          { USI.gstats with
            to_ :=
              { USI.gstats.to_ with
                timeout :=
                  ulong_to_int (max (double_to_ulong (fmul USI.gstats.to_.timeout lit_0_6)) 15000)
                srtt :=
                  ulong_to_int
                    (max (double_to_ulong (fmul USI.gstats.to_.srtt lit_0_6)) 8000) } } } := by
  simp [optimize_scan_parameters_for_engine, hn]

theorem optimize_small_eq {σ : Type} (USI : UltraScanInfo σ)
    (hn : USI.gstats.numprobes ≤ 1000) :
    (optimize_scan_parameters_for_engine USI).1 =
      { USI with
        perf :=
          { max_cwnd := min (double_to_int (fmul USI.perf.max_cwnd lit_1_3)) 500
            host_initial_cwnd :=
              min (double_to_int (fmul USI.perf.host_initial_cwnd lit_1_3)) 25
            slow_incr := max (double_to_int (fmul USI.perf.slow_incr lit_1_2)) 1
            ca_incr := max (double_to_int (fmul USI.perf.ca_incr lit_1_2)) 1 }
        gstats :=
          { USI.gstats with
            to_ :=
              { USI.gstats.to_ with
                timeout :=
                  ulong_to_int (max (double_to_ulong (fmul USI.gstats.to_.timeout lit_0_85)) 22000)
                srtt :=
                  ulong_to_int
                    (max (double_to_ulong (fmul USI.gstats.to_.srtt lit_0_85)) 12000) } } } := by
  have : ¬ USI.gstats.numprobes > 1000 := not_lt.mpr hn
  simp [optimize_scan_parameters_for_engine, this]

theorem optimize_numprobes {σ : Type} (USI : UltraScanInfo σ) :
    (optimize_scan_parameters_for_engine USI).1.gstats.numprobes = USI.gstats.numprobes := by
  by_cases hn : USI.gstats.numprobes > 1000
  · rw [optimize_large_eq USI hn]
  · rw [optimize_small_eq USI (not_lt.mp hn)]

theorem optimize_rttvar {σ : Type} (USI : UltraScanInfo σ) :
    (optimize_scan_parameters_for_engine USI).1.gstats.to_.rttvar = USI.gstats.to_.rttvar := by
  by_cases hn : USI.gstats.numprobes > 1000
  · rw [optimize_large_eq USI hn]
  · rw [optimize_small_eq USI (not_lt.mp hn)]

theorem optimize_timeout_large {σ : Type} (USI : UltraScanInfo σ)
    (hn : USI.gstats.numprobes > 1000)
    (h0 : 0 ≤ USI.gstats.to_.timeout) (h1 : USI.gstats.to_.timeout < 2 ^ (31 : ℕ)) :
    (optimize_scan_parameters_for_engine USI).1.gstats.to_.timeout
      = max (USI.gstats.to_.timeout * 3 / 5) 15000 := by
  rw [optimize_large_eq USI hn]
  exact ulong_max_mul_0_6 _ h0 h1 15000 (by norm_num) (by norm_num)

theorem optimize_srtt_large {σ : Type} (USI : UltraScanInfo σ)
    (hn : USI.gstats.numprobes > 1000)
    (h0 : 0 ≤ USI.gstats.to_.srtt) (h1 : USI.gstats.to_.srtt < 2 ^ (31 : ℕ)) :
    (optimize_scan_parameters_for_engine USI).1.gstats.to_.srtt
      = max (USI.gstats.to_.srtt * 3 / 5) 8000 := by
  rw [optimize_large_eq USI hn]
  exact ulong_max_mul_0_6 _ h0 h1 8000 (by norm_num) (by norm_num)

theorem optimize_timeout_small {σ : Type} (USI : UltraScanInfo σ)
    (hn : USI.gstats.numprobes ≤ 1000)
    (h0 : 0 ≤ USI.gstats.to_.timeout) (h1 : USI.gstats.to_.timeout < 2 ^ (31 : ℕ)) :
    (optimize_scan_parameters_for_engine USI).1.gstats.to_.timeout
      = max (USI.gstats.to_.timeout * 17 / 20) 22000 := by
  rw [optimize_small_eq USI hn]
  exact ulong_max_mul_0_85 _ h0 h1 22000 (by norm_num) (by norm_num)

theorem optimize_srtt_small {σ : Type} (USI : UltraScanInfo σ)
    (hn : USI.gstats.numprobes ≤ 1000)
    (h0 : 0 ≤ USI.gstats.to_.srtt) (h1 : USI.gstats.to_.srtt < 2 ^ (31 : ℕ)) :
    (optimize_scan_parameters_for_engine USI).1.gstats.to_.srtt
      = max (USI.gstats.to_.srtt * 17 / 20) 12000 := by
  rw [optimize_small_eq USI hn]
  exact ulong_max_mul_0_85 _ h0 h1 12000 (by norm_num) (by norm_num)

/-- C4. Large-workload tuning: when the probe count exceeds 1000 and the timeout, the smoothed
RTT, the maximum congestion window and the two growth increments are non-negative with
doubles that fit an `int`, the tuner sets timeout = max(floor(0.6 t), 15000),
srtt = max(floor(0.6 s), 8000), max_cwnd = min(floor(2 c), 1000) and each growth increment
= max(floor(2 g), 1); so the tuned window is at most 2 c and at most 1000, the tuned timeout
is at least 15000, and a timeout of 25000 is tuned to exactly 15000. -/
theorem large_workload_tuning {σ : Type} (USI : UltraScanInfo σ)
    (hn : USI.gstats.numprobes > 1000)
    (ht0 : 0 ≤ USI.gstats.to_.timeout) (ht : USI.gstats.to_.timeout < 2 ^ (31 : ℕ))
    (hs0 : 0 ≤ USI.gstats.to_.srtt) (hs : USI.gstats.to_.srtt < 2 ^ (31 : ℕ))
    (hc0 : 0 ≤ USI.perf.max_cwnd) (hc : 2 * USI.perf.max_cwnd < 2 ^ (31 : ℕ))
    (hg0 : 0 ≤ USI.perf.slow_incr) (hg : 2 * USI.perf.slow_incr < 2 ^ (31 : ℕ))
    (hk0 : 0 ≤ USI.perf.ca_incr) (hk : 2 * USI.perf.ca_incr < 2 ^ (31 : ℕ)) :
    (optimize_scan_parameters_for_engine USI).1.gstats.to_.timeout
        = max ⌊(0.6 : ℚ) * USI.gstats.to_.timeout⌋ 15000 ∧
    (optimize_scan_parameters_for_engine USI).1.gstats.to_.srtt
        = max ⌊(0.6 : ℚ) * USI.gstats.to_.srtt⌋ 8000 ∧
    (optimize_scan_parameters_for_engine USI).1.perf.max_cwnd
        = min ⌊(2 : ℚ) * USI.perf.max_cwnd⌋ 1000 ∧
    (optimize_scan_parameters_for_engine USI).1.perf.slow_incr
        = max ⌊(2 : ℚ) * USI.perf.slow_incr⌋ 1 ∧
    (optimize_scan_parameters_for_engine USI).1.perf.ca_incr
        = max ⌊(2 : ℚ) * USI.perf.ca_incr⌋ 1 ∧
    (optimize_scan_parameters_for_engine USI).1.perf.max_cwnd ≤ 2 * USI.perf.max_cwnd ∧
    (optimize_scan_parameters_for_engine USI).1.perf.max_cwnd ≤ 1000 ∧
    15000 ≤ (optimize_scan_parameters_for_engine USI).1.gstats.to_.timeout ∧
    (USI.gstats.to_.timeout = 25000 →
      (optimize_scan_parameters_for_engine USI).1.gstats.to_.timeout = 15000) := by
  have e1 := optimize_timeout_large USI hn ht0 ht
  have e2 := optimize_srtt_large USI hn hs0 hs
  have e3 : (optimize_scan_parameters_for_engine USI).1.perf.max_cwnd
      = min (2 * USI.perf.max_cwnd) 1000 := by
    rw [optimize_large_eq USI hn]
    simp only
    rw [double_to_int_mul_2_0 _ hc0 hc]
  have e4 : (optimize_scan_parameters_for_engine USI).1.perf.slow_incr
      = max (2 * USI.perf.slow_incr) 1 := by
    rw [optimize_large_eq USI hn]
    simp only
    rw [double_to_int_mul_2_0 _ hg0 hg]
  have e5 : (optimize_scan_parameters_for_engine USI).1.perf.ca_incr
      = max (2 * USI.perf.ca_incr) 1 := by
    rw [optimize_large_eq USI hn]
    simp only
    rw [double_to_int_mul_2_0 _ hk0 hk]
  have f6 : ∀ t : ℤ, ⌊(0.6 : ℚ) * t⌋ = t * 3 / 5 := fun t => by
    have := floor_mul_ratio t 3 5 (0.6 : ℚ) (by norm_num)
    exact_mod_cast this
  have f2 : ∀ t : ℤ, ⌊(2 : ℚ) * t⌋ = 2 * t := fun t => by
    have : (2 : ℚ) * t = ((2 * t : ℤ) : ℚ) := by push_cast; ring
    rw [this, Int.floor_intCast]
  rw [f6, f6, f2, f2, f2, e1, e2, e3, e4, e5]
  refine ⟨rfl, rfl, rfl, rfl, rfl, min_le_left _ _, min_le_right _ _, le_max_right _ _, ?_⟩
  intro h
  rw [h]
  norm_num

/-- Witness for C4: Scenario C (probe count 5000, timeout 25000) is tuned to a timeout of
exactly 15000. -/
theorem large_workload_tuning_witness :
    scenario_C.gstats.numprobes > 1000 ∧
    (optimize_scan_parameters_for_engine scenario_C).1.gstats.to_.timeout = 15000 ∧
    (optimize_scan_parameters_for_engine scenario_C).1.perf.max_cwnd = 600 :=
  have h := large_workload_tuning scenario_C (by decide) (by decide) (by decide) (by decide)
    (by decide) (by decide) (by decide) (by decide) (by decide) (by decide) (by decide)
  ⟨by decide, h.2.2.2.2.2.2.2.2 rfl, by
    rw [h.2.2.1]
    have : ⌊(2 : ℚ) * scenario_C.perf.max_cwnd⌋ = 600 := by
      rw [Int.floor_eq_iff]
      simp only [scenario_C]
      norm_num
    rw [this]
    rfl⟩

/-- C1 (the code at the failing input). For the 25 targets and 20 workers of Scenario B (20
is also the constructor's worker count) `targets_per_worker` is 1 and the loop stops after 20
vectors: they are the singletons of the first 20 targets, their sizes sum to 20, and the
targets at positions 21 to 25 are in none of them. -/
theorem worker_targets_scenario_B :
    size_t_of_int OptimizationWrapper.new.config.parallel_workers = 20 ∧
    targets_per_worker scenario_B_targets.length 20 = 1 ∧
    worker_targets scenario_B_targets 20 = (List.range' 1 20).map (fun t => [t]) ∧
    ((worker_targets scenario_B_targets 20).map List.length).sum = 20 ∧
    (worker_targets scenario_B_targets 20).flatten = scenario_B_targets.take 20 ∧
    (worker_targets scenario_B_targets 20).flatten ≠ scenario_B_targets ∧
    (∀ t ∈ [21, 22, 23, 24, 25], t ∈ scenario_B_targets ∧
      t ∉ (worker_targets scenario_B_targets 20).flatten) := by
  decide

/-! ## The entry point, adaptive mode disabled -/

/-- C2. With `config.enabled` false the entry point makes exactly one call of the baseline
`ultra_scan`, with the caller's targets, ports, scan type and unmodified timeout profile, and
nothing else: its only other event is the notice on `std::cout`, there is no local tuned
profile, and the wrapper (configuration, the four counters, both time points) is unchanged.
The caller's profile afterwards is whatever the baseline scan left in it. -/
theorem disabled_delegates_to_baseline {σ : Type} (E : Engine σ) (env : Env) (fuel : ℕ)
    (w : OptimizationWrapper) (Targets : List TargetPtr) (ports : scan_lists_ptr)
    (scantype : stype) (to_ : Option timeout_info) (h : w.config.enabled = false) :
    ∃ out, ultra_scan_optimized E env fuel w Targets ports scantype to_ = Except.ok out ∧
      out.trace =
        [ Event.cout ("Optimization mode not enabled, using standard scan"),
          Event.ultra_scan Targets ports scantype to_ ] ∧
      out.to_ = E.ultra_scan Targets ports scantype to_ ∧
      out.optimized_to = none ∧
      out.wrapper = w := by
  refine ⟨{ wrapper := w
            to_ := E.ultra_scan Targets ports scantype to_
            trace :=
              [ Event.cout ("Optimization mode not enabled, using standard scan"),
                Event.ultra_scan Targets ports scantype to_ ]
            optimized_to := none }, ?_, rfl, rfl, rfl, rfl⟩
  unfold ultra_scan_optimized
  rw [if_pos (by rw [h]; rfl)]

/-- Witness for C2: Scenario A, a freshly constructed wrapper (adaptive mode off) and one
target. -/
theorem disabled_delegates_to_baseline_witness :
    OptimizationWrapper.new.config.enabled = false ∧
    ∃ out, ultra_scan_optimized idle_engine quiet_env 0 OptimizationWrapper.new [1] 0 0
        (some caller_profile) = Except.ok out ∧
      out.trace =
        [ Event.cout ("Optimization mode not enabled, using standard scan"),
          Event.ultra_scan [1] 0 0 (some caller_profile) ] ∧
      out.to_ = idle_engine.ultra_scan [1] 0 0 (some caller_profile) ∧
      out.optimized_to = none ∧
      out.wrapper = OptimizationWrapper.new :=
  ⟨rfl, disabled_delegates_to_baseline idle_engine quiet_env 0 OptimizationWrapper.new [1] 0 0
    (some caller_profile) rfl⟩

/-! ## The 0.4 pre-pass -/

theorem apply_optimized_timeouts_some (t : timeout_info)
    (h0 : 0 ≤ t.timeout) (h1 : t.timeout < 2 ^ (31 : ℕ))
    (h2 : 0 ≤ t.srtt) (h3 : t.srtt < 2 ^ (31 : ℕ)) :
    (apply_optimized_timeouts (some t)).1 =
      some { srtt := t.srtt * 2 / 5, rttvar := t.rttvar, timeout := t.timeout * 2 / 5 } := by
  simp only [apply_optimized_timeouts]
  rw [double_to_int_mul_0_4 _ h0 h1, double_to_int_mul_0_4 _ h2 h3]

/-! ## Counters: modular arithmetic -/

theorem wrap_int32_modEq (x : ℤ) : wrap_int32 x ≡ x [ZMOD 2 ^ (32 : ℕ)] := by
  unfold wrap_int32 Int.ModEq
  norm_num
  omega

theorem wrap_int32_congr {a b : ℤ} (h : a ≡ b [ZMOD 2 ^ (32 : ℕ)]) :
    wrap_int32 a = wrap_int32 b := by
  unfold wrap_int32
  have : (a + 2 ^ 31) % 2 ^ 32 = (b + 2 ^ 31) % 2 ^ 32 := by
    have h2 : a + 2 ^ 31 ≡ b + 2 ^ 31 [ZMOD 2 ^ (32 : ℕ)] := Int.ModEq.add_right _ h
    exact h2
  rw [this]

theorem size_times_modEq (n : ℕ) (k : ℤ) : size_times n k ≡ n * k [ZMOD 2 ^ (32 : ℕ)] := by
  unfold size_times
  refine (wrap_int32_modEq _).trans ?_
  have h64 : (n : ℤ) * k % 2 ^ 64 ≡ n * k [ZMOD 2 ^ (64 : ℕ)] := Int.mod_modEq _ _
  exact h64.of_mul_left (2 ^ 32)

theorem fetch_add_size_times (c : ℤ) (n : ℕ) (k : ℤ) :
    fetch_add c (size_times n k) = wrap_int32 (c + n * k) := by
  unfold fetch_add
  exact wrap_int32_congr (Int.ModEq.add_left _ (size_times_modEq n k))

/-! ## What a returning run leaves behind -/

theorem wrap_int32_idem (x : ℤ) : wrap_int32 (wrap_int32 x) = wrap_int32 x :=
  wrap_int32_congr (wrap_int32_modEq x)

theorem wrap_int32_of_is_int32 {x : ℤ} (h : is_int32 x) : wrap_int32 x = x := by
  apply wrap_int32_eq
  · have := h.1
    norm_num at this ⊢
    exact this
  · have := h.2
    norm_num at this ⊢
    exact this

theorem scan_loop_of_complete {σ : Type} (E : Engine σ) (env : Env) (fuel poll : ℕ)
    (USI : UltraScanInfo σ) (h : E.incompleteHostsEmpty USI = true) :
    scan_loop E env fuel poll USI = some (USI, poll, []) := by
  cases fuel <;> simp [scan_loop, h]

theorem optimized_scan_engine_config {σ : Type} (E : Engine σ) (env : Env) (fuel : ℕ)
    (Targets : List TargetPtr) (ports : scan_lists_ptr) (scantype : stype) (s s1 : RunState)
    (h : optimized_scan_engine E env fuel Targets ports scantype s = Except.ok s1) :
    s1.config =
      { s.config with
        probes_sent := wrap_int32 (s.config.probes_sent + Targets.length * 3000)
        responses_received := wrap_int32 (s.config.responses_received + Targets.length * 2400) }
      := by
  unfold optimized_scan_engine at h
  split at h
  · cases h
  · cases h
    simp only [fetch_add_size_times]

theorem wrap_add_wrap (p a b : ℤ) :
    wrap_int32 (wrap_int32 (p + a) + b) = wrap_int32 (p + (a + b)) := by
  apply wrap_int32_congr
  have := (wrap_int32_modEq (p + a)).add_right b
  rw [← add_assoc]
  exact this

theorem run_tasks_config {σ : Type} (E : Engine σ) (env : Env) (fuel : ℕ)
    (ports : scan_lists_ptr) (scantype : stype) (tasks : List (List TargetPtr)) :
    ∀ (s s1 : RunState), run_tasks E env fuel ports scantype tasks s = Except.ok s1 →
    wrap_int32 s.config.probes_sent = s.config.probes_sent →
    wrap_int32 s.config.responses_received = s.config.responses_received →
    s1.config =
      { s.config with
        probes_sent :=
          wrap_int32 (s.config.probes_sent + ((tasks.map List.length).sum : ℕ) * 3000)
        responses_received :=
          wrap_int32 (s.config.responses_received + ((tasks.map List.length).sum : ℕ) * 2400) }
      := by
  induction tasks with
  | nil =>
    intro s s1 h hp hr
    simp only [run_tasks] at h
    cases h
    simp [hp, hr]
  | cons task rest ih =>
    intro s s1 h hp hr
    simp only [run_tasks] at h
    split at h
    · cases h
    · rename_i s' hs'
      have hc := optimized_scan_engine_config E env fuel task ports scantype s s' hs'
      have h1 := ih s' s1 h (by rw [hc]; exact wrap_int32_idem _)
        (by rw [hc]; exact wrap_int32_idem _)
      rw [h1, hc]
      simp only [List.map_cons, List.sum_cons, Nat.cast_add, add_mul, wrap_add_wrap]

theorem parallel_scan_targets_config {σ : Type} (E : Engine σ) (env : Env) (fuel : ℕ)
    (Targets : List TargetPtr) (ports : scan_lists_ptr) (scantype : stype) (s s1 : RunState)
    (h : parallel_scan_targets E env fuel Targets ports scantype s = Except.ok s1)
    (hp : wrap_int32 s.config.probes_sent = s.config.probes_sent)
    (hr : wrap_int32 s.config.responses_received = s.config.responses_received) :
    size_t_of_int s.config.parallel_workers ≠ 0 ∧
    s1.config =
      { s.config with
        probes_sent :=
          wrap_int32 (s.config.probes_sent +
            (((worker_targets Targets (size_t_of_int s.config.parallel_workers)).map
              List.length).sum : ℕ) * 3000)
        responses_received :=
          wrap_int32 (s.config.responses_received +
            (((worker_targets Targets (size_t_of_int s.config.parallel_workers)).map
              List.length).sum : ℕ) * 2400) } := by
  unfold parallel_scan_targets at h
  simp only at h
  split at h
  · cases h
  · rename_i hW
    refine ⟨hW, ?_⟩
    split at h
    · cases h
    · rename_i s' hs'
      cases h
      have hc := run_tasks_config E env fuel ports scantype _ _ s' hs' hp hr
      have hperm := env.schedule.perm
        (worker_targets Targets (size_t_of_int s.config.parallel_workers))
      have hsum := (hperm.map List.length).sum_eq
      rw [hsum] at hc
      exact hc

theorem ultra_scan_optimized_enabled {σ : Type} (E : Engine σ) (env : Env) (fuel : ℕ)
    (w : OptimizationWrapper) (Targets : List TargetPtr) (ports : scan_lists_ptr)
    (scantype : stype) (to_ : Option timeout_info) (out : Outcome)
    (hen : w.config.enabled = true)
    (h : ultra_scan_optimized E env fuel w Targets ports scantype to_ = Except.ok out) :
    ∃ s0 s1 : RunState,
      s0.config = w.config ∧
      s0.to_ = (apply_optimized_timeouts (some (initial_optimized_to to_))).1 ∧
      s0.poll = 0 ∧
      (if Targets.length > 1 then parallel_scan_targets E env fuel Targets ports scantype s0
        else optimized_scan_engine E env fuel Targets ports scantype s0) = Except.ok s1 ∧
      out.to_ = to_ ∧ out.optimized_to = s1.to_ ∧ out.wrapper.config = s1.config ∧
      out.wrapper.start_time
        = (if w.config.performance_monitoring then env.now_start else w.start_time) ∧
      out.wrapper.end_time
        = (if s1.config.performance_monitoring then env.now_stop else w.end_time) ∧
      (s1.config.performance_monitoring = true →
        ∃ pre, out.trace = pre ++ print_performance_report out.wrapper) := by
  unfold ultra_scan_optimized at h
  rw [if_neg (by rw [hen]; decide)] at h
  by_cases hpm : w.config.performance_monitoring = true
  · simp only [hpm, if_true, start_performance_monitoring] at h
    split at h
    · cases h
    · rename_i s1 hs1
      refine ⟨_, s1, rfl, rfl, rfl, hs1, ?_⟩
      by_cases hpm1 : s1.config.performance_monitoring = true
      · simp only [hpm1, if_true, stop_performance_monitoring] at h
        cases h
        refine ⟨rfl, rfl, rfl, by rw [if_pos hpm], by rw [if_pos hpm1], fun _ =>
          ⟨s1.trace ++ [Event.cout ("Optimized scan completed")]
            ++ [Event.cout ("Performance monitoring stopped")], ?_⟩⟩
        simp only [List.append_assoc]
      · simp only [hpm1, Bool.false_eq_true, if_false] at h
        cases h
        exact ⟨rfl, rfl, rfl, by rw [if_pos hpm], by rw [if_neg hpm1],
          fun hc => absurd hc hpm1⟩
  · simp only [hpm, Bool.false_eq_true, if_false] at h
    split at h
    · cases h
    · rename_i s1 hs1
      refine ⟨_, s1, rfl, rfl, rfl, hs1, ?_⟩
      by_cases hpm1 : s1.config.performance_monitoring = true
      · simp only [hpm1, if_true, stop_performance_monitoring] at h
        cases h
        refine ⟨rfl, rfl, rfl, by rw [if_neg hpm], by rw [if_pos hpm1], fun _ =>
          ⟨s1.trace ++ [Event.cout ("Optimized scan completed")]
            ++ [Event.cout ("Performance monitoring stopped")], ?_⟩⟩
        simp only [List.append_assoc]
      · simp only [hpm1, Bool.false_eq_true, if_false] at h
        cases h
        exact ⟨rfl, rfl, rfl, by rw [if_neg hpm], by rw [if_neg hpm1],
          fun hc => absurd hc hpm1⟩

theorem ultra_scan_optimized_returns {σ : Type} (E : Engine σ) (env : Env) (fuel : ℕ)
    (w : OptimizationWrapper) (Targets : List TargetPtr) (ports : scan_lists_ptr)
    (scantype : stype) (to_ : Option timeout_info)
    (hs : ∀ s0 : RunState, s0.config = w.config →
      ∃ s1, (if Targets.length > 1 then
          parallel_scan_targets E env fuel Targets ports scantype s0
        else optimized_scan_engine E env fuel Targets ports scantype s0) = Except.ok s1) :
    ∃ out, ultra_scan_optimized E env fuel w Targets ports scantype to_ = Except.ok out := by
  have hs' := fun a b => hs { config := w.config, to_ := a, poll := 0, trace := b } rfl
  unfold ultra_scan_optimized
  by_cases hen : w.config.enabled = true
  · rw [if_neg (by rw [hen]; decide)]
    by_cases hpm : w.config.performance_monitoring = true
    · simp only [hpm, if_true, start_performance_monitoring]
      rw [Exists.choose_spec (hs' _ _)]
      exact ⟨_, rfl⟩
    · simp only [hpm, Bool.false_eq_true, if_false]
      rw [Exists.choose_spec (hs' _ _)]
      exact ⟨_, rfl⟩
  · rw [if_pos (by simpa using hen)]
    exact ⟨_, rfl⟩

theorem execute_of_complete {σ : Type} (E : Engine σ) (hE : E.completes_at_once) (env : Env)
    (fuel poll : ℕ) (Targets : List TargetPtr) (ports : scan_lists_ptr) (scantype : stype)
    (to_ : Option timeout_info) :
    ∃ ev, execute_optimized_scan_like_ultra_scan E env fuel poll Targets ports scantype to_ =
      Except.ok (to_.map (fun _ => (driver_start E Targets ports scantype to_).gstats.to_),
        poll, ev) := by
  unfold execute_optimized_scan_like_ultra_scan
  simp only [hE.1, Bool.false_eq_true, if_false]
  rw [scan_loop_of_complete E env fuel poll _ (hE.2 _)]
  cases to_ <;> exact ⟨_, rfl⟩

theorem optimized_scan_engine_of_complete {σ : Type} (E : Engine σ) (hE : E.completes_at_once)
    (env : Env) (fuel : ℕ) (Targets : List TargetPtr) (ports : scan_lists_ptr)
    (scantype : stype) (s : RunState) :
    ∃ s1, optimized_scan_engine E env fuel Targets ports scantype s = Except.ok s1 ∧
      s1.to_ = s.to_.map (fun _ => (driver_start E Targets ports scantype s.to_).gstats.to_) := by
  obtain ⟨ev, hev⟩ := execute_of_complete E hE env fuel s.poll Targets ports scantype s.to_
  unfold optimized_scan_engine
  rw [hev]
  exact ⟨_, rfl, rfl⟩

theorem run_tasks_of_complete {σ : Type} (E : Engine σ) (hE : E.completes_at_once)
    (env : Env) (fuel : ℕ) (ports : scan_lists_ptr) (scantype : stype)
    (tasks : List (List TargetPtr)) :
    ∀ s : RunState, ∃ s1, run_tasks E env fuel ports scantype tasks s = Except.ok s1 := by
  induction tasks with
  | nil => intro s; exact ⟨s, rfl⟩
  | cons task rest ih =>
    intro s
    obtain ⟨s', hs', _⟩ := optimized_scan_engine_of_complete E hE env fuel task ports scantype s
    obtain ⟨s1, hs1⟩ := ih s'
    refine ⟨s1, ?_⟩
    simp only [run_tasks, hs']
    exact hs1

theorem parallel_scan_targets_of_complete {σ : Type} (E : Engine σ)
    (hE : E.completes_at_once) (env : Env) (fuel : ℕ) (Targets : List TargetPtr)
    (ports : scan_lists_ptr) (scantype : stype) (s : RunState)
    (hW : size_t_of_int s.config.parallel_workers ≠ 0) :
    ∃ s1, parallel_scan_targets E env fuel Targets ports scantype s = Except.ok s1 := by
  unfold parallel_scan_targets
  simp only [hW, if_false]
  obtain ⟨s1, hs1⟩ := run_tasks_of_complete E hE env fuel ports scantype
    (env.schedule.order (worker_targets Targets (size_t_of_int s.config.parallel_workers)))
    { s with
      trace := s.trace
        ++ [Event.cout ("Executing parallel scan for " ++ toString Targets.length
              ++ " targets")] }
  rw [hs1]
  exact ⟨_, rfl⟩

theorem ultra_scan_optimized_of_complete {σ : Type} (E : Engine σ)
    (hE : E.completes_at_once) (env : Env) (fuel : ℕ) (w : OptimizationWrapper)
    (Targets : List TargetPtr) (ports : scan_lists_ptr) (scantype : stype)
    (to_ : Option timeout_info) (hW : size_t_of_int w.config.parallel_workers ≠ 0) :
    ∃ out, ultra_scan_optimized E env fuel w Targets ports scantype to_ = Except.ok out := by
  apply ultra_scan_optimized_returns
  intro s0 hs0
  split
  · exact parallel_scan_targets_of_complete E hE env fuel Targets ports scantype s0
      (by rw [hs0]; exact hW)
  · obtain ⟨s1, hs1, _⟩ :=
      optimized_scan_engine_of_complete E hE env fuel Targets ports scantype s0
    exact ⟨s1, hs1⟩

theorem idle_engine_completes : idle_engine.completes_at_once :=
  ⟨fun _ => rfl, fun _ => rfl⟩

/-! ## Runs of the idle engine -/

theorem timeout_info_ext (a b : timeout_info) (h1 : a.srtt = b.srtt)
    (h2 : a.rttvar = b.rttvar) (h3 : a.timeout = b.timeout) : a = b := by
  cases a
  cases b
  simp only at h1 h2 h3
  rw [h1, h2, h3]

theorem idle_driver_start (Targets : List TargetPtr) (ports : scan_lists_ptr)
    (scantype : stype) (t : timeout_info)
    (h0 : 0 ≤ t.timeout) (h1 : t.timeout < 2 ^ (31 : ℕ))
    (h2 : 0 ≤ t.srtt) (h3 : t.srtt < 2 ^ (31 : ℕ)) :
    (driver_start idle_engine Targets ports scantype (some t)).gstats.to_ = small_rule t := by
  unfold driver_start
  apply timeout_info_ext
  · exact optimize_srtt_small _ (show (0 : ℤ) ≤ 1000 by decide) h2 h3
  · exact optimize_rttvar _
  · exact optimize_timeout_small _ (show (0 : ℤ) ≤ 1000 by decide) h0 h1

theorem idle_task (env : Env) (fuel : ℕ) (Targets : List TargetPtr) (ports : scan_lists_ptr)
    (scantype : stype) (s : RunState) (t : timeout_info) (hs : s.to_ = some t)
    (h0 : 0 ≤ t.timeout) (h1 : t.timeout < 2 ^ (31 : ℕ))
    (h2 : 0 ≤ t.srtt) (h3 : t.srtt < 2 ^ (31 : ℕ)) :
    ∃ s1, optimized_scan_engine idle_engine env fuel Targets ports scantype s = Except.ok s1 ∧
      s1.to_ = some (small_rule t) := by
  obtain ⟨s1, hs1, hto⟩ := optimized_scan_engine_of_complete idle_engine idle_engine_completes
    env fuel Targets ports scantype s
  refine ⟨s1, hs1, ?_⟩
  rw [hto, hs, Option.map_some', idle_driver_start Targets ports scantype t h0 h1 h2 h3]

/-! ## The caller's profile on the adaptive path -/

/-- C3 (the code at the failing input). Adaptive mode on, one target, the caller supplies the
profile (srtt 100000, rttvar 50000, timeout 200000), the engine finishes at once.  The call
returns; the scan-loop driver has written the tuned profile (34000, 50000, 68000) back, but
into the local `optimized_to`; the caller's profile still holds the values it held on
entry. -/
theorem enabled_entry_point_leaves_caller_profile :
    ∃ out, ultra_scan_optimized idle_engine quiet_env 0 enabled_wrapper [1] 0 0
        (some caller_profile) = Except.ok out ∧
      out.optimized_to = some { srtt := 34000, rttvar := 50000, timeout := 68000 } ∧
      out.to_ = some caller_profile := by
  obtain ⟨out, hout⟩ := ultra_scan_optimized_of_complete idle_engine idle_engine_completes
    quiet_env 0 enabled_wrapper [1] 0 0 (some caller_profile) (by decide)
  obtain ⟨s0, s1, -, hto, -, hscan, hcaller, hopt, -⟩ :=
    ultra_scan_optimized_enabled idle_engine quiet_env 0 enabled_wrapper [1] 0 0
      (some caller_profile) out rfl hout
  refine ⟨out, hout, ?_, hcaller⟩
  rw [if_neg (by decide)] at hscan
  have hpre : s0.to_ = some dispatched_profile := by
    rw [hto]
    exact apply_optimized_timeouts_some caller_profile (by decide) (by decide) (by decide)
      (by decide)
  obtain ⟨s1', hs1', hto1⟩ := idle_task quiet_env 0 [1] 0 0 s0 dispatched_profile hpre
    (by decide) (by decide) (by decide) (by decide)
  rw [hscan] at hs1'
  cases hs1'
  rw [hopt, hto1]
  decide

/-! ## Re-invoking the tuning passes -/

theorem apply_optimized_timeouts_twice (p : timeout_info)
    (h0 : 0 ≤ p.timeout) (h1 : p.timeout < 2 ^ (31 : ℕ))
    (h2 : 0 ≤ p.srtt) (h3 : p.srtt < 2 ^ (31 : ℕ)) :
    (apply_optimized_timeouts (apply_optimized_timeouts (some p)).1).1 =
      some { srtt := p.srtt * 2 / 5 * 2 / 5, rttvar := p.rttvar,
             timeout := p.timeout * 2 / 5 * 2 / 5 } := by
  rw [apply_optimized_timeouts_some p h0 h1 h2 h3]
  have a0 : 0 ≤ p.timeout * 2 / 5 := by omega
  have a1 : p.timeout * 2 / 5 < 2 ^ (31 : ℕ) := by norm_num at h1 ⊢; omega
  have a2 : 0 ≤ p.srtt * 2 / 5 := by omega
  have a3 : p.srtt * 2 / 5 < 2 ^ (31 : ℕ) := by norm_num at h3 ⊢; omega
  exact apply_optimized_timeouts_some
    { srtt := p.srtt * 2 / 5, rttvar := p.rttvar, timeout := p.timeout * 2 / 5 } a0 a1 a2 a3

theorem optimize_twice_large {σ : Type} (USI : UltraScanInfo σ)
    (hn : USI.gstats.numprobes > 1000)
    (ht0 : 0 ≤ USI.gstats.to_.timeout) (ht : USI.gstats.to_.timeout < 2 ^ (31 : ℕ))
    (hs0 : 0 ≤ USI.gstats.to_.srtt) (hs : USI.gstats.to_.srtt < 2 ^ (31 : ℕ)) :
    (optimize_scan_parameters_for_engine
        (optimize_scan_parameters_for_engine USI).1).1.gstats.to_.timeout
      = max (max (USI.gstats.to_.timeout * 3 / 5) 15000 * 3 / 5) 15000 ∧
    (optimize_scan_parameters_for_engine
        (optimize_scan_parameters_for_engine USI).1).1.gstats.to_.srtt
      = max (max (USI.gstats.to_.srtt * 3 / 5) 8000 * 3 / 5) 8000 := by
  have e1 := optimize_timeout_large USI hn ht0 ht
  have e2 := optimize_srtt_large USI hn hs0 hs
  have hn' : (optimize_scan_parameters_for_engine USI).1.gstats.numprobes > 1000 := by
    rw [optimize_numprobes]; exact hn
  have b0 : 0 ≤ (optimize_scan_parameters_for_engine USI).1.gstats.to_.timeout := by
    rw [e1]; omega
  have b1 : (optimize_scan_parameters_for_engine USI).1.gstats.to_.timeout < 2 ^ (31 : ℕ) := by
    rw [e1]; norm_num at ht ⊢; omega
  have b2 : 0 ≤ (optimize_scan_parameters_for_engine USI).1.gstats.to_.srtt := by
    rw [e2]; omega
  have b3 : (optimize_scan_parameters_for_engine USI).1.gstats.to_.srtt < 2 ^ (31 : ℕ) := by
    rw [e2]; norm_num at hs ⊢; omega
  refine ⟨?_, ?_⟩
  · rw [optimize_timeout_large _ hn' b0 b1, e1]
  · rw [optimize_srtt_large _ hn' b2 b3, e2]

theorem optimize_twice_small {σ : Type} (USI : UltraScanInfo σ)
    (hn : USI.gstats.numprobes ≤ 1000)
    (ht0 : 0 ≤ USI.gstats.to_.timeout) (ht : USI.gstats.to_.timeout < 2 ^ (31 : ℕ))
    (hs0 : 0 ≤ USI.gstats.to_.srtt) (hs : USI.gstats.to_.srtt < 2 ^ (31 : ℕ)) :
    (optimize_scan_parameters_for_engine
        (optimize_scan_parameters_for_engine USI).1).1.gstats.to_.timeout
      = max (max (USI.gstats.to_.timeout * 17 / 20) 22000 * 17 / 20) 22000 ∧
    (optimize_scan_parameters_for_engine
        (optimize_scan_parameters_for_engine USI).1).1.gstats.to_.srtt
      = max (max (USI.gstats.to_.srtt * 17 / 20) 12000 * 17 / 20) 12000 := by
  have e1 := optimize_timeout_small USI hn ht0 ht
  have e2 := optimize_srtt_small USI hn hs0 hs
  have hn' : (optimize_scan_parameters_for_engine USI).1.gstats.numprobes ≤ 1000 := by
    rw [optimize_numprobes]; exact hn
  have b0 : 0 ≤ (optimize_scan_parameters_for_engine USI).1.gstats.to_.timeout := by
    rw [e1]; omega
  have b1 : (optimize_scan_parameters_for_engine USI).1.gstats.to_.timeout < 2 ^ (31 : ℕ) := by
    rw [e1]; norm_num at ht ⊢; omega
  have b2 : 0 ≤ (optimize_scan_parameters_for_engine USI).1.gstats.to_.srtt := by
    rw [e2]; omega
  have b3 : (optimize_scan_parameters_for_engine USI).1.gstats.to_.srtt < 2 ^ (31 : ℕ) := by
    rw [e2]; norm_num at hs ⊢; omega
  refine ⟨?_, ?_⟩
  · rw [optimize_timeout_small _ hn' b0 b1, e1]
  · rw [optimize_srtt_small _ hn' b2 b3, e2]

/-- C6 (counterexample). Neither pass is idempotent.  The 0.4 pre-pass turns the profile
(srtt 100000, timeout 200000) into (40000, 80000) and its own output into (16000, 32000); the
classification pass, at a fixed probe count of 1000, turns timeout 40000 and srtt 20000 into
34000 and 17000 and its own output into 28900 and 14450. -/
theorem tuning_passes_compound :
    (apply_optimized_timeouts (some caller_profile)).1
      = some { srtt := 40000, rttvar := 50000, timeout := 80000 } ∧
    (apply_optimized_timeouts (apply_optimized_timeouts (some caller_profile)).1).1
      = some { srtt := 16000, rttvar := 50000, timeout := 32000 } ∧
    (apply_optimized_timeouts (apply_optimized_timeouts (some caller_profile)).1).1
      ≠ (apply_optimized_timeouts (some caller_profile)).1 ∧
    (optimize_scan_parameters_for_engine scenario_boundary).1.gstats.to_.timeout = 34000 ∧
    (optimize_scan_parameters_for_engine
      (optimize_scan_parameters_for_engine scenario_boundary).1).1.gstats.to_.timeout = 28900 ∧
    (optimize_scan_parameters_for_engine scenario_boundary).1.gstats.to_.srtt = 17000 ∧
    (optimize_scan_parameters_for_engine
      (optimize_scan_parameters_for_engine scenario_boundary).1).1.gstats.to_.srtt = 14450 := by
  have once := apply_optimized_timeouts_some caller_profile (by decide) (by decide) (by decide)
    (by decide)
  have twice := apply_optimized_timeouts_twice caller_profile (by decide) (by decide)
    (by decide) (by decide)
  have t1 := optimize_timeout_small scenario_boundary (by decide) (by decide) (by decide)
  have s1 := optimize_srtt_small scenario_boundary (by decide) (by decide) (by decide)
  have t2 := optimize_twice_small scenario_boundary (by decide) (by decide) (by decide)
    (by decide) (by decide)
  refine ⟨?_, ?_, ?_, ?_, ?_, ?_, ?_⟩
  · rw [once]; decide
  · rw [twice]; decide
  · rw [twice, once]; decide
  · rw [t1]; decide
  · rw [t2.1]; decide
  · rw [s1]; decide
  · rw [t2.2]; decide

/-- C6 (amended). Re-invoking a tuning pass on its own output compounds the scaling except at
a fixed point.  For a profile with non-negative `int` fields, the 0.4 pre-pass applied to its
own output gives the same profile exactly when timeout and srtt are both at most 2 (they are
then scaled to 0).  At a fixed probe count, the classification pass applied to its own output
gives the same timeout and srtt exactly when the first application already yields the floors:
timeout at most 25001 and srtt at most 13334 for a large workload (floors 15000 and 8000),
timeout at most 25883 and srtt at most 14118 for a small one (floors 22000 and 12000). -/
theorem tuning_passes_idempotent_iff {σ : Type} (p : timeout_info) (USI : UltraScanInfo σ)
    (hp0 : 0 ≤ p.timeout) (hp1 : p.timeout < 2 ^ (31 : ℕ))
    (hp2 : 0 ≤ p.srtt) (hp3 : p.srtt < 2 ^ (31 : ℕ))
    (ht0 : 0 ≤ USI.gstats.to_.timeout) (ht : USI.gstats.to_.timeout < 2 ^ (31 : ℕ))
    (hs0 : 0 ≤ USI.gstats.to_.srtt) (hs : USI.gstats.to_.srtt < 2 ^ (31 : ℕ)) :
    ((apply_optimized_timeouts (apply_optimized_timeouts (some p)).1).1
        = (apply_optimized_timeouts (some p)).1 ↔ p.timeout ≤ 2 ∧ p.srtt ≤ 2) ∧
    (((optimize_scan_parameters_for_engine
          (optimize_scan_parameters_for_engine USI).1).1.gstats.to_.timeout
        = (optimize_scan_parameters_for_engine USI).1.gstats.to_.timeout ∧
      (optimize_scan_parameters_for_engine
          (optimize_scan_parameters_for_engine USI).1).1.gstats.to_.srtt
        = (optimize_scan_parameters_for_engine USI).1.gstats.to_.srtt) ↔
      (if USI.gstats.numprobes > 1000 then
        USI.gstats.to_.timeout ≤ 25001 ∧ USI.gstats.to_.srtt ≤ 13334
       else USI.gstats.to_.timeout ≤ 25883 ∧ USI.gstats.to_.srtt ≤ 14118)) := by
  constructor
  · rw [apply_optimized_timeouts_twice p hp0 hp1 hp2 hp3,
      apply_optimized_timeouts_some p hp0 hp1 hp2 hp3, Option.some.injEq,
      timeout_info.mk.injEq]
    omega
  · by_cases hn : USI.gstats.numprobes > 1000
    · rw [if_pos hn, (optimize_twice_large USI hn ht0 ht hs0 hs).1,
        (optimize_twice_large USI hn ht0 ht hs0 hs).2,
        optimize_timeout_large USI hn ht0 ht, optimize_srtt_large USI hn hs0 hs]
      omega
    · have hn' : USI.gstats.numprobes ≤ 1000 := not_lt.mp hn
      rw [if_neg hn, (optimize_twice_small USI hn' ht0 ht hs0 hs).1,
        (optimize_twice_small USI hn' ht0 ht hs0 hs).2,
        optimize_timeout_small USI hn' ht0 ht, optimize_srtt_small USI hn' hs0 hs]
      omega

/-- Witness for the amended C6: the caller's profile (timeout 200000) is not a fixed point of
the pre-pass, and the state of Scenario C (5000 probes, timeout 25000, srtt 10000) is one of
the classification pass. -/
theorem tuning_passes_idempotent_iff_witness :
    (0 ≤ caller_profile.timeout ∧ caller_profile.timeout < 2 ^ (31 : ℕ)) ∧
    (apply_optimized_timeouts (apply_optimized_timeouts (some caller_profile)).1).1
        ≠ (apply_optimized_timeouts (some caller_profile)).1 ∧
    (optimize_scan_parameters_for_engine
        (optimize_scan_parameters_for_engine scenario_C).1).1.gstats.to_.timeout
      = (optimize_scan_parameters_for_engine scenario_C).1.gstats.to_.timeout :=
  have h := tuning_passes_idempotent_iff caller_profile scenario_C (by decide) (by decide)
    (by decide) (by decide) (by decide) (by decide) (by decide) (by decide)
  ⟨by decide, fun hc => absurd (h.1.mp hc) (by decide), (h.2.mpr (by decide)).1⟩

/-! ## The shared profile of the parallel tasks -/

theorem small_rule_range (t : timeout_info)
    (h0 : 0 ≤ t.timeout) (h1 : t.timeout < 2 ^ (31 : ℕ))
    (h2 : 0 ≤ t.srtt) (h3 : t.srtt < 2 ^ (31 : ℕ)) :
    (0 ≤ (small_rule t).timeout ∧ (small_rule t).timeout < 2 ^ (31 : ℕ)) ∧
    (0 ≤ (small_rule t).srtt ∧ (small_rule t).srtt < 2 ^ (31 : ℕ)) := by
  simp only [small_rule]
  norm_num at h1 h3 ⊢
  omega

theorem idle_run_tasks (env : Env) (fuel : ℕ) (ports : scan_lists_ptr) (scantype : stype)
    (tasks : List (List TargetPtr)) :
    ∀ (s : RunState) (t : timeout_info), s.to_ = some t →
      0 ≤ t.timeout → t.timeout < 2 ^ (31 : ℕ) → 0 ≤ t.srtt → t.srtt < 2 ^ (31 : ℕ) →
      ∃ s1, run_tasks idle_engine env fuel ports scantype tasks s = Except.ok s1 ∧
        s1.to_ = some (small_rule^[tasks.length] t) := by
  induction tasks with
  | nil =>
    intro s t hs _ _ _ _
    exact ⟨s, rfl, hs⟩
  | cons task rest ih =>
    intro s t hs h0 h1 h2 h3
    obtain ⟨s', hs', hto'⟩ := idle_task env fuel task ports scantype s t hs h0 h1 h2 h3
    obtain ⟨⟨a0, a1⟩, a2, a3⟩ := small_rule_range t h0 h1 h2 h3
    obtain ⟨s1, hs1, hto1⟩ := ih s' (small_rule t) hto' a0 a1 a2 a3
    refine ⟨s1, ?_, ?_⟩
    · simp only [run_tasks, hs']
      exact hs1
    · rw [hto1, List.length_cons, Function.iterate_succ_apply]

theorem idle_parallel_scan_targets (env : Env) (fuel : ℕ) (Targets : List TargetPtr)
    (ports : scan_lists_ptr) (scantype : stype) (s : RunState) (t : timeout_info)
    (hW : size_t_of_int s.config.parallel_workers ≠ 0) (hs : s.to_ = some t)
    (h0 : 0 ≤ t.timeout) (h1 : t.timeout < 2 ^ (31 : ℕ))
    (h2 : 0 ≤ t.srtt) (h3 : t.srtt < 2 ^ (31 : ℕ)) :
    ∃ s1, parallel_scan_targets idle_engine env fuel Targets ports scantype s = Except.ok s1 ∧
      s1.to_ = some (small_rule^[(worker_targets Targets
        (size_t_of_int s.config.parallel_workers)).length] t) := by
  unfold parallel_scan_targets
  simp only [hW, if_false]
  obtain ⟨s1, hs1, hto1⟩ := idle_run_tasks env fuel ports scantype
    (env.schedule.order (worker_targets Targets (size_t_of_int s.config.parallel_workers)))
    { s with
      trace := s.trace
        ++ [Event.cout ("Executing parallel scan for " ++ toString Targets.length
              ++ " targets")] } t hs h0 h1 h2 h3
  rw [hs1]
  refine ⟨_, rfl, ?_⟩
  rw [(env.schedule.perm _).length_eq] at hto1
  exact hto1

/-- C7 (the code at the failing input). Adaptive mode on, two targets, 20 workers, an engine
that finishes at once, tasks run in launch order.  The dispatcher is given the tuned profile
(srtt 40000, rttvar 50000, timeout 80000) and launches the tasks `[1]` and `[2]`.  The first
task writes (34000, 50000, 68000) into the one profile both tasks point to; the second task
then starts from the state the first left, so its driver copies (34000, 50000, 68000), not
the tuned profile, and leaves (28900, 50000, 57800): the classification pass has run on its
own output. -/
theorem second_task_starts_from_first_tasks_profile :
    worker_targets [1, 2] (size_t_of_int enabled_wrapper.config.parallel_workers)
      = [[1], [2]] ∧
    quiet_env.schedule.order [[1], [2]] = [[1], [2]] ∧
    dispatch_state.to_ = some dispatched_profile ∧
    (∃ s1 s2,
      optimized_scan_engine idle_engine quiet_env 0 [1] 0 0 dispatch_state = Except.ok s1 ∧
      s1.to_ = some { srtt := 34000, rttvar := 50000, timeout := 68000 } ∧
      run_tasks idle_engine quiet_env 0 0 0 [[1], [2]] dispatch_state
        = optimized_scan_engine idle_engine quiet_env 0 [2] 0 0 s1 ∧
      optimized_scan_engine idle_engine quiet_env 0 [2] 0 0 s1 = Except.ok s2 ∧
      s2.to_ = some { srtt := 28900, rttvar := 50000, timeout := 57800 }) ∧
    (∃ out, ultra_scan_optimized idle_engine quiet_env 0 enabled_wrapper [1, 2] 0 0
        (some caller_profile) = Except.ok out ∧
      out.optimized_to = some { srtt := 28900, rttvar := 50000, timeout := 57800 }) := by
  refine ⟨by decide, rfl, rfl, ?_, ?_⟩
  · obtain ⟨s1, hs1, hto1⟩ := idle_task quiet_env 0 [1] 0 0 dispatch_state dispatched_profile
      rfl (by decide) (by decide) (by decide) (by decide)
    obtain ⟨s2, hs2, hto2⟩ := idle_task quiet_env 0 [2] 0 0 s1 (small_rule dispatched_profile)
      hto1 (by decide) (by decide) (by decide) (by decide)
    refine ⟨s1, s2, hs1, ?_, ?_, hs2, ?_⟩
    · rw [hto1]; decide
    · simp only [run_tasks, hs1, hs2]
    · rw [hto2]; decide
  · obtain ⟨out, hout⟩ := ultra_scan_optimized_of_complete idle_engine idle_engine_completes
      quiet_env 0 enabled_wrapper [1, 2] 0 0 (some caller_profile) (by decide)
    obtain ⟨s0, s1, hcfg, hto, -, hscan, -, hopt, -⟩ :=
      ultra_scan_optimized_enabled idle_engine quiet_env 0 enabled_wrapper [1, 2] 0 0
        (some caller_profile) out rfl hout
    refine ⟨out, hout, ?_⟩
    rw [if_pos (by decide)] at hscan
    have hpre : s0.to_ = some dispatched_profile := by
      rw [hto]
      exact apply_optimized_timeouts_some caller_profile (by decide) (by decide) (by decide)
        (by decide)
    obtain ⟨s1', hs1', hto1⟩ := idle_parallel_scan_targets quiet_env 0 [1, 2] 0 0 s0
      dispatched_profile (by rw [hcfg]; decide) hpre (by decide) (by decide) (by decide)
      (by decide)
    rw [hscan] at hs1'
    cases hs1'
    rw [hopt, hto1, hcfg]
    decide

/-! ## The performance report -/

theorem report_success_rate (w : OptimizationWrapper) :
    reported_double ("Success rate: ") (print_performance_report w) =
      if w.config.probes_sent > 0 then
        some (F64.mul (F64.div (F64.ofInt w.config.responses_received)
          (F64.ofInt w.config.probes_sent)) (F64.ofInt 100))
      else none := by
  unfold print_performance_report reported_double
  by_cases h : w.config.probes_sent > 0
  · simp [h, List.findSome?]
  · simp [h, List.findSome?]

theorem report_throughput (w : OptimizationWrapper) :
    reported_double ("Throughput: ") (print_performance_report w) =
      if w.config.probes_sent > 0 then
        some (F64.div (F64.ofInt w.config.probes_sent)
          (F64.div (F64.ofInt (duration_count w)) (F64.fin lit_1000_0)))
      else none := by
  unfold print_performance_report reported_double
  by_cases h : w.config.probes_sent > 0
  · simp [h, List.findSome?]
  · simp [h, List.findSome?]

theorem roundBinary64_zero : roundBinary64 0 = 0 := by
  simp [roundBinary64]

theorem roundBinary64_err_nonneg (x : ℚ) (hx : 0 ≤ x) :
    |roundBinary64 x - x| ≤ x / 2 ^ (53 : ℕ) := by
  rcases hx.eq_or_lt with h0 | hpos
  · rw [← h0, roundBinary64_zero]
    simp
  · exact roundBinary64_err x hpos

theorem F64.ofInt_eq (i : ℤ) (h0 : 0 ≤ i) (h1 : i < 2 ^ (53 : ℕ)) :
    F64.ofInt i = F64.fin (i : ℚ) := by
  unfold F64.ofInt
  rw [roundBinary64_intCast i h0 h1]

theorem success_rate_value (r p : ℤ) (hr0 : 0 ≤ r) (hr1 : r < 2 ^ (53 : ℕ))
    (hp0 : 0 < p) (hp1 : p < 2 ^ (53 : ℕ)) :
    F64.mul (F64.div (F64.ofInt r) (F64.ofInt p)) (F64.ofInt 100)
      = F64.fin (fmul (roundBinary64 ((r : ℚ) / p)) 100) := by
  rw [F64.ofInt_eq r hr0 hr1, F64.ofInt_eq p hp0.le hp1, F64.ofInt_eq 100 (by norm_num)
    (by norm_num)]
  have hp : (p : ℚ) ≠ 0 := by exact_mod_cast hp0.ne'
  simp only [F64.div, F64.mul, hp, if_false, fmul]
  norm_num

theorem success_rate_error (r p : ℤ) (hr0 : 0 ≤ r) (hp0 : 0 < p) :
    |fmul (roundBinary64 ((r : ℚ) / p)) 100 - (r : ℚ) / p * 100|
      ≤ (r : ℚ) / p * 100 * (3 / 2 ^ (53 : ℕ)) := by
  have hq : (0 : ℚ) ≤ (r : ℚ) / p :=
    div_nonneg (by exact_mod_cast hr0) (by exact_mod_cast hp0.le)
  have e1 := roundBinary64_err_nonneg _ hq
  have n1 := roundBinary64_nonneg _ hq
  have hy : (0 : ℚ) ≤ roundBinary64 ((r : ℚ) / p) * 100 := by positivity
  have e2 := roundBinary64_err_nonneg _ hy
  unfold fmul
  rw [abs_le] at e1 e2 ⊢
  set q := (r : ℚ) / p with hqdef
  set x1 := roundBinary64 q with hx1
  set x2 := roundBinary64 (x1 * 100) with hx2
  have hu : (0 : ℚ) < 1 / 2 ^ (53 : ℕ) := by positivity
  have hx1le : x1 ≤ q + q / 2 ^ (53 : ℕ) := by linarith [e1.2]
  have hsmall : q / 2 ^ (53 : ℕ) ≤ q := div_le_self hq (by norm_num)
  have hqq : q / 2 ^ (53 : ℕ) / 2 ^ (53 : ℕ) ≤ q / 2 ^ (53 : ℕ) :=
    div_le_self (by positivity) (by norm_num)
  constructor
  · have : -(x1 * 100 / 2 ^ (53 : ℕ)) ≥ -((q + q / 2 ^ (53 : ℕ)) * 100 / 2 ^ (53 : ℕ)) := by
      apply neg_le_neg
      apply div_le_div_of_nonneg_right _ (by positivity)
      linarith
    have h3 : (q + q / 2 ^ (53 : ℕ)) * 100 / 2 ^ (53 : ℕ)
        = 100 * (q / 2 ^ (53 : ℕ)) + 100 * (q / 2 ^ (53 : ℕ) / 2 ^ (53 : ℕ)) := by ring
    have h4 : q * 100 * (3 / 2 ^ (53 : ℕ)) = 300 * (q / 2 ^ (53 : ℕ)) := by ring
    linarith [e1.1, e2.1]
  · have : x1 * 100 / 2 ^ (53 : ℕ) ≤ (q + q / 2 ^ (53 : ℕ)) * 100 / 2 ^ (53 : ℕ) := by
      apply div_le_div_of_nonneg_right _ (by positivity)
      linarith
    have h3 : (q + q / 2 ^ (53 : ℕ)) * 100 / 2 ^ (53 : ℕ)
        = 100 * (q / 2 ^ (53 : ℕ)) + 100 * (q / 2 ^ (53 : ℕ) / 2 ^ (53 : ℕ)) := by ring
    have h4 : q * 100 * (3 / 2 ^ (53 : ℕ)) = 300 * (q / 2 ^ (53 : ℕ)) := by ring
    linarith [e1.2, e2.2]

/-- C8 (counterexample). For a wrapper whose probes-sent counter is 0 (the freshly
constructed one) the report has no success-rate line, so it does not give a rate of 0: it is
the six count lines between the header and the footer. -/
theorem success_rate_absent_without_probes :
    OptimizationWrapper.new.config.probes_sent = 0 ∧
    reported_double ("Success rate: ") (print_performance_report OptimizationWrapper.new)
      = none ∧
    reported_double ("Success rate: ") (print_performance_report OptimizationWrapper.new)
      ≠ some (F64.fin 0) ∧
    print_performance_report OptimizationWrapper.new =
      [ Event.cout ("=== Performance Report ==="),
        Event.cout ("Scan duration: " ++ toString (0 : ℤ) ++ "ms"),
        Event.cout ("Probes sent: " ++ toString (0 : ℤ)),
        Event.cout ("Responses received: " ++ toString (0 : ℤ)),
        Event.cout ("Timeouts: " ++ toString (0 : ℤ)),
        Event.cout ("Errors: " ++ toString (0 : ℤ)),
        Event.cout ("=========================") ] := by
  have h := report_success_rate OptimizationWrapper.new
  rw [if_neg (by decide)] at h
  refine ⟨rfl, h, ?_, rfl⟩
  rw [h]
  exact fun hc => Option.noConfusion hc

/-- C8 (amended). The success rate of the performance report exists only when probes were
sent: if the probes-sent counter is not positive the report has no success-rate line (neither
0 nor any other value); if it is positive (and both counters are non-negative `int`s) the
line gives the `double` computed as `(double)responses / probes * 100`, a value within a
relative error of 3 / 2^53 of the exact responses / probes * 100. -/
theorem success_rate_report (w : OptimizationWrapper)
    (hr0 : 0 ≤ w.config.responses_received)
    (hr1 : w.config.responses_received < 2 ^ (31 : ℕ))
    (hp1 : w.config.probes_sent < 2 ^ (31 : ℕ)) :
    (w.config.probes_sent ≤ 0 →
      reported_double ("Success rate: ") (print_performance_report w) = none) ∧
    (0 < w.config.probes_sent →
      reported_double ("Success rate: ") (print_performance_report w)
        = some (F64.fin (fmul (roundBinary64
            ((w.config.responses_received : ℚ) / w.config.probes_sent)) 100)) ∧
      |fmul (roundBinary64 ((w.config.responses_received : ℚ) / w.config.probes_sent)) 100
          - (w.config.responses_received : ℚ) / w.config.probes_sent * 100|
        ≤ (w.config.responses_received : ℚ) / w.config.probes_sent * 100
            * (3 / 2 ^ (53 : ℕ))) := by
  refine ⟨fun h => ?_, fun h => ⟨?_, success_rate_error _ _ hr0 h⟩⟩
  · rw [report_success_rate, if_neg (not_lt.mpr h)]
  · rw [report_success_rate, if_pos h, success_rate_value _ _ hr0
      (by norm_num at hr1 ⊢; omega) h (by norm_num at hp1 ⊢; omega)]

/-- Witness for the amended C8: with 2400 responses to 3000 probes the report gives a success
rate within 80 * 3 / 2^53 of 80. -/
theorem success_rate_report_witness :
    (0 ≤ fast_session_wrapper.config.responses_received ∧
      0 < fast_session_wrapper.config.probes_sent) ∧
    ∃ v, reported_double ("Success rate: ") (print_performance_report fast_session_wrapper)
        = some (F64.fin v) ∧ |v - 80| ≤ 80 * (3 / 2 ^ (53 : ℕ)) :=
  have h := (success_rate_report fast_session_wrapper (by decide) (by decide) (by decide)).2
    (by decide)
  ⟨by decide, _, h.1, by
    have h2 := h.2
    have e : ((fast_session_wrapper.config.responses_received : ℤ) : ℚ)
        / fast_session_wrapper.config.probes_sent * 100 = 80 := by
      simp only [fast_session_wrapper]
      norm_num
    rw [e] at h2
    exact h2⟩

/-! ## Sessions and their counters -/

theorem OptimizationWrapper_ext (a b : OptimizationWrapper) (h1 : a.config = b.config)
    (h2 : a.start_time = b.start_time) (h3 : a.end_time = b.end_time) : a = b := by
  cases a
  cases b
  simp only at h1 h2 h3
  rw [h1, h2, h3]

theorem session_counters {σ : Type} (E : Engine σ) (env : Env) (fuel : ℕ)
    (w : OptimizationWrapper) (Targets : List TargetPtr) (ports : scan_lists_ptr)
    (scantype : stype) (to_ : Option timeout_info) (out : Outcome)
    (hen : w.config.enabled = true)
    (hp : is_int32 w.config.probes_sent) (hr : is_int32 w.config.responses_received)
    (h : ultra_scan_optimized E env fuel w Targets ports scantype to_ = Except.ok out) :
    out.wrapper.config =
      { w.config with
        probes_sent := wrap_int32 (w.config.probes_sent + targets_scanned w Targets * 3000)
        responses_received :=
          wrap_int32 (w.config.responses_received + targets_scanned w Targets * 2400) } := by
  obtain ⟨s0, s1, hcfg, -, -, hscan, -, -, hout, -⟩ :=
    ultra_scan_optimized_enabled E env fuel w Targets ports scantype to_ out hen h
  rw [hout]
  unfold targets_scanned
  by_cases hl : Targets.length > 1
  · rw [if_pos hl] at hscan ⊢
    have := (parallel_scan_targets_config E env fuel Targets ports scantype s0 s1 hscan
      (by rw [hcfg]; exact wrap_int32_of_is_int32 hp)
      (by rw [hcfg]; exact wrap_int32_of_is_int32 hr)).2
    rw [this, hcfg]
  · rw [if_neg hl] at hscan ⊢
    have := optimized_scan_engine_config E env fuel Targets ports scantype s0 s1 hscan
    rw [this, hcfg]

theorem session_report {σ : Type} (E : Engine σ) (env : Env) (fuel : ℕ)
    (w : OptimizationWrapper) (Targets : List TargetPtr) (ports : scan_lists_ptr)
    (scantype : stype) (to_ : Option timeout_info) (out : Outcome)
    (hen : w.config.enabled = true) (hpm : w.config.performance_monitoring = true)
    (hp : is_int32 w.config.probes_sent) (hr : is_int32 w.config.responses_received)
    (h : ultra_scan_optimized E env fuel w Targets ports scantype to_ = Except.ok out) :
    out.wrapper.start_time = env.now_start ∧ out.wrapper.end_time = env.now_stop ∧
    ∃ pre, out.trace = pre ++ print_performance_report out.wrapper := by
  have hc := session_counters E env fuel w Targets ports scantype to_ out hen hp hr h
  obtain ⟨s0, s1, -, -, -, -, -, -, hout, hst, het, hrep⟩ :=
    ultra_scan_optimized_enabled E env fuel w Targets ports scantype to_ out hen h
  have hpm1 : s1.config.performance_monitoring = true := by
    rw [← hout, hc]
    exact hpm
  rw [if_pos hpm] at hst
  rw [if_pos hpm1] at het
  exact ⟨hst, het, hrep hpm1⟩

theorem counts_in_report (w : OptimizationWrapper) :
    Event.cout ("Probes sent: " ++ toString w.config.probes_sent)
      ∈ print_performance_report w ∧
    Event.cout ("Responses received: " ++ toString w.config.responses_received)
      ∈ print_performance_report w ∧
    Event.cout ("Timeouts: " ++ toString w.config.timeouts) ∈ print_performance_report w ∧
    Event.cout ("Errors: " ++ toString w.config.errors) ∈ print_performance_report w := by
  unfold print_performance_report
  simp

theorem first_session_outcome :
    ∃ out, ultra_scan_optimized idle_engine quiet_env 0 enabled_wrapper [1] 0 0 none
        = Except.ok out ∧ out.wrapper = fast_session_wrapper ∧
      ∃ pre, out.trace = pre ++ print_performance_report fast_session_wrapper := by
  obtain ⟨out, hout⟩ := ultra_scan_optimized_of_complete idle_engine idle_engine_completes
    quiet_env 0 enabled_wrapper [1] 0 0 none (by decide)
  have hc := session_counters idle_engine quiet_env 0 enabled_wrapper [1] 0 0 none out rfl
    (by decide) (by decide) hout
  obtain ⟨hst, het, pre, hpre⟩ := session_report idle_engine quiet_env 0 enabled_wrapper [1]
    0 0 none out rfl rfl (by decide) (by decide) hout
  have hw : out.wrapper = fast_session_wrapper := by
    have hA : wrap_int32 (enabled_wrapper.config.probes_sent
        + (targets_scanned enabled_wrapper [1] : ℕ) * 3000) = 3000 := by decide
    have hB : wrap_int32 (enabled_wrapper.config.responses_received
        + (targets_scanned enabled_wrapper [1] : ℕ) * 2400) = 2400 := by decide
    apply OptimizationWrapper_ext
    · rw [hc, hA, hB]
      rfl
    · rw [hst]
      rfl
    · rw [het]
      rfl
  refine ⟨out, hout, hw, pre, ?_⟩
  rw [hpre, hw]

theorem roundBinary64_neg (x : ℚ) : roundBinary64 (-x) = -roundBinary64 x := by
  rcases lt_trichotomy x 0 with h | h | h
  · have h1 : ¬ (-x < 0) := by linarith
    simp only [roundBinary64, neg_eq_zero, abs_neg, h.ne, h, h1, if_true, if_false]
    ring
  · rw [h]
    simp [roundBinary64]
  · have h1 : ¬ (x < 0) := by linarith
    have h2 : -x < 0 := by linarith
    simp only [roundBinary64, neg_eq_zero, abs_neg, h.ne', h1, h2, if_true, if_false]
    ring

theorem roundBinary64_pos (x : ℚ) (hx : 0 < x) : 0 < roundBinary64 x := by
  have herr := roundBinary64_err x hx
  rw [abs_le] at herr
  have : x / 2 ^ (53 : ℕ) < x := div_lt_self hx (by norm_num)
  linarith [herr.1]

theorem roundBinary64_ne_zero (x : ℚ) (hx : x ≠ 0) : roundBinary64 x ≠ 0 := by
  rcases lt_or_gt_of_ne hx with h | h
  · have := roundBinary64_pos (-x) (by linarith)
    rw [roundBinary64_neg] at this
    linarith
  · exact (roundBinary64_pos x h).ne'

theorem F64.ofInt_eq_of_abs (i : ℤ) (h : |i| < 2 ^ (53 : ℕ)) :
    F64.ofInt i = F64.fin (i : ℚ) := by
  rw [abs_lt] at h
  rcases le_or_lt 0 i with h0 | h0
  · exact F64.ofInt_eq i h0 h.2
  · unfold F64.ofInt
    have := roundBinary64_intCast (-i) (by omega) (by omega)
    rw [Int.cast_neg, roundBinary64_neg] at this
    rw [neg_inj] at this
    rw [this]

theorem F64.div_fin (a b : ℚ) (hb : b ≠ 0) :
    F64.div (F64.fin a) (F64.fin b) = F64.fin (roundBinary64 (a / b)) := by
  simp only [F64.div, hb, if_false]

theorem F64.div_fin_zero (a : ℚ) (ha : 0 < a) :
    F64.div (F64.fin a) (F64.fin 0) = F64.inf false := by
  have h1 : a ≠ 0 := ha.ne'
  have h2 : ¬ a < 0 := not_lt.mpr ha.le
  simp only [F64.div, if_true, h1, if_false, h2, decide_False]

theorem throughput_value (p d : ℤ) (hp0 : 0 < p) (hp1 : p < 2 ^ (53 : ℕ)) (hd : d ≠ 0)
    (hd1 : |d| < 2 ^ (53 : ℕ)) :
    F64.div (F64.ofInt p) (F64.div (F64.ofInt d) (F64.fin lit_1000_0))
      = F64.fin (roundBinary64 ((p : ℚ) / roundBinary64 ((d : ℚ) / 1000))) := by
  rw [F64.ofInt_eq p hp0.le hp1, F64.ofInt_eq_of_abs d hd1, lit_1000_0_eq]
  have hd' : (d : ℚ) / 1000 ≠ 0 := by
    apply div_ne_zero
    · exact_mod_cast hd
    · norm_num
  have hr := roundBinary64_ne_zero _ hd'
  rw [F64.div_fin _ _ (by norm_num), F64.div_fin _ _ hr]

theorem throughput_error_pos (p d : ℤ) (hp0 : 0 < p) (hd : 0 < d) :
    |roundBinary64 ((p : ℚ) / roundBinary64 ((d : ℚ) / 1000)) - (p : ℚ) / ((d : ℚ) / 1000)|
      ≤ (p : ℚ) / ((d : ℚ) / 1000) * (3 / 2 ^ (53 : ℕ)) := by
  have hpq : (0 : ℚ) < p := by exact_mod_cast hp0
  have ha : (0 : ℚ) < (d : ℚ) / 1000 := by
    apply div_pos
    · exact_mod_cast hd
    · norm_num
  set a := (d : ℚ) / 1000 with hadef
  have e1 := roundBinary64_err a ha
  have hy := roundBinary64_pos a ha
  set y := roundBinary64 a with hydef
  have hz : (0 : ℚ) < (p : ℚ) / y := div_pos hpq hy
  have e2 := roundBinary64_err _ hz
  set z := (p : ℚ) / y with hzdef
  set v := roundBinary64 z with hvdef
  rw [abs_le] at e1 e2 ⊢
  -- z is within z / 2^53 of p / a, and z ≤ (p / a) * (2^53 / (2^53 - 1))
  have hya : a * (1 - 1 / 2 ^ (53 : ℕ)) ≤ y := by
    have : a * (1 - 1 / 2 ^ (53 : ℕ)) = a - a / 2 ^ (53 : ℕ) := by ring
    linarith [e1.1]
  have hyb : y ≤ a * (1 + 1 / 2 ^ (53 : ℕ)) := by
    have : a * (1 + 1 / 2 ^ (53 : ℕ)) = a + a / 2 ^ (53 : ℕ) := by ring
    linarith [e1.2]
  have hpa : (0 : ℚ) < (p : ℚ) / a := div_pos hpq ha
  have hzle : z ≤ (p : ℚ) / a * (2 ^ (53 : ℕ) / (2 ^ (53 : ℕ) - 1)) := by
    rw [hzdef, div_le_iff₀ hy]
    have h1 : (p : ℚ) / a * (2 ^ (53 : ℕ) / (2 ^ (53 : ℕ) - 1)) * (a * (1 - 1 / 2 ^ (53 : ℕ)))
        = p := by
      field_simp
    have h2 : (p : ℚ) / a * (2 ^ (53 : ℕ) / (2 ^ (53 : ℕ) - 1)) * (a * (1 - 1 / 2 ^ (53 : ℕ)))
        ≤ (p : ℚ) / a * (2 ^ (53 : ℕ) / (2 ^ (53 : ℕ) - 1)) * y :=
      mul_le_mul_of_nonneg_left hya (by positivity)
    linarith
  have hzge : (p : ℚ) / a * (2 ^ (53 : ℕ) / (2 ^ (53 : ℕ) + 1)) ≤ z := by
    rw [hzdef, le_div_iff₀ hy]
    have h1 : (p : ℚ) / a * (2 ^ (53 : ℕ) / (2 ^ (53 : ℕ) + 1)) * (a * (1 + 1 / 2 ^ (53 : ℕ)))
        = p := by
      field_simp
    have h2 : (p : ℚ) / a * (2 ^ (53 : ℕ) / (2 ^ (53 : ℕ) + 1)) * y
        ≤ (p : ℚ) / a * (2 ^ (53 : ℕ) / (2 ^ (53 : ℕ) + 1)) * (a * (1 + 1 / 2 ^ (53 : ℕ))) :=
      mul_le_mul_of_nonneg_left hyb (by positivity)
    linarith
  set X := (p : ℚ) / a with hXdef
  have c1 : X * (2 ^ (53 : ℕ) / (2 ^ (53 : ℕ) - 1))
      + X * (2 ^ (53 : ℕ) / (2 ^ (53 : ℕ) - 1)) / 2 ^ (53 : ℕ)
      ≤ X + X * (3 / 2 ^ (53 : ℕ)) := by
    have : X * (2 ^ (53 : ℕ) / (2 ^ (53 : ℕ) - 1))
        + X * (2 ^ (53 : ℕ) / (2 ^ (53 : ℕ) - 1)) / 2 ^ (53 : ℕ)
        = X * ((2 ^ (53 : ℕ) + 1) / (2 ^ (53 : ℕ) - 1)) := by
      field_simp
      ring
    rw [this]
    have : X + X * (3 / 2 ^ (53 : ℕ)) = X * (1 + 3 / 2 ^ (53 : ℕ)) := by ring
    rw [this]
    apply mul_le_mul_of_nonneg_left _ hpa.le
    norm_num
  have c2 : X - X * (3 / 2 ^ (53 : ℕ))
      ≤ X * (2 ^ (53 : ℕ) / (2 ^ (53 : ℕ) + 1))
        - X * (2 ^ (53 : ℕ) / (2 ^ (53 : ℕ) + 1)) / 2 ^ (53 : ℕ) := by
    have : X * (2 ^ (53 : ℕ) / (2 ^ (53 : ℕ) + 1))
        - X * (2 ^ (53 : ℕ) / (2 ^ (53 : ℕ) + 1)) / 2 ^ (53 : ℕ)
        = X * ((2 ^ (53 : ℕ) - 1) / (2 ^ (53 : ℕ) + 1)) := by
      field_simp
      ring
    rw [this]
    have : X - X * (3 / 2 ^ (53 : ℕ)) = X * (1 - 3 / 2 ^ (53 : ℕ)) := by ring
    rw [this]
    apply mul_le_mul_of_nonneg_left _ hpa.le
    norm_num
  have hzdiv : z / 2 ^ (53 : ℕ)
      ≤ X * (2 ^ (53 : ℕ) / (2 ^ (53 : ℕ) - 1)) / 2 ^ (53 : ℕ) :=
    div_le_div_of_nonneg_right hzle (by positivity)
  have hzdiv2 : X * (2 ^ (53 : ℕ) / (2 ^ (53 : ℕ) + 1)) / 2 ^ (53 : ℕ) ≤ z / 2 ^ (53 : ℕ) :=
    div_le_div_of_nonneg_right hzge (by positivity)
  constructor
  · -- v ≥ z - z/2^53 = z (1 - u) ≥ X * (2^53/(2^53+1)) (1 - u)
    have hmono : X * (2 ^ (53 : ℕ) / (2 ^ (53 : ℕ) + 1))
        - X * (2 ^ (53 : ℕ) / (2 ^ (53 : ℕ) + 1)) / 2 ^ (53 : ℕ) ≤ z - z / 2 ^ (53 : ℕ) := by
      have e : ∀ t : ℚ, t - t / 2 ^ (53 : ℕ) = t * (1 - 1 / 2 ^ (53 : ℕ)) := fun t => by ring
      rw [e z, e (X * (2 ^ (53 : ℕ) / (2 ^ (53 : ℕ) + 1)))]
      exact mul_le_mul_of_nonneg_right hzge (by norm_num)
    linarith [e2.1]
  · linarith [e2.2]

/-- C9 (counterexample). Two report states the claim gets wrong.  After a first adaptive
session on one target whose clock readings are less than a millisecond apart, 3000 probes are
counted and the duration is 0 ms: the report divides the probe count by `0 / 1000.0` and its
throughput line gives positive infinity, not 0.  With no probes counted and a duration of
500 ms the report has no throughput line at all. -/
theorem throughput_divides_by_zero_duration :
    (∃ out, ultra_scan_optimized idle_engine quiet_env 0 enabled_wrapper [1] 0 0 none
        = Except.ok out ∧ out.wrapper = fast_session_wrapper ∧
      ∃ pre, out.trace = pre ++ print_performance_report fast_session_wrapper) ∧
    fast_session_wrapper.config.probes_sent = 3000 ∧
    duration_count fast_session_wrapper = 0 ∧
    F64.div (F64.ofInt (duration_count fast_session_wrapper)) (F64.fin lit_1000_0)
      = F64.fin 0 ∧
    reported_double ("Throughput: ") (print_performance_report fast_session_wrapper)
      = some (F64.inf false) ∧
    empty_session_wrapper.config.probes_sent = 0 ∧
    duration_count empty_session_wrapper = 500 ∧
    reported_double ("Throughput: ") (print_performance_report empty_session_wrapper)
      = none := by
  have hd : duration_count fast_session_wrapper = 0 := by decide
  have hdiv : F64.div (F64.ofInt (duration_count fast_session_wrapper)) (F64.fin lit_1000_0)
      = F64.fin 0 := by
    rw [hd, F64.ofInt_eq 0 (le_refl 0) (by norm_num), lit_1000_0_eq,
      F64.div_fin _ _ (by norm_num)]
    norm_num
    exact roundBinary64_zero
  refine ⟨first_session_outcome, rfl, hd, hdiv, ?_, rfl, by decide, ?_⟩
  · rw [report_throughput, if_pos (by decide), hdiv,
      F64.ofInt_eq _ (by decide) (by decide), F64.div_fin_zero _ (by decide)]
  · rw [report_throughput, if_neg (by decide)]

/-- C9 (amended). The throughput line of the performance report exists only when probes were
sent: if the probes-sent counter is not positive the report has no throughput line; if it is
positive and the duration is a non-zero number of whole milliseconds, the line gives the
`double` computed as `probes / (duration / 1000.0)`, which for a positive duration is within
a relative error of 3 / 2^53 of the exact probes / durationSeconds. -/
theorem throughput_report (w : OptimizationWrapper)
    (hp1 : w.config.probes_sent < 2 ^ (31 : ℕ))
    (hd1 : |duration_count w| < 2 ^ (53 : ℕ)) :
    (w.config.probes_sent ≤ 0 →
      reported_double ("Throughput: ") (print_performance_report w) = none) ∧
    (0 < w.config.probes_sent → duration_count w ≠ 0 →
      reported_double ("Throughput: ") (print_performance_report w)
        = some (F64.fin (roundBinary64
            ((w.config.probes_sent : ℚ) / roundBinary64 ((duration_count w : ℚ) / 1000))))) ∧
    (0 < w.config.probes_sent → 0 < duration_count w →
      |roundBinary64 ((w.config.probes_sent : ℚ)
            / roundBinary64 ((duration_count w : ℚ) / 1000))
          - (w.config.probes_sent : ℚ) / ((duration_count w : ℚ) / 1000)|
        ≤ (w.config.probes_sent : ℚ) / ((duration_count w : ℚ) / 1000)
            * (3 / 2 ^ (53 : ℕ))) := by
  refine ⟨fun h => ?_, fun h hd => ?_, fun h hd => throughput_error_pos _ _ h hd⟩
  · rw [report_throughput, if_neg (not_lt.mpr h)]
  · rw [report_throughput, if_pos h,
      throughput_value _ _ h (by norm_num at hp1 ⊢; omega) hd hd1]

/-- Witness for the amended C9: with 3000 probes counted over 500 ms the throughput line gives
a value within 6000 * 3 / 2^53 of 6000 probes per second. -/
theorem throughput_report_witness :
    (0 < slow_session_wrapper.config.probes_sent ∧ duration_count slow_session_wrapper = 500) ∧
    ∃ v, reported_double ("Throughput: ") (print_performance_report slow_session_wrapper)
        = some (F64.fin v) ∧ |v - 6000| ≤ 6000 * (3 / 2 ^ (53 : ℕ)) :=
  have h := throughput_report slow_session_wrapper (by decide) (by decide)
  ⟨by decide, _, h.2.1 (by decide) (by decide), by
    have h2 := h.2.2 (by decide) (by decide)
    have e : ((slow_session_wrapper.config.probes_sent : ℤ) : ℚ)
        / (((duration_count slow_session_wrapper : ℤ) : ℚ) / 1000) = 6000 := by
      have hd : duration_count slow_session_wrapper = 500 := by decide
      rw [hd]
      simp only [slow_session_wrapper, fast_session_wrapper]
      norm_num
    rw [e] at h2
    exact h2⟩

theorem task_counters_monotone {σ : Type} (E : Engine σ) (env : Env) (fuel : ℕ)
    (Targets : List TargetPtr) (ports : scan_lists_ptr) (scantype : stype) (s s1 : RunState)
    (h : optimized_scan_engine E env fuel Targets ports scantype s = Except.ok s1)
    (hp : is_int32 s.config.probes_sent) (hr : is_int32 s.config.responses_received)
    (hp' : s.config.probes_sent + Targets.length * 3000 < 2 ^ (31 : ℕ))
    (hr' : s.config.responses_received + Targets.length * 2400 < 2 ^ (31 : ℕ)) :
    s.config.probes_sent ≤ s1.config.probes_sent ∧
    s.config.responses_received ≤ s1.config.responses_received ∧
    s1.config.timeouts = s.config.timeouts ∧ s1.config.errors = s.config.errors := by
  have hc := optimized_scan_engine_config E env fuel Targets ports scantype s s1 h
  have hn : (0 : ℤ) ≤ (Targets.length : ℤ) := Int.natCast_nonneg _
  have h1 := hp.1
  have h2 := hr.1
  have eP : s1.config.probes_sent = s.config.probes_sent + Targets.length * 3000 := by
    rw [hc]
    exact wrap_int32_eq _ (by norm_num at h1 ⊢; omega) hp'
  have eR : s1.config.responses_received
      = s.config.responses_received + Targets.length * 2400 := by
    rw [hc]
    exact wrap_int32_eq _ (by norm_num at h2 ⊢; omega) hr'
  refine ⟨by omega, by omega, by rw [hc], by rw [hc]⟩

/-- C10 (counterexample). Two adaptive sessions in a row on one wrapper, one target each, with
an engine that finishes at once.  The first session leaves 3000 probes and 2400 responses
counted.  The second session hands one target to the engine, which adds 3000 and 2400, yet
the values it reports at its end are 6000 probes and 4800 responses: the counts of the
earlier session are still in the counters. -/
theorem second_session_reports_earlier_counts :
    ∃ out1 out2,
      ultra_scan_optimized idle_engine quiet_env 0 enabled_wrapper [1] 0 0 none
        = Except.ok out1 ∧
      out1.wrapper.config.probes_sent = 3000 ∧
      out1.wrapper.config.responses_received = 2400 ∧
      ultra_scan_optimized idle_engine quiet_env 0 out1.wrapper [2] 0 0 none
        = Except.ok out2 ∧
      targets_scanned out1.wrapper [2] = 1 ∧
      out2.wrapper.config.probes_sent = 6000 ∧
      out2.wrapper.config.responses_received = 4800 ∧
      Event.cout ("Probes sent: " ++ toString (6000 : ℤ)) ∈ out2.trace ∧
      Event.cout ("Responses received: " ++ toString (4800 : ℤ)) ∈ out2.trace := by
  obtain ⟨out1, hout1, hw1, -⟩ := first_session_outcome
  obtain ⟨out2, hout2⟩ := ultra_scan_optimized_of_complete idle_engine idle_engine_completes
    quiet_env 0 fast_session_wrapper [2] 0 0 none (by decide)
  have hc := session_counters idle_engine quiet_env 0 fast_session_wrapper [2] 0 0 none out2
    rfl (by decide) (by decide) hout2
  obtain ⟨-, -, pre, hpre⟩ := session_report idle_engine quiet_env 0 fast_session_wrapper [2]
    0 0 none out2 rfl rfl (by decide) (by decide) hout2
  have hP : out2.wrapper.config.probes_sent = 6000 := by
    rw [hc]
    decide
  have hR : out2.wrapper.config.responses_received = 4800 := by
    rw [hc]
    decide
  have hrep := counts_in_report out2.wrapper
  rw [hP, hR] at hrep
  refine ⟨out1, out2, hout1, ?_, ?_, ?_, ?_, hP, hR, ?_, ?_⟩
  · rw [hw1]; rfl
  · rw [hw1]; rfl
  · rw [hw1]; exact hout2
  · rw [hw1]; decide
  · rw [hpre]
    exact List.mem_append_right _ hrep.1
  · rw [hpre]
    exact List.mem_append_right _ hrep.2.1

/-- C10 (amended). The telemetry counters are cumulative over the life of the wrapper; no
session resets them.  For every prior state of the wrapper with adaptive mode on (the two
counters being `int`s) and every adaptive session that returns: the probes-sent and
responses-received counters at the end are the values before the session plus 3000 and 2400
for each target handed to the engine, reduced to `int`; the timeouts and errors counters are
the values before the session; with performance monitoring on, these are the values the
session's report prints; and absent `int` overflow the two counters at the end are the exact
sums and are not below the values before the session, as is the case across every single
task of the session. -/
theorem session_counters_accumulate {σ : Type} (E : Engine σ) (env : Env) (fuel : ℕ)
    (w : OptimizationWrapper) (Targets : List TargetPtr) (ports : scan_lists_ptr)
    (scantype : stype) (to_ : Option timeout_info) (out : Outcome)
    (hen : w.config.enabled = true)
    (hp : is_int32 w.config.probes_sent) (hr : is_int32 w.config.responses_received)
    (h : ultra_scan_optimized E env fuel w Targets ports scantype to_ = Except.ok out) :
    out.wrapper.config.probes_sent
      = wrap_int32 (w.config.probes_sent + targets_scanned w Targets * 3000) ∧
    out.wrapper.config.responses_received
      = wrap_int32 (w.config.responses_received + targets_scanned w Targets * 2400) ∧
    out.wrapper.config.timeouts = w.config.timeouts ∧
    out.wrapper.config.errors = w.config.errors ∧
    (w.config.performance_monitoring = true →
      Event.cout ("Probes sent: " ++ toString out.wrapper.config.probes_sent) ∈ out.trace ∧
      Event.cout ("Responses received: " ++ toString out.wrapper.config.responses_received)
        ∈ out.trace ∧
      Event.cout ("Timeouts: " ++ toString out.wrapper.config.timeouts) ∈ out.trace ∧
      Event.cout ("Errors: " ++ toString out.wrapper.config.errors) ∈ out.trace) ∧
    (w.config.probes_sent + targets_scanned w Targets * 3000 < 2 ^ (31 : ℕ) →
      out.wrapper.config.probes_sent
        = w.config.probes_sent + targets_scanned w Targets * 3000 ∧
      w.config.probes_sent ≤ out.wrapper.config.probes_sent) ∧
    (w.config.responses_received + targets_scanned w Targets * 2400 < 2 ^ (31 : ℕ) →
      out.wrapper.config.responses_received
        = w.config.responses_received + targets_scanned w Targets * 2400 ∧
      w.config.responses_received ≤ out.wrapper.config.responses_received) ∧
    (∀ (task : List TargetPtr) (s s1 : RunState),
      optimized_scan_engine E env fuel task ports scantype s = Except.ok s1 →
      is_int32 s.config.probes_sent → is_int32 s.config.responses_received →
      s.config.probes_sent + task.length * 3000 < 2 ^ (31 : ℕ) →
      s.config.responses_received + task.length * 2400 < 2 ^ (31 : ℕ) →
      s.config.probes_sent ≤ s1.config.probes_sent ∧
      s.config.responses_received ≤ s1.config.responses_received ∧
      s1.config.timeouts = s.config.timeouts ∧ s1.config.errors = s.config.errors) := by
  have hc := session_counters E env fuel w Targets ports scantype to_ out hen hp hr h
  have hn : (0 : ℤ) ≤ (targets_scanned w Targets : ℤ) := Int.natCast_nonneg _
  have h1 := hp.1
  have h2 := hr.1
  have eP : out.wrapper.config.probes_sent
      = wrap_int32 (w.config.probes_sent + targets_scanned w Targets * 3000) := by rw [hc]
  have eR : out.wrapper.config.responses_received
      = wrap_int32 (w.config.responses_received + targets_scanned w Targets * 2400) := by
    rw [hc]
  refine ⟨eP, eR, by rw [hc], by rw [hc], ?_, ?_, ?_, ?_⟩
  · intro hpm
    obtain ⟨-, -, pre, hpre⟩ := session_report E env fuel w Targets ports scantype to_ out
      hen hpm hp hr h
    have hrep := counts_in_report out.wrapper
    rw [hpre]
    exact ⟨List.mem_append_right _ hrep.1, List.mem_append_right _ hrep.2.1,
      List.mem_append_right _ hrep.2.2.1, List.mem_append_right _ hrep.2.2.2⟩
  · intro hlt
    rw [eP, wrap_int32_eq _ (by norm_num at h1 ⊢; omega) hlt]
    exact ⟨rfl, by omega⟩
  · intro hlt
    rw [eR, wrap_int32_eq _ (by norm_num at h2 ⊢; omega) hlt]
    exact ⟨rfl, by omega⟩
  · intro task s s1 hs hps hrs hp' hr'
    exact task_counters_monotone E env fuel task ports scantype s s1 hs hps hrs hp' hr'

/-- Witness for the amended C10: a session on one target, started on a wrapper that already
counts 3000 probes, ends with the sum, 6000. -/
theorem session_counters_accumulate_witness :
    (fast_session_wrapper.config.enabled = true ∧
      is_int32 fast_session_wrapper.config.probes_sent ∧
      is_int32 fast_session_wrapper.config.responses_received) ∧
    ∃ out, ultra_scan_optimized idle_engine quiet_env 0 fast_session_wrapper [2] 0 0 none
        = Except.ok out ∧
      out.wrapper.config.probes_sent
        = fast_session_wrapper.config.probes_sent
          + targets_scanned fast_session_wrapper [2] * 3000 ∧
      fast_session_wrapper.config.probes_sent ≤ out.wrapper.config.probes_sent := by
  obtain ⟨out, hout⟩ := ultra_scan_optimized_of_complete idle_engine idle_engine_completes
    quiet_env 0 fast_session_wrapper [2] 0 0 none (by decide)
  exact ⟨by decide, out, hout,
    (session_counters_accumulate idle_engine quiet_env 0 fast_session_wrapper [2] 0 0 none out
      rfl (by decide) (by decide) hout).2.2.2.2.2.1 (by decide)⟩

/-! ## Shape of the partition -/

theorem mul_lt_iff_lt_ceil (N s i : ℕ) (hs : 0 < s) :
    i * s < N ↔ i < (N + s - 1) / s := by
  rw [Nat.lt_iff_add_one_le (m := i), Nat.le_div_iff_mul_le hs]
  constructor
  · intro h
    have : (i + 1) * s = i * s + s := by ring
    omega
  · intro h
    have : (i + 1) * s = i * s + s := by ring
    omega

theorem ceil_div_eq (N s : ℕ) (hs : 0 < s) : ⌈(N : ℚ) / (s : ℚ)⌉₊ = (N + s - 1) / s := by
  apply eq_of_forall_ge_iff
  intro n
  have hsq : (0 : ℚ) < s := by exact_mod_cast hs
  rw [Nat.ceil_le, div_le_iff₀ hsq]
  have h1 : ((N : ℚ) ≤ (n : ℚ) * (s : ℚ)) ↔ N ≤ n * s := by exact_mod_cast Iff.rfl
  rw [h1, ← Nat.lt_add_one_iff (m := (N + s - 1) / s), Nat.div_lt_iff_lt_mul hs]
  have : (n + 1) * s = n * s + s := by ring
  omega

theorem size_t_of_int_natCast (W : ℕ) (h : W < 2 ^ 31) : size_t_of_int (W : ℤ) = W := by
  unfold size_t_of_int
  rw [Int.emod_eq_of_lt (by positivity) (by norm_num at h ⊢; omega)]
  simp

theorem worker_targets_loop_eq (T : List TargetPtr) (s : ℕ) (hs : 0 < s) :
    ∀ r i, worker_targets_loop T s r i =
      (List.range (min r ((T.length + s - 1) / s - i))).map
        (fun j => (T.drop ((i + j) * s)).take (min ((i + j) * s + s) T.length - (i + j) * s)) := by
  intro r
  induction r with
  | zero => intro i; simp [worker_targets_loop]
  | succ r ih =>
    intro i
    simp only [worker_targets_loop]
    by_cases h : i * s < T.length
    · rw [if_pos h, ih (i + 1)]
      have hi := (mul_lt_iff_lt_ceil T.length s i hs).mp h
      have hk : min (r + 1) ((T.length + s - 1) / s - i)
          = min r ((T.length + s - 1) / s - (i + 1)) + 1 := by omega
      rw [hk, List.range_succ_eq_map, List.map_cons, List.map_map]
      congr 1
      apply List.map_congr_left
      intro j _
      simp only [Function.comp, Nat.succ_eq_add_one]
      have : i + 1 + j = i + (j + 1) := by ring
      rw [this]
    · rw [if_neg h]
      have hi : ¬ i < (T.length + s - 1) / s := fun hc =>
        h ((mul_lt_iff_lt_ceil T.length s i hs).mpr hc)
      have hk : min (r + 1) ((T.length + s - 1) / s - i) = 0 := by omega
      rw [hk]
      rfl

theorem targets_per_worker_pos (N W : ℕ) : 0 < targets_per_worker N W := by
  unfold targets_per_worker; omega

theorem shard_count_facts (N W : ℕ) (hW : 1 ≤ W) :
    min W ((N + targets_per_worker N W - 1) / targets_per_worker N W)
        * targets_per_worker N W = min N (W * targets_per_worker N W) ∧
    (min N (W * targets_per_worker N W) = N ↔ N ≤ W ∨ W ∣ N) := by
  unfold targets_per_worker
  rcases Nat.lt_or_ge N W with h | h
  · have h0 : N / W = 0 := Nat.div_eq_of_lt h
    rw [h0]
    simp only [max_eq_left (Nat.zero_le 1), Nat.add_sub_cancel, Nat.div_one, mul_one]
    constructor
    · omega
    · constructor
      · intro _; left; omega
      · intro _; omega
  · have h1 : 1 ≤ N / W := (Nat.le_div_iff_mul_le (by omega)).mpr (by simpa using h)
    rw [max_eq_right h1]
    have h2 : W * (N / W) ≤ N := Nat.mul_div_le N W
    set s := N / W with hsdef
    have hc : W ≤ (N + s - 1) / s := by
      rw [Nat.le_div_iff_mul_le (by omega)]
      omega
    constructor
    · rw [min_eq_left hc, min_eq_right h2]
    · rw [min_eq_right h2]
      constructor
      · intro he
        right
        exact Dvd.intro _ he
      · rintro (hle | hdvd)
        · have : N = W := le_antisymm hle h
          rw [hsdef, this, Nat.div_self (by omega)]
          omega
        · rw [hsdef]
          exact Nat.mul_div_cancel' hdvd

theorem flatten_chunks (T : List TargetPtr) (s : ℕ) :
    ∀ k, k * s ≤ T.length →
      ((List.range k).map (fun j => (T.drop (j * s)).take s)).flatten = T.take (k * s) := by
  intro k
  induction k with
  | zero => intro _; simp
  | succ k ih =>
    intro h
    have hk : k * s ≤ T.length := by
      have : (k + 1) * s = k * s + s := by ring
      omega
    rw [List.range_succ, List.map_append, List.flatten_append, ih hk]
    have : (k + 1) * s = k * s + s := by ring
    rw [this, List.take_add]
    simp

theorem worker_targets_eq (T : List TargetPtr) (W : ℕ) (hW : 1 ≤ W) :
    worker_targets T W =
      (List.range (min W ((T.length + targets_per_worker T.length W - 1)
          / targets_per_worker T.length W))).map
        (fun j => (T.drop (j * targets_per_worker T.length W)).take
          (targets_per_worker T.length W)) := by
  unfold worker_targets
  have hs := targets_per_worker_pos T.length W
  rw [worker_targets_loop_eq T _ hs]
  simp only [Nat.sub_zero, Nat.zero_add]
  apply List.map_congr_left
  intro j hj
  rw [List.mem_range] at hj
  have hf := (shard_count_facts T.length W hW).1
  set s := targets_per_worker T.length W with hsdef
  set k := min W ((T.length + s - 1) / s) with hkdef
  have h1 : (j + 1) * s ≤ k * s := Nat.mul_le_mul_right s hj
  have h2 : (j + 1) * s = j * s + s := by ring
  have h3 : j * s + s ≤ T.length := by
    have : k * s ≤ T.length := by rw [hf]; exact min_le_left _ _
    omega
  rw [min_eq_left h3, Nat.add_sub_cancel_left]

theorem worker_targets_shape (Targets : List TargetPtr) (W : ℕ) (hW : 1 ≤ W) :
    (worker_targets Targets W).length
      = min W ⌈(Targets.length : ℚ) / (targets_per_worker Targets.length W : ℚ)⌉₊ ∧
    (∀ i, i < (worker_targets Targets W).length →
      (worker_targets Targets W)[i]?
        = some ((Targets.drop (i * targets_per_worker Targets.length W)).take
            (targets_per_worker Targets.length W)) ∧
      (i + 1) * targets_per_worker Targets.length W ≤ Targets.length) ∧
    (∀ shard ∈ worker_targets Targets W,
      shard.length = targets_per_worker Targets.length W) ∧
    (worker_targets Targets W).flatten
      = Targets.take (min Targets.length (W * targets_per_worker Targets.length W)) ∧
    ((worker_targets Targets W).flatten = Targets ↔
      Targets.length ≤ W ∨ W ∣ Targets.length) := by
  have hs := targets_per_worker_pos Targets.length W
  have heq := worker_targets_eq Targets W hW
  obtain ⟨hf, hcov⟩ := shard_count_facts Targets.length W hW
  rw [ceil_div_eq _ _ hs]
  set s := targets_per_worker Targets.length W with hsdef
  set k := min W ((Targets.length + s - 1) / s) with hkdef
  have hks : k * s ≤ Targets.length := by rw [hf]; exact min_le_left _ _
  have hlen : (worker_targets Targets W).length = k := by
    rw [heq, List.length_map, List.length_range]
  have hfull : ∀ i, i < k → (i + 1) * s ≤ Targets.length := fun i hi =>
    le_trans (Nat.mul_le_mul_right s hi) hks
  have hflat : (worker_targets Targets W).flatten = Targets.take (k * s) := by
    rw [heq]
    exact flatten_chunks Targets s k hks
  refine ⟨hlen, ?_, ?_, ?_, ?_⟩
  · intro i hi
    rw [hlen] at hi
    refine ⟨?_, hfull i hi⟩
    rw [heq, List.getElem?_map, List.getElem?_range hi]
    rfl
  · intro shard hmem
    rw [heq, List.mem_map] at hmem
    obtain ⟨j, hj, rfl⟩ := hmem
    rw [List.mem_range] at hj
    have := hfull j hj
    have h2 : (j + 1) * s = j * s + s := by ring
    rw [List.length_take, List.length_drop]
    omega
  · rw [hflat, hf]
  · rw [hflat, hf, ← hcov]
    constructor
    · intro h
      have := congrArg List.length h
      rw [List.length_take] at this
      omega
    · intro h
      rw [h]
      exact List.take_length Targets

theorem shard_count_eq_ceil_iff (N W : ℕ) (hW : 1 ≤ W) :
    min W ⌈(N : ℚ) / (targets_per_worker N W : ℚ)⌉₊
        = ⌈(N : ℚ) / (targets_per_worker N W : ℚ)⌉₊ ↔ N ≤ W ∨ W ∣ N := by
  have hs := targets_per_worker_pos N W
  obtain ⟨-, hcov⟩ := shard_count_facts N W hW
  rw [ceil_div_eq _ _ hs, ← hcov]
  have hm := mul_lt_iff_lt_ceil N (targets_per_worker N W) W hs
  set s := targets_per_worker N W with hsdef
  constructor
  · intro h
    have : ¬ W < (N + s - 1) / s := by omega
    have : ¬ W * s < N := fun hc => this (hm.mp hc)
    omega
  · intro h
    have : ¬ W * s < N := by omega
    have : ¬ W < (N + s - 1) / s := fun hc => this (hm.mpr hc)
    omega

/-- Claim C13, as the source has it: with 25 targets and 20 workers the shard size is 1 and
the partitioner builds 20 shards, while the quotient of 25 by the shard size, rounded up,
is 25. -/
theorem shard_count_below_ceiling :
    targets_per_worker scenario_B_targets.length (size_t_of_int 20) = 1 ∧
    (worker_targets scenario_B_targets (size_t_of_int 20)).length = 20 ∧
    ⌈(scenario_B_targets.length : ℚ)
        / (targets_per_worker scenario_B_targets.length (size_t_of_int 20) : ℚ)⌉₊ = 25 ∧
    (worker_targets scenario_B_targets (size_t_of_int 20)).length
      ≠ ⌈(scenario_B_targets.length : ℚ)
        / (targets_per_worker scenario_B_targets.length (size_t_of_int 20) : ℚ)⌉₊ := by
  have h : ⌈(scenario_B_targets.length : ℚ)
      / (targets_per_worker scenario_B_targets.length (size_t_of_int 20) : ℚ)⌉₊ = 25 := by
    rw [ceil_div_eq _ _ (by decide)]
    decide
  refine ⟨by decide, by decide, h, ?_⟩
  rw [h]
  decide

/-- Claim C13, amended: for every list of targets and every worker count `W ≥ 1`, with the
shard size `max 1 (N / W)`, the partitioner builds exactly `min W ⌈N / shardSize⌉` shards,
which is `⌈N / shardSize⌉` exactly when `N ≤ W` or `W` divides `N`; the shards are taken in
input order (shard `i` starts at index `i * shardSize`), every one of them, and so every
one but the last, has exactly `shardSize` targets, and an empty list gives no shard. -/
theorem emitted_shard_count (Targets : List TargetPtr) (W : ℕ) (hW : 1 ≤ W) :
    targets_per_worker Targets.length W = max 1 (Targets.length / W) ∧
    (worker_targets Targets W).length
      = min W ⌈(Targets.length : ℚ) / (targets_per_worker Targets.length W : ℚ)⌉₊ ∧
    ((worker_targets Targets W).length
        = ⌈(Targets.length : ℚ) / (targets_per_worker Targets.length W : ℚ)⌉₊ ↔
      Targets.length ≤ W ∨ W ∣ Targets.length) ∧
    (∀ i, i < (worker_targets Targets W).length →
      (worker_targets Targets W)[i]?
        = some ((Targets.drop (i * targets_per_worker Targets.length W)).take
            (targets_per_worker Targets.length W))) ∧
    (∀ shard ∈ worker_targets Targets W,
      shard.length = targets_per_worker Targets.length W) ∧
    (Targets = [] → worker_targets Targets W = []) := by
  obtain ⟨hlen, hidx, hsz, -, -⟩ := worker_targets_shape Targets W hW
  refine ⟨rfl, hlen, ?_, fun i hi => (hidx i hi).1, hsz, ?_⟩
  · rw [hlen]
    exact shard_count_eq_ceil_iff Targets.length W hW
  · intro h
    apply List.eq_nil_of_length_eq_zero
    rw [hlen, h, List.length_nil, Nat.cast_zero, zero_div, Nat.ceil_zero]
    exact Nat.min_zero W

theorem emitted_shard_count_witness :
    1 ≤ 3 ∧
    (worker_targets [1, 2, 3, 4, 5, 6, 7] 3).length
      = min 3 ⌈(([1, 2, 3, 4, 5, 6, 7] : List TargetPtr).length : ℚ)
          / (targets_per_worker ([1, 2, 3, 4, 5, 6, 7] : List TargetPtr).length 3 : ℚ)⌉₊ ∧
    ∀ shard ∈ worker_targets [1, 2, 3, 4, 5, 6, 7] 3,
      shard.length = targets_per_worker ([1, 2, 3, 4, 5, 6, 7] : List TargetPtr).length 3 :=
  ⟨by decide, (emitted_shard_count [1, 2, 3, 4, 5, 6, 7] 3 (by decide)).2.1,
    (emitted_shard_count [1, 2, 3, 4, 5, 6, 7] 3 (by decide)).2.2.2.2.1⟩

/-- Claim C14: for every list of `N` targets and every worker count `W ≥ 1` (an `int`), with
`s = max 1 (N / W)`, the partitioner builds exactly `min W ⌈N / s⌉` shards, hence at most
`W`; shard `i` is the run of targets with indices from `i * s` up to, not including,
`(i + 1) * s`, all of which exist; every shard is non-empty and has exactly `s` targets;
the shards together are the first `min N (W * s)` targets; and they are all the targets if
and only if `N ≤ W` or `W` divides `N`. -/
theorem partition_shape (Targets : List TargetPtr) (W : ℕ) (hW : 1 ≤ W) (hint : W < 2 ^ 31) :
    size_t_of_int (W : ℤ) = W ∧
    targets_per_worker Targets.length W = max 1 (Targets.length / W) ∧
    (worker_targets Targets W).length
      = min W ⌈(Targets.length : ℚ) / (targets_per_worker Targets.length W : ℚ)⌉₊ ∧
    (worker_targets Targets W).length ≤ W ∧
    (∀ i, i < (worker_targets Targets W).length →
      (worker_targets Targets W)[i]?
        = some ((Targets.drop (i * targets_per_worker Targets.length W)).take
            (targets_per_worker Targets.length W)) ∧
      (i + 1) * targets_per_worker Targets.length W ≤ Targets.length) ∧
    (∀ shard ∈ worker_targets Targets W,
      shard ≠ [] ∧ shard.length = targets_per_worker Targets.length W) ∧
    (worker_targets Targets W).flatten
      = Targets.take (min Targets.length (W * targets_per_worker Targets.length W)) ∧
    ((worker_targets Targets W).flatten = Targets ↔
      Targets.length ≤ W ∨ W ∣ Targets.length) := by
  obtain ⟨hlen, hidx, hsz, hflat, hcov⟩ := worker_targets_shape Targets W hW
  refine ⟨size_t_of_int_natCast W hint, rfl, hlen, ?_, hidx, ?_, hflat, hcov⟩
  · rw [hlen]
    exact min_le_left _ _
  · intro shard hmem
    have h := hsz shard hmem
    refine ⟨?_, h⟩
    intro hnil
    have hs := targets_per_worker_pos Targets.length W
    rw [hnil, List.length_nil] at h
    omega

theorem partition_shape_witness :
    (1 ≤ 20 ∧ 20 < 2 ^ 31) ∧
    (worker_targets scenario_B_targets 20).length ≤ 20 ∧
    ((worker_targets scenario_B_targets 20).flatten = scenario_B_targets ↔
      scenario_B_targets.length ≤ 20 ∨ 20 ∣ scenario_B_targets.length) :=
  ⟨⟨by decide, by norm_num⟩,
    (partition_shape scenario_B_targets 20 (by decide) (by norm_num)).2.2.2.1,
    (partition_shape scenario_B_targets 20 (by decide) (by norm_num)).2.2.2.2.2.2.2⟩

/-! ## The worker count -/

theorem strcmp_eq_zero_iff : ∀ (a b : List Char), (∀ c ∈ a, c.toNat ≠ 0) →
    (∀ c ∈ b, c.toNat ≠ 0) → (strcmp a b = 0 ↔ a = b) := by
  intro a
  induction a with
  | nil =>
    intro b _ hb
    cases b with
    | nil => simp [strcmp]
    | cons y ys =>
      have := hb y (List.mem_cons_self _ _)
      simp only [strcmp]
      constructor
      · intro h; omega
      · intro h; cases h
  | cons x xs ih =>
    intro b ha hb
    cases b with
    | nil =>
      have := ha x (List.mem_cons_self _ _)
      simp only [strcmp]
      constructor
      · intro h; omega
      · intro h; cases h
    | cons y ys =>
      simp only [strcmp]
      by_cases hxy : x = y
      · rw [if_pos hxy, ih ys (fun c hc => ha c (List.mem_cons_of_mem _ hc))
          (fun c hc => hb c (List.mem_cons_of_mem _ hc)), hxy]
        simp
      · rw [if_neg hxy]
        constructor
        · intro h
          exfalso
          apply hxy
          have h1 : x.toNat = y.toNat := by omega
          have := congrArg Char.ofNat h1
          rwa [Char.ofNat_toNat, Char.ofNat_toNat] at this
        · intro h
          injection h with h1 _
          exact absurd h1 hxy

theorem optimize_flag_chars : ∀ c ∈ ("--optimize").toList, c.toNat ≠ 0 := by decide

theorem parse_optimization_option_true (g : Globals) (option : String)
    (h : option = "--optimize") :
    parse_optimization_option g option =
      (true,
        { g_optimization_wrapper := set_optimization_enabled g.g_optimization_wrapper true
          g_optimization_enabled := true },
        [Event.cout ("DEBUG: Optimization enabled via --optimize parameter")]) := by
  unfold parse_optimization_option
  rw [h, if_pos]
  exact (strcmp_eq_zero_iff _ _ optimize_flag_chars optimize_flag_chars).mpr rfl

theorem parse_optimization_option_false (g : Globals) (option : String)
    (hopt : ∀ c ∈ option.toList, c.toNat ≠ 0) (h : option ≠ "--optimize") :
    parse_optimization_option g option = (false, g, []) := by
  unfold parse_optimization_option
  rw [if_neg]
  intro hc
  apply h
  have := (strcmp_eq_zero_iff _ _ hopt optimize_flag_chars).mp hc
  exact String.ext this

theorem handle_loop_enabled : ∀ (args : List String) (g : Globals),
    (∀ a ∈ args, ∀ c ∈ a.toList, c.toNat ≠ 0) →
    (handle_optimization_options_loop args g).1.g_optimization_wrapper =
      (if "--optimize" ∈ args then set_optimization_enabled g.g_optimization_wrapper true
        else g.g_optimization_wrapper) := by
  intro args
  induction args with
  | nil => intro g _; simp [handle_optimization_options_loop]
  | cons a rest ih =>
    intro g hargs
    have hrest : ∀ a ∈ rest, ∀ c ∈ a.toList, c.toNat ≠ 0 :=
      fun b hb => hargs b (List.mem_cons_of_mem _ hb)
    simp only [handle_optimization_options_loop]
    by_cases ha : a = "--optimize"
    · rw [parse_optimization_option_true g a ha]
      simp only
      rw [ih _ hrest, if_pos (show "--optimize" ∈ a :: rest from by
        rw [ha]; exact List.mem_cons_self _ _)]
      split <;> rfl
    · rw [parse_optimization_option_false g a (hargs a (List.mem_cons_self _ _)) ha]
      simp only
      rw [ih _ hrest]
      have : ("--optimize" ∈ a :: rest) ↔ "--optimize" ∈ rest := by
        rw [List.mem_cons]
        constructor
        · rintro (h | h)
          · exact absurd h.symm ha
          · exact h
        · exact Or.inr
      simp only [this]

theorem mem_take_drop_one (argv : List String) (n : ℕ) (a : String) :
    a ∈ (argv.take n).drop 1 ↔ ∃ i : ℕ, 1 ≤ i ∧ i < n ∧ argv[i]? = some a := by
  rw [List.mem_iff_getElem?]
  constructor
  · rintro ⟨j, hj⟩
    rw [List.getElem?_drop, List.getElem?_take] at hj
    split at hj
    · exact ⟨1 + j, by omega, by omega, hj⟩
    · cases hj
  · rintro ⟨i, h1, h2, h3⟩
    refine ⟨i - 1, ?_⟩
    rw [List.getElem?_drop, List.getElem?_take]
    have : 1 + (i - 1) = i := by omega
    rw [this, if_pos h2]
    exact h3

/-- Claim C12: `parse_optimization_option` returns true exactly when its argument is the
string `--optimize`, and then the globals are those after `set_optimization_enabled(true)`;
for every other string it returns false, changes nothing and prints nothing.  After
`handle_optimization_options(argc, argv)` adaptive mode is enabled if and only if it was
enabled before or some `argv[i]` with `1 ≤ i < argc` is `--optimize`, and `argv` is as it
was.  The strings are C strings: no character of theirs is NUL. -/
theorem flag_recognizer (g : Globals) (option : String) (argc : ℤ) (argv : List String)
    (hopt : ∀ c ∈ option.toList, c.toNat ≠ 0)
    (hargv : ∀ a ∈ argv, ∀ c ∈ a.toList, c.toNat ≠ 0)
    (_hargc : argc ≤ (argv.length : ℤ)) :
    ((parse_optimization_option g option).1 = true ↔ option = "--optimize") ∧
    (option = "--optimize" →
      (parse_optimization_option g option).2.1.g_optimization_wrapper
        = set_optimization_enabled g.g_optimization_wrapper true ∧
      (parse_optimization_option g option).2.1.g_optimization_wrapper.config.enabled = true) ∧
    (option ≠ "--optimize" → parse_optimization_option g option = (false, g, [])) ∧
    ((handle_optimization_options g argc argv).1.g_optimization_wrapper.config.enabled = true ↔
      g.g_optimization_wrapper.config.enabled = true ∨
        ∃ i : ℕ, 1 ≤ i ∧ (i : ℤ) < argc ∧ argv[i]? = some "--optimize") ∧
    ((handle_optimization_options g argc argv).1.g_optimization_wrapper
      = g.g_optimization_wrapper ∨
     (handle_optimization_options g argc argv).1.g_optimization_wrapper
      = set_optimization_enabled g.g_optimization_wrapper true) ∧
    (handle_optimization_options g argc argv).2.1 = argv := by
  have hloop := handle_loop_enabled ((argv.take argc.toNat).drop 1) g
    (fun a ha => hargv a (List.mem_of_mem_take (List.mem_of_mem_drop ha)))
  have hmem := mem_take_drop_one argv argc.toNat "--optimize"
  have hidx : (∃ i : ℕ, 1 ≤ i ∧ i < argc.toNat ∧ argv[i]? = some "--optimize") ↔
      ∃ i : ℕ, 1 ≤ i ∧ (i : ℤ) < argc ∧ argv[i]? = some "--optimize" := by
    constructor
    · rintro ⟨i, h1, h2, h3⟩
      exact ⟨i, h1, by omega, h3⟩
    · rintro ⟨i, h1, h2, h3⟩
      exact ⟨i, h1, by omega, h3⟩
  refine ⟨?_, ?_, ?_, ?_, ?_, rfl⟩
  · by_cases h : option = "--optimize"
    · rw [parse_optimization_option_true g option h]
      simp [h]
    · rw [parse_optimization_option_false g option hopt h]
      simp [h]
  · intro h
    rw [parse_optimization_option_true g option h]
    exact ⟨rfl, rfl⟩
  · exact parse_optimization_option_false g option hopt
  · show (handle_optimization_options_loop _ g).1.g_optimization_wrapper.config.enabled = true ↔ _
    rw [hloop, ← hidx, ← hmem]
    by_cases hm : "--optimize" ∈ (argv.take argc.toNat).drop 1
    · rw [if_pos hm]
      exact ⟨fun _ => Or.inr hm, fun _ => rfl⟩
    · rw [if_neg hm]
      exact ⟨Or.inl, fun h => h.elim id (fun h1 => absurd h1 hm)⟩
  · show (handle_optimization_options_loop _ g).1.g_optimization_wrapper = _ ∨
      (handle_optimization_options_loop _ g).1.g_optimization_wrapper = _
    rw [hloop]
    split
    · exact Or.inr rfl
    · exact Or.inl rfl

theorem flag_recognizer_witness :
    (handle_optimization_options initial_globals 3
        ["nmap", "--optimize", "10.0.0.1"]).1.g_optimization_wrapper.config.enabled = true ↔
      initial_globals.g_optimization_wrapper.config.enabled = true ∨
        ∃ i : ℕ, 1 ≤ i ∧ (i : ℤ) < 3 ∧
          ["nmap", "--optimize", "10.0.0.1"][i]? = some "--optimize" :=
  (flag_recognizer initial_globals "-sS" 3 ["nmap", "--optimize", "10.0.0.1"]
    (by decide) (by decide) (by decide)).2.2.2.1

/-! ## The scan loop -/

theorem flatten_range_succ (f : ℕ → List Event) (k : ℕ) :
    ((List.range (k + 1)).map f).flatten
      = f 0 ++ ((List.range k).map (fun j => f (j + 1))).flatten := by
  rw [List.range_succ_eq_map, List.map_cons, List.flatten_cons, List.map_map]
  rfl

theorem scan_loop_run {σ : Type} (E : Engine σ) (env : Env) :
    ∀ (k fuel poll : ℕ) (USI : UltraScanInfo σ),
    (∀ j, j < k → E.incompleteHostsEmpty ((loop_pass E)^[j] USI) = false) →
    E.incompleteHostsEmpty ((loop_pass E)^[k] USI) = true → k ≤ fuel →
    scan_loop E env fuel poll USI =
      some ((loop_pass E)^[k] USI, poll + k,
        ((List.range k).map (fun j =>
          iteration_operations
            ++ poll_events env.debugging (env.keyWasPressed (poll + j)))).flatten) := by
  intro k
  induction k with
  | zero =>
    intro fuel poll USI _ hdone _
    rw [scan_loop_of_complete E env fuel poll USI hdone]
    rfl
  | succ k ih =>
    intro fuel poll USI hrun hdone hfuel
    obtain ⟨f, rfl⟩ : ∃ f, fuel = f + 1 := ⟨fuel - 1, by omega⟩
    have h0 : E.incompleteHostsEmpty USI = false := hrun 0 (by omega)
    have hrun1 : ∀ j, j < k →
        E.incompleteHostsEmpty ((loop_pass E)^[j] (loop_pass E USI)) = false := by
      intro j hj
      rw [← Function.iterate_succ_apply]
      exact hrun (j + 1) (by omega)
    have hdone1 : E.incompleteHostsEmpty ((loop_pass E)^[k] (loop_pass E USI)) = true := by
      rw [← Function.iterate_succ_apply]
      exact hdone
    have hrec := ih f (poll + 1) (loop_pass E USI) hrun1 hdone1 (by omega)
    have e1 : poll + 1 + k = poll + (k + 1) := by ring
    have e2 : ∀ j, poll + 1 + j = poll + (j + 1) := fun j => by ring
    simp only [e1, e2] at hrec
    simp only [scan_loop, h0, Bool.false_eq_true, if_false]
    rw [show scan_loop E env f (poll + 1) (E.processData (E.waitForResponses (E.doAnyNewProbes
      (E.doAnyRetryStackRetransmits (E.doAnyOutstandingRetransmits (E.doAnyPings USI))))))
      = _ from hrec]
    rw [flatten_range_succ, Function.iterate_succ_apply]
    rfl

theorem scan_loop_exit {σ : Type} (E : Engine σ) (env : Env) :
    ∀ (fuel poll : ℕ) (USI USI1 : UltraScanInfo σ) (poll1 : ℕ) (events : List Event),
    scan_loop E env fuel poll USI = some (USI1, poll1, events) →
    E.incompleteHostsEmpty USI1 = true := by
  intro fuel
  induction fuel with
  | zero =>
    intro poll USI USI1 poll1 events h
    simp only [scan_loop] at h
    split at h
    · rename_i hc
      cases h
      exact hc
    · cases h
  | succ f ih =>
    intro poll USI USI1 poll1 events h
    simp only [scan_loop] at h
    split at h
    · rename_i hc
      cases h
      exact hc
    · split at h
      · cases h
      · rename_i U p r hrec
        cases h
        exact ih _ _ _ _ _ hrec

theorem filter_iteration (d b : Bool) :
    (iteration_operations ++ poll_events d b).filter is_engine_operation
      = iteration_operations := by
  cases d <;> cases b <;> rfl

theorem filter_iterations (d : Bool) (key : ℕ → Bool) (k : ℕ) :
    (((List.range k).map (fun j =>
        iteration_operations ++ poll_events d (key j))).flatten).filter is_engine_operation
      = (List.replicate k iteration_operations).flatten := by
  induction k with
  | zero => rfl
  | succ k ih =>
    rw [List.range_succ, List.map_append, List.flatten_append, List.filter_append, ih,
      List.replicate_succ']
    simp only [List.map_cons, List.map_nil, List.flatten_cons, List.flatten_nil,
      List.append_nil, List.flatten_append]
    rw [filter_iteration]

theorem optimize_engine {σ : Type} (USI : UltraScanInfo σ) :
    (optimize_scan_parameters_for_engine USI).1.engine = USI.engine := by
  by_cases hn : USI.gstats.numprobes > 1000
  · rw [optimize_large_eq USI hn]
  · rw [optimize_small_eq USI (by omega)]

theorem optimize_tuning_not_operation {σ : Type} (USI : UltraScanInfo σ) :
    (optimize_scan_parameters_for_engine USI).2.filter is_engine_operation = [] := by
  unfold optimize_scan_parameters_for_engine
  rfl

theorem setup_events_not_operations {σ : Type} (E : Engine σ) (Targets : List TargetPtr)
    (ports : scan_lists_ptr) (scantype : stype) (to_ : Option timeout_info) :
    (setup_events E Targets ports scantype to_).filter is_engine_operation = [] := by
  unfold setup_events
  simp only [List.filter_append, optimize_tuning_not_operation]
  split <;> rfl

theorem execute_run {σ : Type} (E : Engine σ) (env : Env) (k fuel poll : ℕ)
    (Targets : List TargetPtr) (ports : scan_lists_ptr) (scantype : stype)
    (to_ : Option timeout_info)
    (hrun : ∀ j, j < k → E.incompleteHostsEmpty
      ((loop_pass E)^[j] (loop_entry E Targets ports scantype to_)) = false)
    (hdone : E.incompleteHostsEmpty
      ((loop_pass E)^[k] (loop_entry E Targets ports scantype to_)) = true)
    (hfuel : k ≤ fuel) :
    execute_optimized_scan_like_ultra_scan E env fuel poll Targets ports scantype to_ =
      Except.ok
        (to_.map (fun _ =>
            ((loop_pass E)^[k] (loop_entry E Targets ports scantype to_)).gstats.to_),
          poll + k,
          setup_events E Targets ports scantype to_
            ++ ((List.range k).map (fun j =>
              iteration_operations
                ++ poll_events env.debugging (env.keyWasPressed (poll + j)))).flatten) := by
  have hloop := scan_loop_run E env k fuel poll _ hrun hdone hfuel
  unfold loop_entry driver_start at hloop
  unfold execute_optimized_scan_like_ultra_scan
  simp only
  rw [hloop]
  cases to_ <;> rfl

theorem scan_loop_returns {σ : Type} (E : Engine σ) (env : Env) :
    ∀ (fuel poll : ℕ) (USI : UltraScanInfo σ) (r : UltraScanInfo σ × ℕ × List Event),
    scan_loop E env fuel poll USI = some r →
    ∃ k, k ≤ fuel ∧
      (∀ j, j < k → E.incompleteHostsEmpty ((loop_pass E)^[j] USI) = false) ∧
      E.incompleteHostsEmpty ((loop_pass E)^[k] USI) = true := by
  intro fuel
  induction fuel with
  | zero =>
    intro poll USI r h
    simp only [scan_loop] at h
    split at h
    · rename_i hc
      exact ⟨0, le_refl _, fun j hj => absurd hj (Nat.not_lt_zero j), hc⟩
    · cases h
  | succ f ih =>
    intro poll USI r h
    simp only [scan_loop] at h
    split at h
    · rename_i hc
      exact ⟨0, Nat.zero_le _, fun j hj => absurd hj (Nat.not_lt_zero j), hc⟩
    · rename_i hc
      split at h
      · cases h
      · rename_i U p rest hrec
        obtain ⟨k, hk, hrun, hdone⟩ := ih _ _ _ hrec
        refine ⟨k + 1, by omega, ?_, ?_⟩
        · intro j hj
          cases j with
          | zero => simpa using hc
          | succ j =>
            rw [Function.iterate_succ_apply]
            exact hrun j (by omega)
        · rw [Function.iterate_succ_apply]
          exact hdone

theorem first_completion_unique (done : ℕ → Bool) (k k1 : ℕ)
    (h1 : ∀ j, j < k → done j = false) (h2 : done k = true)
    (h3 : ∀ j, j < k1 → done j = false) (h4 : done k1 = true) : k = k1 := by
  rcases lt_trichotomy k k1 with h | h | h
  · rw [h3 k h] at h2
    cases h2
  · exact h
  · rw [h1 k1 h] at h4
    cases h4

theorem execute_returns {σ : Type} (E : Engine σ) (env : Env) (fuel poll : ℕ)
    (Targets : List TargetPtr) (ports : scan_lists_ptr) (scantype : stype)
    (to_ : Option timeout_info) (r : Option timeout_info × ℕ × List Event)
    (h : execute_optimized_scan_like_ultra_scan E env fuel poll Targets ports scantype to_
      = Except.ok r) :
    ∃ k, k ≤ fuel ∧
      (∀ j, j < k → E.incompleteHostsEmpty
        ((loop_pass E)^[j] (loop_entry E Targets ports scantype to_)) = false) ∧
      E.incompleteHostsEmpty
        ((loop_pass E)^[k] (loop_entry E Targets ports scantype to_)) = true := by
  unfold execute_optimized_scan_like_ultra_scan at h
  simp only at h
  split at h
  · cases h
  · rename_i U p rest hloop
    exact scan_loop_returns E env fuel poll _ _ hloop

theorem countdown_pass (USI : UltraScanInfo ℕ) (j : ℕ) :
    ((loop_pass countdown_engine)^[j] USI).engine = USI.engine - j := by
  induction j generalizing USI with
  | zero => rfl
  | succ j ih =>
    rw [Function.iterate_succ_apply, ih]
    show USI.engine - 1 - j = USI.engine - (j + 1)
    omega

theorem countdown_entry (Targets : List TargetPtr) (ports : scan_lists_ptr) (scantype : stype)
    (to_ : Option timeout_info) :
    (loop_entry countdown_engine Targets ports scantype to_).engine = Targets.length := by
  unfold loop_entry
  simp only [show ∀ U, countdown_engine.isRawScan U = false from fun _ => rfl,
    Bool.false_eq_true, if_false]
  unfold driver_start
  rw [optimize_engine]
  cases to_ <;> rfl

theorem countdown_incomplete (Targets : List TargetPtr) (ports : scan_lists_ptr)
    (scantype : stype) (to_ : Option timeout_info) (j : ℕ) :
    countdown_engine.incompleteHostsEmpty
      ((loop_pass countdown_engine)^[j] (loop_entry countdown_engine Targets ports scantype to_))
      = decide (Targets.length - j = 0) := by
  show decide (_ = 0) = _
  rw [countdown_pass, countdown_entry]

/-- Claim C15: let the engine be any engine, and let `k` be the number of times the scan
loop finds hosts still incomplete before it first finds none (the scan state on entry is
`loop_entry`, one pass through the loop applies `loop_pass`).  Then for every sequence of
key-poll results and every debugging setting, `execute_optimized_scan_like_ultra_scan`
returns when given at least `k` iterations, and after the setup events its events are, `k`
times over, the six engine operations in the order pings, outstanding retransmits,
retry-stack retransmits, new probes, wait for responses, process data, each time followed
by the key poll and, after a key press, the progress printout.  The engine operations among
the events are therefore `k` repetitions of the six, whatever the polls return; the profile
returned does not depend on the polls either; and the function cannot return after fewer
than `k` iterations. -/
theorem scan_loop_order {σ : Type} (E : Engine σ) (k fuel : ℕ) (Targets : List TargetPtr)
    (ports : scan_lists_ptr) (scantype : stype) (to_ : Option timeout_info)
    (hrun : ∀ j, j < k → E.incompleteHostsEmpty
      ((loop_pass E)^[j] (loop_entry E Targets ports scantype to_)) = false)
    (hdone : E.incompleteHostsEmpty
      ((loop_pass E)^[k] (loop_entry E Targets ports scantype to_)) = true)
    (hfuel : k ≤ fuel) :
    ∀ (env : Env) (poll : ℕ),
      execute_optimized_scan_like_ultra_scan E env fuel poll Targets ports scantype to_ =
        Except.ok
          (to_.map (fun _ =>
              ((loop_pass E)^[k] (loop_entry E Targets ports scantype to_)).gstats.to_),
            poll + k,
            setup_events E Targets ports scantype to_
              ++ ((List.range k).map (fun j =>
                iteration_operations
                  ++ poll_events env.debugging (env.keyWasPressed (poll + j)))).flatten) ∧
      (setup_events E Targets ports scantype to_).filter is_engine_operation = [] ∧
      (((List.range k).map (fun j =>
          iteration_operations
            ++ poll_events env.debugging (env.keyWasPressed (poll + j)))).flatten).filter
          is_engine_operation
        = (List.replicate k iteration_operations).flatten ∧
      (∀ j, poll_events env.debugging (env.keyWasPressed (poll + j))
        = Event.keyWasPressed (env.keyWasPressed (poll + j)) ::
            (if env.keyWasPressed (poll + j) then
              [Event.printStats] ++ (if env.debugging then [Event.log_current_rates] else [])
                ++ [Event.log_flush]
            else [])) ∧
      ∀ fuel1 r,
        execute_optimized_scan_like_ultra_scan E env fuel1 poll Targets ports scantype to_
          = Except.ok r → k ≤ fuel1 := by
  intro env poll
  refine ⟨execute_run E env k fuel poll Targets ports scantype to_ hrun hdone hfuel,
    setup_events_not_operations E Targets ports scantype to_,
    filter_iterations env.debugging (fun j => env.keyWasPressed (poll + j)) k,
    fun _ => rfl, ?_⟩
  intro fuel1 r hr
  obtain ⟨k1, hk1, hrun1, hdone1⟩ :=
    execute_returns E env fuel1 poll Targets ports scantype to_ r hr
  have := first_completion_unique
    (fun j => E.incompleteHostsEmpty
      ((loop_pass E)^[j] (loop_entry E Targets ports scantype to_)))
    k k1 hrun hdone hrun1 hdone1
  omega

theorem scan_loop_order_witness :
    execute_optimized_scan_like_ultra_scan countdown_engine busy_env 5 0 [1, 2] 0 0 none =
      Except.ok
        (none, 2,
          setup_events countdown_engine [1, 2] 0 0 none
            ++ ((List.range 2).map (fun _ =>
              iteration_operations ++ poll_events true true)).flatten) ∧
    (((List.range 2).map (fun _ =>
        iteration_operations ++ poll_events true true)).flatten).filter is_engine_operation
      = (List.replicate 2 iteration_operations).flatten ∧
    ∀ fuel1 r,
      execute_optimized_scan_like_ultra_scan countdown_engine busy_env fuel1 0 [1, 2] 0 0 none
        = Except.ok r → 2 ≤ fuel1 :=
  have h := scan_loop_order countdown_engine 2 5 [1, 2] 0 0 none
    (fun j hj => by
      rw [countdown_incomplete]
      simp only [List.length_cons, List.length_nil, decide_eq_false_iff_not]
      omega)
    (by rw [countdown_incomplete]; rfl) (by decide) busy_env 0
  ⟨h.1, h.2.2.1, h.2.2.2.2⟩

/-! ## Merging the counters -/

theorem sum_map_mul (k : ℤ) (l : List (List TargetPtr)) :
    (l.map (fun shard => k * (shard.length : ℤ))).sum
      = (((l.map List.length).sum : ℕ) : ℤ) * k := by
  induction l with
  | nil => simp
  | cons a l ih =>
    simp only [List.map_cons, List.sum_cons, ih, Nat.cast_add]
    ring

theorem targets_scanned_congr (w w1 : OptimizationWrapper) (Targets : List TargetPtr)
    (h : w1.config.parallel_workers = w.config.parallel_workers) :
    targets_scanned w1 Targets = targets_scanned w Targets := by
  unfold targets_scanned
  rw [h]

theorem session_step {σ : Type} (E : Engine σ) (env : Env) (fuel : ℕ)
    (w : OptimizationWrapper) (Targets : List TargetPtr) (ports : scan_lists_ptr)
    (scantype : stype) (to_ : Option timeout_info) (out : Outcome)
    (hp : is_int32 w.config.probes_sent) (hr : is_int32 w.config.responses_received)
    (h : ultra_scan_optimized E env fuel w Targets ports scantype to_ = Except.ok out) :
    out.wrapper.config =
      { w.config with
        probes_sent := wrap_int32 (w.config.probes_sent
          + ((if w.config.enabled then targets_scanned w Targets else 0 : ℕ) : ℤ) * 3000)
        responses_received := wrap_int32 (w.config.responses_received
          + ((if w.config.enabled then targets_scanned w Targets else 0 : ℕ) : ℤ) * 2400) } := by
  by_cases hen : w.config.enabled = true
  · rw [if_pos hen]
    exact session_counters E env fuel w Targets ports scantype to_ out hen hp hr h
  · rw [if_neg hen]
    unfold ultra_scan_optimized at h
    rw [if_pos (by simpa using hen)] at h
    cases h
    simp only [Nat.cast_zero, zero_mul, add_zero, wrap_int32_of_is_int32 hp,
      wrap_int32_of_is_int32 hr]

theorem is_int32_wrap (x : ℤ) : is_int32 (wrap_int32 x) := by
  unfold is_int32 wrap_int32
  constructor <;> omega

theorem run_sessions_counters {σ : Type} (E : Engine σ) (fuel : ℕ) (sessions : List Session) :
    ∀ (w w1 : OptimizationWrapper), run_sessions E fuel sessions w = Except.ok w1 →
    is_int32 w.config.probes_sent → is_int32 w.config.responses_received →
    w1.config =
      { w.config with
        probes_sent :=
          wrap_int32 (w.config.probes_sent + (sessions_scanned w sessions : ℤ) * 3000)
        responses_received :=
          wrap_int32 (w.config.responses_received + (sessions_scanned w sessions : ℤ) * 2400) }
      := by
  induction sessions with
  | nil =>
    intro w w1 h hp hr
    simp only [run_sessions] at h
    cases h
    unfold sessions_scanned
    simp only [List.map_nil, List.sum_nil, ite_self, Nat.cast_zero, zero_mul, add_zero,
      wrap_int32_of_is_int32 hp, wrap_int32_of_is_int32 hr]
  | cons c rest ih =>
    intro w w1 h hp hr
    simp only [run_sessions] at h
    split at h
    · cases h
    · rename_i out hout
      have hc := session_step E c.env fuel w c.Targets c.ports c.scantype c.to_ out hp hr hout
      have hw : out.wrapper.config.parallel_workers = w.config.parallel_workers := by rw [hc]
      have hen : out.wrapper.config.enabled = w.config.enabled := by rw [hc]
      have h1 := ih out.wrapper w1 h (by rw [hc]; exact is_int32_wrap _)
        (by rw [hc]; exact is_int32_wrap _)
      have hsc : sessions_scanned out.wrapper rest = sessions_scanned w rest := by
        unfold sessions_scanned
        rw [hen]
        congr 2
        apply List.map_congr_left
        intro c1 _
        exact targets_scanned_congr w out.wrapper c1.Targets hw
      have htot : sessions_scanned w (c :: rest)
          = (if w.config.enabled then targets_scanned w c.Targets else 0)
            + sessions_scanned w rest := by
        unfold sessions_scanned
        by_cases he : w.config.enabled = true
        · simp only [he, if_true, List.map_cons, List.sum_cons]
        · simp only [he, Bool.false_eq_true, if_false]
      rw [h1, hsc, hc, htot]
      simp only [Nat.cast_add, add_mul, wrap_add_wrap]

/-- Claim C16: whatever the order in which the tasks of `parallel_scan_targets` run, when
it returns the probes-sent counter has grown by the sum over the shards of 3000 times the
shard's size and the responses-received counter by the sum of 2400 times the shard's size,
provided these sums do not overflow an `int`; a single shard of `m` targets adds 3000 `m`
and 2400 `m`; the timeouts and errors counters are as before.  So after any number of
sessions started from zero counters, absent overflow, five times the responses equal four
times the probes. -/
theorem telemetry_merge {σ : Type} (E : Engine σ) (env : Env) (fuel : ℕ)
    (Targets : List TargetPtr) (ports : scan_lists_ptr) (scantype : stype) (s s1 : RunState)
    (h : parallel_scan_targets E env fuel Targets ports scantype s = Except.ok s1)
    (hp : is_int32 s.config.probes_sent) (hr : is_int32 s.config.responses_received)
    (hp1 : is_int32 (s.config.probes_sent
      + ((worker_targets Targets (size_t_of_int s.config.parallel_workers)).map
          (fun shard => 3000 * (shard.length : ℤ))).sum))
    (hr1 : is_int32 (s.config.responses_received
      + ((worker_targets Targets (size_t_of_int s.config.parallel_workers)).map
          (fun shard => 2400 * (shard.length : ℤ))).sum)) :
    s1.config.probes_sent = s.config.probes_sent
      + ((worker_targets Targets (size_t_of_int s.config.parallel_workers)).map
          (fun shard => 3000 * (shard.length : ℤ))).sum ∧
    s1.config.responses_received = s.config.responses_received
      + ((worker_targets Targets (size_t_of_int s.config.parallel_workers)).map
          (fun shard => 2400 * (shard.length : ℤ))).sum ∧
    s1.config.timeouts = s.config.timeouts ∧ s1.config.errors = s.config.errors ∧
    (∀ (shard : List TargetPtr) (t t1 : RunState),
      optimized_scan_engine E env fuel shard ports scantype t = Except.ok t1 →
      is_int32 (t.config.probes_sent + 3000 * (shard.length : ℤ)) →
      is_int32 (t.config.responses_received + 2400 * (shard.length : ℤ)) →
      t1.config.probes_sent = t.config.probes_sent + 3000 * (shard.length : ℤ) ∧
      t1.config.responses_received = t.config.responses_received + 2400 * (shard.length : ℤ) ∧
      t1.config.timeouts = t.config.timeouts ∧ t1.config.errors = t.config.errors) ∧
    (∀ (sessions : List Session) (w w1 : OptimizationWrapper),
      w.config.probes_sent = 0 → w.config.responses_received = 0 →
      run_sessions E fuel sessions w = Except.ok w1 →
      is_int32 ((sessions_scanned w sessions : ℤ) * 3000) →
      w1.config.probes_sent = (sessions_scanned w sessions : ℤ) * 3000 ∧
      w1.config.responses_received = (sessions_scanned w sessions : ℤ) * 2400 ∧
      w1.config.responses_received * 5 = w1.config.probes_sent * 4 ∧
      w1.config.timeouts = w.config.timeouts ∧ w1.config.errors = w.config.errors) := by
  have hc := (parallel_scan_targets_config E env fuel Targets ports scantype s s1 h
    (wrap_int32_of_is_int32 hp) (wrap_int32_of_is_int32 hr)).2
  rw [sum_map_mul] at hp1 hr1 ⊢
  rw [sum_map_mul]
  refine ⟨?_, ?_, by rw [hc], by rw [hc], ?_, ?_⟩
  · rw [hc]
    exact wrap_int32_of_is_int32 hp1
  · rw [hc]
    exact wrap_int32_of_is_int32 hr1
  · intro shard t t1 ht h3 h4
    have hd := optimized_scan_engine_config E env fuel shard ports scantype t t1 ht
    have e3 : 3000 * (shard.length : ℤ) = (shard.length : ℤ) * 3000 := mul_comm _ _
    have e4 : 2400 * (shard.length : ℤ) = (shard.length : ℤ) * 2400 := mul_comm _ _
    rw [e3] at h3 ⊢
    rw [e4] at h4 ⊢
    refine ⟨?_, ?_, by rw [hd], by rw [hd]⟩
    · rw [hd]
      exact wrap_int32_of_is_int32 h3
    · rw [hd]
      exact wrap_int32_of_is_int32 h4
  · intro sessions w w1 h0 h0r hrun hno
    have hd := run_sessions_counters E fuel sessions w w1 hrun
      (by rw [h0]; decide) (by rw [h0r]; decide)
    have hno2 : is_int32 ((sessions_scanned w sessions : ℤ) * 2400) := by
      unfold is_int32 at hno ⊢
      constructor <;> omega
    have e1 : w1.config.probes_sent = (sessions_scanned w sessions : ℤ) * 3000 := by
      rw [hd]
      show wrap_int32 _ = _
      rw [h0, zero_add]
      exact wrap_int32_of_is_int32 hno
    have e2 : w1.config.responses_received = (sessions_scanned w sessions : ℤ) * 2400 := by
      rw [hd]
      show wrap_int32 _ = _
      rw [h0r, zero_add]
      exact wrap_int32_of_is_int32 hno2
    refine ⟨e1, e2, ?_, by rw [hd], by rw [hd]⟩
    rw [e1, e2]
    ring

theorem telemetry_merge_witness :
    ∃ s1, parallel_scan_targets idle_engine quiet_env 0 scenario_B_targets 0 0 dispatch_state
        = Except.ok s1 ∧
      s1.config.probes_sent = dispatch_state.config.probes_sent
        + ((worker_targets scenario_B_targets
            (size_t_of_int dispatch_state.config.parallel_workers)).map
            (fun shard => 3000 * (shard.length : ℤ))).sum ∧
      s1.config.probes_sent = 60000 := by
  obtain ⟨s1, hs1⟩ := parallel_scan_targets_of_complete idle_engine idle_engine_completes
    quiet_env 0 scenario_B_targets 0 0 dispatch_state (by decide)
  have h := (telemetry_merge idle_engine quiet_env 0 scenario_B_targets 0 0 dispatch_state s1
    hs1 (by decide) (by decide) (by decide) (by decide)).1
  refine ⟨s1, hs1, h, ?_⟩
  rw [h]
  decide

end NmapIntegration
